import Mathlib

/-!
# Generic creature combat controllers

A shallow embedding of `src/server/game/AI/CoreAI/CombatAI.cpp`: the generic
melee-caster (`CombatAI`), the ranged caster (`CasterAI`), the vehicle
passenger controller (`VehicleAI`), the aggressor (`AggressorAI`), the archer
(`ArcherAI`) and the turret (`TurretAI`).

Conventions of the embedding

* `uint32` values are natural numbers; where the source adds two of them the
  sum is reduced modulo `UINT32_SIZE`.
* A call of the source that has no defined result in C++ (`x % 0`) makes the
  embedded function return `none`.
* Calls made on the host creature are recorded, in order, as a list of `Call`.
* What the host reports during one call (victim, cast state, descriptors,
  random draws, seats) is gathered in a host record passed to the function.
-/

/-- Number of values of a `uint32`. -/
def UINT32_SIZE : Nat := 4294967296

/-- Trigger condition of an ability (`AICondition`). -/
inductive AICondition
  | AICOND_AGGRO
  | AICOND_COMBAT
  | AICOND_DIE
  deriving DecidableEq, Repr

/-- The fields of `AISpellInfoType` read by CombatAI.cpp. The declaration is
not part of the sources at hand; descriptors are supplied by the host. -/
structure AISpellInfoType where
  condition : AICondition
  cooldown : Nat
  realCooldown : Nat
  maxRange : ℚ
  deriving DecidableEq, Repr

/-- Calls issued by a controller, in program order. `ScheduleEvent` records a
write to the controller's own scheduler; the others are calls on the host. -/
inductive Call
  | CastSpell (target : Nat) (spellId : Nat) (triggered : Bool)
  | DoCast (spellId : Nat)
  | DoMeleeAttackIfReady
  | InterruptNonMeleeSpells (withDelayed : Bool)
  | ScheduleEvent (spellId : Nat) (time : Nat)
  | ExitVehicle (guid : Nat)
  | DespawnOrUnsummon
  deriving DecidableEq, Repr

/-- A call that is a combat decision of a tick: a cast or a melee attempt. -/
def Call.isDecision : Call → Bool
  | .CastSpell _ _ _ => true
  | .DoCast _ => true
  | .DoMeleeAttackIfReady => true
  | _ => false

/-- A `DoCast` call. -/
def Call.isDoCast : Call → Bool
  | .DoCast _ => true
  | _ => false

/-- A forced exit of a passenger. -/
def Call.isExitVehicle : Call → Bool
  | .ExitVehicle _ => true
  | _ => false

/-- A pending ability timer of the scheduler. -/
structure ScheduledEvent where
  abilityId : Nat
  remaining : Nat
  deriving DecidableEq, Repr

/-- Modelled from the spec: the class `EventMap` (the member `events`) is not
part of the sources at hand. The scheduler is the list of pending
(ability id, remaining time) entries, in insertion order. -/
abbrev EventMap := List ScheduledEvent

/-- Modelled from the spec: `EventMap::ScheduleEvent` is missing from the
sources. `Schedule(id, d)` inserts or replaces the pending entry for `id`. -/
def EventMap.ScheduleEvent (ev : EventMap) (id : Nat) (d : Nat) : EventMap :=
  ev.filter (fun e => e.abilityId != id) ++ [⟨id, d⟩]

/-- Modelled from the spec: `EventMap::RescheduleEvent` is missing from the
sources. `Reschedule(id, d)` is the same as `Schedule(id, d)`. -/
def EventMap.RescheduleEvent (ev : EventMap) (id : Nat) (d : Nat) : EventMap :=
  ev.ScheduleEvent id d

/-- Modelled from the spec: `EventMap::Update` is missing from the sources.
`Advance(elapsed)` decrements every remaining time, clamped at zero, and
removes nothing. -/
def EventMap.Update (ev : EventMap) (diff : Nat) : EventMap :=
  ev.map (fun e => { e with remaining := e.remaining - diff })

/-- Modelled from the spec: `TakeReady()` of the scheduler, missing from the
sources. Removes and returns the first entry (insertion order) whose remaining
time has reached zero, or returns nothing and leaves the entries as they are. -/
def EventMap.TakeReady : EventMap → Option Nat × EventMap
  | [] => (none, [])
  | e :: es =>
    if e.remaining = 0 then (some e.abilityId, es)
    else ((EventMap.TakeReady es).1, e :: (EventMap.TakeReady es).2)

/-- Modelled from the spec: `EventMap::ExecuteEvent` is missing from the
sources. It is `TakeReady()` with the source's `uint32` result, where `0`
stands for "none" (`if (uint32 spellId = events.ExecuteEvent())`). -/
def EventMap.ExecuteEvent (ev : EventMap) : Nat × EventMap :=
  ((EventMap.TakeReady ev).1.getD 0, (EventMap.TakeReady ev).2)

/-- Modelled from the spec: `EventMap::Reset` is missing from the sources.
`Reset()` clears all pending entries. -/
def EventMap.Reset (_ev : EventMap) : EventMap := []

/-- What `me->GetVictim()` points to, as far as CombatAI.cpp looks at it. -/
structure VictimInfo where
  HasBreakableByDamageCrowdControlAura : Bool
  deriving DecidableEq, Repr

/-- What the host creature reports to a combat controller during one call. -/
structure CreatureHost where
  -- result of `GetAISpellInfo(id, me->GetMap()->GetDifficultyID())`
  GetAISpellInfo : Nat → Option AISpellInfoType
  -- result of `UpdateVictim()`
  UpdateVictim : Bool
  -- result of `me->HasUnitState(UNIT_STATE_CASTING)`
  casting : Bool
  -- result of `me->GetVictim()`; `none` is the null pointer
  GetVictim : Option VictimInfo
  -- result of `me->GetCurrentSpellCastTime(id)`
  GetCurrentSpellCastTime : Nat → Nat
  -- the successive results of `rand32()` during the call
  draws : Nat → Nat

/-- The `k`-th result of `rand32()` during a call, a `uint32`. -/
def CreatureHost.rand32 (h : CreatureHost) (k : Nat) : Nat :=
  h.draws k % UINT32_SIZE

/-- The expression `info->cooldown + rand32() % info->cooldown` on `uint32`
operands, `r` being the value drawn. Undefined in C++ when the cooldown is 0. -/
def fuzzedCooldown (cooldown : Nat) (r : Nat) : Option Nat :=
  if cooldown = 0 then none else some ((cooldown + r % cooldown) % UINT32_SIZE)

/-- The members of `CombatAI`: the owned abilities and the scheduler. -/
structure CombatAI where
  spells : List Nat
  events : EventMap
  deriving DecidableEq, Repr

/-- `CombatAI::Reset`. -/
def CombatAI.Reset (ai : CombatAI) : CombatAI :=
  { ai with events := ai.events.Reset }

/-- The loop of `CombatAI::JustEngagedWith` over the owned abilities still to
visit; `k` counts the `rand32()` calls made so far. -/
def CombatAI.engageLoop (h : CreatureHost) (who : Nat) :
    List Nat → Nat → EventMap → Option (EventMap × List Call)
  | [], _, ev => some (ev, [])
  | i :: rest, k, ev =>
    match h.GetAISpellInfo i with
    | some info =>
      if info.condition = AICondition.AICOND_AGGRO then
        (CombatAI.engageLoop h who rest k ev).map
          (fun res => (res.1, Call.CastSpell who i false :: res.2))
      else if info.condition = AICondition.AICOND_COMBAT then
        match fuzzedCooldown info.cooldown (h.rand32 k) with
        | some d =>
          (CombatAI.engageLoop h who rest (k + 1) (ev.ScheduleEvent i d)).map
            (fun res => (res.1, Call.ScheduleEvent i d :: res.2))
        | none => none
      else CombatAI.engageLoop h who rest k ev
    | none => CombatAI.engageLoop h who rest k ev

/-- `CombatAI::JustEngagedWith(who)`. -/
def CombatAI.JustEngagedWith (h : CreatureHost) (ai : CombatAI) (who : Nat) :
    Option (CombatAI × List Call) :=
  (CombatAI.engageLoop h who ai.spells 0 ai.events).map
    (fun res => ({ ai with events := res.1 }, res.2))

/-- `CombatAI::UpdateAI(diff)`. -/
def CombatAI.UpdateAI (h : CreatureHost) (ai : CombatAI) (diff : Nat) :
    Option (CombatAI × List Call) :=
  if !h.UpdateVictim then some (ai, [])
  else
    let events := ai.events.Update diff
    if h.casting then some ({ ai with events := events }, [])
    else
      let spellId := events.ExecuteEvent.1
      let events := events.ExecuteEvent.2
      if spellId ≠ 0 then
        match h.GetAISpellInfo spellId with
        | some info =>
          match fuzzedCooldown info.cooldown (h.rand32 0) with
          | some d =>
            some ({ ai with events := events.ScheduleEvent spellId d },
              [Call.DoCast spellId, Call.ScheduleEvent spellId d])
          | none => none
        | none => some ({ ai with events := events }, [Call.DoCast spellId])
      else some ({ ai with events := events }, [Call.DoMeleeAttackIfReady])

/-- `CombatAI::SpellInterrupted(spellId, unTimeMs)`. -/
def CombatAI.SpellInterrupted (ai : CombatAI) (spellId : Nat) (unTimeMs : Nat) : CombatAI :=
  { ai with events := ai.events.RescheduleEvent spellId unTimeMs }

/-- The members of `CasterAI`: those of `CombatAI` and the attack range. -/
structure CasterAI extends CombatAI where
  m_attackDist : ℚ
  deriving DecidableEq, Repr

/-- The loop of `CasterAI::JustEngagedWith` over the owned abilities still to
visit. `spells` is the whole owned list, `spell` the index drawn before the
loop and `count` the index of the ability being visited. -/
def CasterAI.engageLoop (h : CreatureHost) (who : Nat) (spells : List Nat) (spell : Nat) :
    List Nat → Nat → EventMap → EventMap × List Call
  | [], _, ev => (ev, [])
  | i :: rest, count, ev =>
    match h.GetAISpellInfo i with
    | some info =>
      if info.condition = AICondition.AICOND_AGGRO then
        let res := CasterAI.engageLoop h who spells spell rest (count + 1) ev
        (res.1, Call.CastSpell who i false :: res.2)
      else if info.condition = AICondition.AICOND_COMBAT then
        if count = spell then
          let cooldown := (info.realCooldown + h.GetCurrentSpellCastTime i) % UINT32_SIZE
          let res := CasterAI.engageLoop h who spells spell rest (count + 1)
            (ev.ScheduleEvent i cooldown)
          (res.1, Call.DoCast (spells.getD spell 0) :: Call.ScheduleEvent i cooldown :: res.2)
        else
          let res := CasterAI.engageLoop h who spells spell rest (count + 1)
            (ev.ScheduleEvent i info.realCooldown)
          (res.1, Call.ScheduleEvent i info.realCooldown :: res.2)
      else CasterAI.engageLoop h who spells spell rest (count + 1) ev
    | none => CasterAI.engageLoop h who spells spell rest (count + 1) ev

/-- `CasterAI::JustEngagedWith(who)`. -/
def CasterAI.JustEngagedWith (h : CreatureHost) (ai : CasterAI) (who : Nat) :
    CasterAI × List Call :=
  if ai.spells = [] then (ai, [])
  else
    let spell := h.rand32 0 % ai.spells.length
    let res := CasterAI.engageLoop h who ai.spells spell ai.spells 0 ai.events
    ({ ai with events := res.1 }, res.2)

/-- The delay `(casttime ? casttime : 500) + info->realCooldown` of
`CasterAI::UpdateAI`, on `uint32` operands. -/
def CasterAI.recastDelay (casttime : Nat) (realCooldown : Nat) : Nat :=
  ((if casttime ≠ 0 then casttime else 500) + realCooldown) % UINT32_SIZE

/-- `CasterAI::UpdateAI(diff)`. -/
def CasterAI.UpdateAI (h : CreatureHost) (ai : CasterAI) (diff : Nat) :
    CasterAI × List Call :=
  if !h.UpdateVictim then (ai, [])
  else
    let events := ai.events.Update diff
    if h.GetVictim.any (fun v => v.HasBreakableByDamageCrowdControlAura) then
      ({ ai with events := events }, [Call.InterruptNonMeleeSpells false])
    else if h.casting then ({ ai with events := events }, [])
    else
      let spellId := events.ExecuteEvent.1
      let events := events.ExecuteEvent.2
      if spellId ≠ 0 then
        let casttime := h.GetCurrentSpellCastTime spellId
        match h.GetAISpellInfo spellId with
        | some info =>
          let d := CasterAI.recastDelay casttime info.realCooldown
          ({ ai with events := events.ScheduleEvent spellId d },
            [Call.DoCast spellId, Call.ScheduleEvent spellId d])
        | none => ({ ai with events := events }, [Call.DoCast spellId])
      else ({ ai with events := events }, [])

/-- An entry of the vehicle's `SeatMap`: the seat and its passenger's guid. -/
structure VehicleSeat where
  seatId : Int
  passengerGuid : Nat
  deriving DecidableEq, Repr

/-- What the host reports to a vehicle controller during one call. -/
structure VehicleHost where
  -- `me->GetVehicleKit()`: the seats in iteration order, `none` when null
  GetVehicleKit : Option (List VehicleSeat)
  -- `ObjectAccessor::GetUnit(*me, guid)`: `none` when null, else whether
  -- `ToPlayer()` of the unit is non-null
  GetUnit : Nat → Option Bool
  -- `IsObjectMeetingNotGroupedConditions(.., me->GetEntry(), player, me)`
  IsObjectMeetingNotGroupedConditions : Nat → Bool

/-- The members of `VehicleAI`. -/
structure VehicleAI where
  m_HasConditions : Bool
  m_ConditionsTimer : Nat
  m_DoDismiss : Bool
  m_DismissTimer : Nat
  deriving DecidableEq, Repr

/-- The constructor `VehicleAI::VehicleAI` (the name of the class is taken by
the record of its members); `hasConditions` is the result of
`LoadConditions()`. The two period constants come from CombatAI.h, which is
not part of the sources at hand. -/
def VehicleAI.ctor (VEHICLE_CONDITION_CHECK_TIME VEHICLE_DISMISS_TIME : Nat)
    (hasConditions : Bool) : VehicleAI :=
  { m_HasConditions := hasConditions
    m_ConditionsTimer := VEHICLE_CONDITION_CHECK_TIME
    m_DoDismiss := false
    m_DismissTimer := VEHICLE_DISMISS_TIME }

/-- The seat has a passenger that resolves to a player failing the
eligibility conditions: the three nested tests of `CheckConditions`. -/
def VehicleHost.violates (h : VehicleHost) (s : VehicleSeat) : Bool :=
  match h.GetUnit s.passengerGuid with
  | some true => !h.IsObjectMeetingNotGroupedConditions s.passengerGuid
  | _ => false

/-- The seat loop of `VehicleAI::CheckConditions`: the guid of the player
on which the loop returns, if any. -/
def VehicleAI.seatLoop (h : VehicleHost) : List VehicleSeat → Option Nat
  | [] => none
  | s :: rest =>
    match h.GetUnit s.passengerGuid with
    | some isPlayer =>
      if isPlayer then
        if !h.IsObjectMeetingNotGroupedConditions s.passengerGuid then some s.passengerGuid
        else VehicleAI.seatLoop h rest
      else VehicleAI.seatLoop h rest
    | none => VehicleAI.seatLoop h rest

/-- `VehicleAI::CheckConditions(diff)`. -/
def VehicleAI.CheckConditions (VEHICLE_CONDITION_CHECK_TIME : Nat) (h : VehicleHost)
    (ai : VehicleAI) (diff : Nat) : VehicleAI × List Call :=
  if !ai.m_HasConditions then (ai, [])
  else if ai.m_ConditionsTimer ≤ diff then
    match h.GetVehicleKit with
    | some seats =>
      match VehicleAI.seatLoop h seats with
      | some guid => (ai, [Call.ExitVehicle guid])
      | none => ({ ai with m_ConditionsTimer := VEHICLE_CONDITION_CHECK_TIME }, [])
    | none => ({ ai with m_ConditionsTimer := VEHICLE_CONDITION_CHECK_TIME }, [])
  else ({ ai with m_ConditionsTimer := ai.m_ConditionsTimer - diff }, [])

/-- `VehicleAI::UpdateAI(diff)`. -/
def VehicleAI.UpdateAI (VEHICLE_CONDITION_CHECK_TIME : Nat) (h : VehicleHost)
    (ai : VehicleAI) (diff : Nat) : VehicleAI × List Call :=
  let checked := VehicleAI.CheckConditions VEHICLE_CONDITION_CHECK_TIME h ai diff
  if checked.1.m_DoDismiss then
    if checked.1.m_DismissTimer < diff then
      ({ checked.1 with m_DoDismiss := false }, checked.2 ++ [Call.DespawnOrUnsummon])
    else
      ({ checked.1 with m_DismissTimer := checked.1.m_DismissTimer - diff }, checked.2)
  else checked

/-- `VehicleAI::OnCharmed`; `charmed` is `me->IsCharmed()` and `inUse` is
`me->GetVehicleKit()->IsVehicleInUse()`. -/
def VehicleAI.OnCharmed (VEHICLE_DISMISS_TIME : Nat) (charmed : Bool) (inUse : Bool)
    (ai : VehicleAI) : VehicleAI :=
  let doDismiss :=
    if !inUse && !charmed && ai.m_HasConditions then true
    else if charmed then false
    else ai.m_DoDismiss
  { ai with m_DoDismiss := doDismiss, m_DismissTimer := VEHICLE_DISMISS_TIME }

/-- The effect of `Player::ExitVehicle` on the seats: the seat of the
passenger `guid` becomes empty (guid 0). -/
def VehicleHost.ExitVehicle (h : VehicleHost) (guid : Nat) : VehicleHost :=
  { h with GetVehicleKit := h.GetVehicleKit.map (fun seats =>
      seats.map (fun s => if s.passengerGuid = guid then { s with passengerGuid := 0 } else s)) }

/-- A run of `VehicleAI::UpdateAI` over successive ticks, each with what the
host reports at that tick and its `diff`: the final members and the calls of
every tick. -/
def VehicleAI.runTicks (VEHICLE_CONDITION_CHECK_TIME : Nat) :
    VehicleAI → List (VehicleHost × Nat) → VehicleAI × List (List Call)
  | ai, [] => (ai, [])
  | ai, (h, diff) :: rest =>
    let step := VehicleAI.UpdateAI VEHICLE_CONDITION_CHECK_TIME h ai diff
    let tail := VehicleAI.runTicks VEHICLE_CONDITION_CHECK_TIME step.1 rest
    (tail.1, step.2 :: tail.2)

/-- Summed elapsed time of a sequence of ticks. -/
def elapsed (ticks : List (VehicleHost × Nat)) : Nat :=
  (ticks.map (fun t => t.2)).sum

/-- The elapsed time, counted from the start of the run, at the end of each
tick of the run that force-exits a passenger. -/
def VehicleAI.evictionTimes (VEHICLE_CONDITION_CHECK_TIME : Nat) :
    VehicleAI → Nat → List (VehicleHost × Nat) → List Nat
  | _, _, [] => []
  | ai, now, (h, diff) :: rest =>
    let step := VehicleAI.UpdateAI VEHICLE_CONDITION_CHECK_TIME h ai diff
    let later := VehicleAI.evictionTimes VEHICLE_CONDITION_CHECK_TIME step.1 (now + diff) rest
    if step.2.any Call.isExitVehicle then (now + diff) :: later else later

/-- A host for the worked examples: abilities 7, 8 and 11 are cooldown-loop
abilities (cooldown 2000, real cooldown 1500, range 20), ability 9 is an
on-aggro ability, ability 10 an on-death one; no other id resolves. -/
def exampleHost : CreatureHost :=
  { GetAISpellInfo := fun i =>
      if i = 7 ∨ i = 8 ∨ i = 11 then some ⟨AICondition.AICOND_COMBAT, 2000, 1500, 20⟩
      else if i = 9 then some ⟨AICondition.AICOND_AGGRO, 2000, 1500, 20⟩
      else if i = 10 then some ⟨AICondition.AICOND_DIE, 2000, 1500, 20⟩
      else none
    UpdateVictim := true
    casting := false
    GetVictim := some ⟨false⟩
    GetCurrentSpellCastTime := fun _ => 100
    draws := fun _ => 4320 }

/-- An ability that resolves with the cooldown-loop trigger (`AICOND_COMBAT`):
the abilities the spec calls eligible. -/
def CreatureHost.isCooldownLoop (h : CreatureHost) (i : Nat) : Bool :=
  match h.GetAISpellInfo i with
  | some info => info.condition == AICondition.AICOND_COMBAT
  | none => false

/-- The reschedule delay as the spec words it for `CasterAI::UpdateAI`:
`max(observedCastTime, defaultMinimumDelay) + realCooldown` with the default
floor of 500 ms, in `uint32` arithmetic. -/
def spec_recastDelay (observedCastTime : Nat) (realCooldown : Nat) : Nat :=
  (max observedCastTime 500 + realCooldown) % UINT32_SIZE

/-- A vehicle with three seated players 1, 2 and 3, of which only player 2
fails the eligibility conditions; the empty guid 0 resolves to no unit. -/
def exampleVehicle : VehicleHost :=
  { GetVehicleKit := some [⟨0, 1⟩, ⟨1, 2⟩, ⟨2, 3⟩]
    GetUnit := fun g => if g = 0 then none else some true
    IsObjectMeetingNotGroupedConditions := fun g => g != 2 }

/-- A vehicle with three seated players 1, 2 and 3, of which players 1 and 2
fail the eligibility conditions; the empty guid 0 resolves to no unit. -/
def crowdedVehicle : VehicleHost :=
  { GetVehicleKit := some [⟨0, 1⟩, ⟨1, 2⟩, ⟨2, 3⟩]
    GetUnit := fun g => if g = 0 then none else some true
    IsObjectMeetingNotGroupedConditions := fun g => g == 3 }

/-- `AggressorAI::Permissible`. The two enumerators are declared in a header
that is not part of the sources at hand and are taken as parameters;
`isCivilian` and `isNeutralToAll` are `creature->IsCivilian()` and
`creature->IsNeutralToAll()`. -/
def AggressorAI.Permissible (PERMIT_BASE_REACTIVE PERMIT_BASE_NO : Int)
    (isCivilian : Bool) (isNeutralToAll : Bool) : Int :=
  if !isCivilian && !isNeutralToAll then PERMIT_BASE_REACTIVE else PERMIT_BASE_NO

/-- `VehicleAI::Permissible`; `isVehicle` is `creature->IsVehicle()`. -/
def VehicleAI.Permissible (PERMIT_BASE_SPECIAL PERMIT_BASE_NO : Int) (isVehicle : Bool) : Int :=
  if isVehicle then PERMIT_BASE_SPECIAL else PERMIT_BASE_NO

/-- Calls issued by the aggressor, archer and turret controllers, in program
order. `MoveChase who none` is `MoveChase(who)`, the chase at the default
distance; `MoveChase who (some d)` is `MoveChase(who, d)`. -/
inductive StanceCall
  | TC_LOG_ERROR
  | Attack (who : Nat) (meleeAttack : Bool)
  | MoveChase (who : Nat) (dist : Option ℚ)
  | MoveIdle
  | DoSpellAttackIfReady (spellId : Nat)
  | DoMeleeAttackIfReady
  deriving DecidableEq, Repr

/-- An `Attack` call. -/
def StanceCall.isAttack : StanceCall → Bool
  | .Attack _ _ => true
  | _ => false

/-- A `MoveChase` call. -/
def StanceCall.isMoveChase : StanceCall → Bool
  | .MoveChase _ _ => true
  | _ => false

/-- An attack action of a tick: a spell attack or a melee attack attempt. -/
def StanceCall.isAttackAction : StanceCall → Bool
  | .DoSpellAttackIfReady _ => true
  | .DoMeleeAttackIfReady => true
  | _ => false

/-- What the archer and turret constructors read from a resolved `SpellInfo`:
`GetMinRange(false)` and `GetMaxRange(false)`. -/
structure SpellRange where
  minRange : ℚ
  maxRange : ℚ
  deriving DecidableEq, Repr

/-- What the host reports to an aggressor, archer or turret controller during
one call, about the unit the call is about (the new target or the victim). -/
structure StanceHost where
  -- result of `UpdateVictim()`
  UpdateVictim : Bool
  -- result of `me->IsWithinCombatRange(unit, range)`, by range
  IsWithinCombatRange : ℚ → Bool
  -- result of `me->Attack(who, meleeAttack)`, by `meleeAttack`
  Attack : Bool → Bool
  -- result of `who->IsFlying()`
  IsFlying : Bool

/-- `AggressorAI::UpdateAI`. -/
def AggressorAI.UpdateAI (h : StanceHost) : List StanceCall :=
  if !h.UpdateVictim then [] else [StanceCall.DoMeleeAttackIfReady]

/-- The member `m_minRange` of `ArcherAI` and the fields of the creature its
code reads and writes: `me->m_spells[0]`, `me->m_CombatDistance` and
`me->m_SightDistance`. -/
structure ArcherAI where
  m_spells0 : Nat
  m_minRange : ℚ
  m_CombatDistance : ℚ
  m_SightDistance : ℚ
  deriving DecidableEq, Repr

/-- The constructor `ArcherAI::ArcherAI`: the members after construction and
the calls made. `GetSpellInfo` is `sSpellMgr->GetSpellInfo(id, difficulty)`,
`none` for the null pointer; the message logged when slot 0 is empty reads
"ArcherAI set for creature ... with spell1=0. AI will do nothing". -/
def ArcherAI.ctor (MELEE_RANGE : ℚ) (m_spells0 : Nat) (GetSpellInfo : Nat → Option SpellRange) :
    ArcherAI × List StanceCall :=
  let spellInfo := GetSpellInfo m_spells0
  let minRange := match spellInfo with
    | some info => info.minRange
    | none => 0
  let combatDistance := match spellInfo with
    | some info => info.maxRange
    | none => 0
  ({ m_spells0 := m_spells0
     m_minRange := if minRange = 0 then MELEE_RANGE else minRange
     m_CombatDistance := combatDistance
     m_SightDistance := combatDistance },
   if m_spells0 = 0 then [StanceCall.TC_LOG_ERROR] else [])

/-- `ArcherAI::AttackStart(who)`; `who` is `none` for the null pointer. -/
def ArcherAI.AttackStart (h : StanceHost) (ai : ArcherAI) (who : Option Nat) :
    List StanceCall :=
  match who with
  | none => []
  | some w =>
    (if h.IsWithinCombatRange ai.m_minRange then
      StanceCall.Attack w true ::
        (if h.Attack true && !h.IsFlying then [StanceCall.MoveChase w none] else [])
    else
      StanceCall.Attack w false ::
        (if h.Attack false && !h.IsFlying then
          [StanceCall.MoveChase w (some ai.m_CombatDistance)] else []))
    ++ (if h.IsFlying then [StanceCall.MoveIdle] else [])

/-- `ArcherAI::UpdateAI`. -/
def ArcherAI.UpdateAI (h : StanceHost) (ai : ArcherAI) : List StanceCall :=
  if !h.UpdateVictim then []
  else if !h.IsWithinCombatRange ai.m_minRange then
    [StanceCall.DoSpellAttackIfReady ai.m_spells0]
  else [StanceCall.DoMeleeAttackIfReady]

/-- The member `m_minRange` of `TurretAI` and the fields of the creature its
code reads and writes. -/
structure TurretAI where
  m_spells0 : Nat
  m_minRange : ℚ
  m_CombatDistance : ℚ
  m_SightDistance : ℚ
  deriving DecidableEq, Repr

/-- The constructor `TurretAI::TurretAI`: the members after construction and
the calls made. -/
def TurretAI.ctor (m_spells0 : Nat) (GetSpellInfo : Nat → Option SpellRange) :
    TurretAI × List StanceCall :=
  let spellInfo := GetSpellInfo m_spells0
  let minRange := match spellInfo with
    | some info => info.minRange
    | none => 0
  let combatDistance := match spellInfo with
    | some info => info.maxRange
    | none => 0
  ({ m_spells0 := m_spells0
     m_minRange := minRange
     m_CombatDistance := combatDistance
     m_SightDistance := combatDistance },
   if m_spells0 = 0 then [StanceCall.TC_LOG_ERROR] else [])

/-- `TurretAI::CanAIAttack(who)`. -/
def TurretAI.CanAIAttack (h : StanceHost) (ai : TurretAI) : Bool :=
  if !h.IsWithinCombatRange ai.m_CombatDistance
      || (ai.m_minRange != 0 && h.IsWithinCombatRange ai.m_minRange) then false
  else true

/-- `TurretAI::AttackStart(who)`. -/
def TurretAI.AttackStart (_h : StanceHost) (_ai : TurretAI) (who : Option Nat) :
    List StanceCall :=
  match who with
  | none => []
  | some w => [StanceCall.Attack w false]

/-- `TurretAI::UpdateAI`. -/
def TurretAI.UpdateAI (h : StanceHost) (ai : TurretAI) : List StanceCall :=
  if !h.UpdateVictim then [] else [StanceCall.DoSpellAttackIfReady ai.m_spells0]

/-- A host whose range test is inclusive, for a unit at distance `dist`:
within range `r` exactly when `dist ≤ r`. `attackOk` is the result of every
`Attack` call and `flying` the result of `IsFlying`; the victim is valid. -/
def stanceHostAt (dist : ℚ) (attackOk : Bool) (flying : Bool) : StanceHost :=
  { UpdateVictim := true
    IsWithinCombatRange := fun r => decide (dist ≤ r)
    Attack := fun _ => attackOk
    IsFlying := flying }

/-- The events a vehicle controller receives from the host: a tick, with what
the host reports during it and its `diff`, or a charm-state change, with
`me->IsCharmed()` and `IsVehicleInUse()` as observed by `OnCharmed`. -/
inductive VehicleEvent
  | UpdateAI (h : VehicleHost) (diff : Nat)
  | OnCharmed (charmed : Bool) (inUse : Bool)

/-- The controller handles one event: the members afterwards and the calls. -/
def VehicleAI.handle (VEHICLE_CONDITION_CHECK_TIME VEHICLE_DISMISS_TIME : Nat)
    (ai : VehicleAI) : VehicleEvent → VehicleAI × List Call
  | .UpdateAI h diff => VehicleAI.UpdateAI VEHICLE_CONDITION_CHECK_TIME h ai diff
  | .OnCharmed charmed inUse =>
    (VehicleAI.OnCharmed VEHICLE_DISMISS_TIME charmed inUse ai, [])

/-- A run of the controller over a sequence of events: after each event, the
members and the calls made while handling it. -/
def VehicleAI.trace (VEHICLE_CONDITION_CHECK_TIME VEHICLE_DISMISS_TIME : Nat) :
    VehicleAI → List VehicleEvent → List (VehicleAI × List Call)
  | _, [] => []
  | ai, e :: rest =>
    let step := VehicleAI.handle VEHICLE_CONDITION_CHECK_TIME VEHICLE_DISMISS_TIME ai e
    step :: VehicleAI.trace VEHICLE_CONDITION_CHECK_TIME VEHICLE_DISMISS_TIME step.1 rest

/-- The timer invariant of `VehicleAI`. -/
def VehicleAI.timersInBounds (VEHICLE_CONDITION_CHECK_TIME VEHICLE_DISMISS_TIME : Nat)
    (ai : VehicleAI) : Prop :=
  0 < ai.m_ConditionsTimer ∧ ai.m_ConditionsTimer ≤ VEHICLE_CONDITION_CHECK_TIME ∧
  0 ≤ ai.m_DismissTimer ∧ ai.m_DismissTimer ≤ VEHICLE_DISMISS_TIME

/-- The difference `a - b` of two `uint32` values, as the machine computes
it: it wraps around when `a < b`. -/
def uint32_sub (a : Nat) (b : Nat) : Nat :=
  (a + (UINT32_SIZE - b % UINT32_SIZE)) % UINT32_SIZE

/-- The duration `CasterAI::JustEngagedWith` passes to `ScheduleEvent` for
the cooldown-loop ability `i` with descriptor `info` visited at index `count`
of the owned list, `spell` being the index drawn: `info->realCooldown`, plus
`GetCurrentSpellCastTime(i)` (a `uint32` sum) at the drawn index. -/
def CasterAI.engageDuration (h : CreatureHost) (spell : Nat) (count : Nat) (i : Nat)
    (info : AISpellInfoType) : Nat :=
  if count = spell then (info.realCooldown + h.GetCurrentSpellCastTime i) % UINT32_SIZE
  else info.realCooldown

/-! ## Theorems -/

theorem fuzzedCooldown_of_ne_zero (c r : Nat) (hc : c ≠ 0) :
    fuzzedCooldown c r = some ((c + r % c) % UINT32_SIZE) := by
  simp [fuzzedCooldown, hc]

theorem fuzzedCooldown_no_wrap (c r : Nat) (hc : c ≠ 0) (hlt : c ≤ 2147483648) :
    (c + r % c) % UINT32_SIZE = c + r % c := by
  have h1 : r % c < c := Nat.mod_lt _ (Nat.pos_of_ne_zero hc)
  apply Nat.mod_eq_of_lt
  simp only [UINT32_SIZE]
  omega

/-- C1: `CombatAI::UpdateAI` issues at most one decision per tick. Without a
valid victim it does nothing and leaves the scheduler alone; otherwise the
scheduler is advanced by `diff`; while casting nothing else happens; otherwise
a ready ability id (`ExecuteEvent` non-zero) is cast with `DoCast`, no melee
attack is issued, and when its descriptor resolves (cooldown non-zero, as the
expression `r % cooldown` needs) it is rescheduled with the `uint32` value of
`cooldown + r % cooldown`, which is `cooldown + r % cooldown` itself up to a
cooldown of 2^31; with no ready ability the only call is one melee attempt. -/
theorem CombatAI_UpdateAI_one_decision (h : CreatureHost) (ai : CombatAI) (diff : Nat) :
    (h.UpdateVictim = false → CombatAI.UpdateAI h ai diff = some (ai, [])) ∧
    (h.UpdateVictim = true → h.casting = true →
      CombatAI.UpdateAI h ai diff = some (⟨ai.spells, ai.events.Update diff⟩, [])) ∧
    (h.UpdateVictim = true → h.casting = false →
      ∀ id, (ai.events.Update diff).ExecuteEvent.1 = id → id ≠ 0 →
        (h.GetAISpellInfo id = none →
          CombatAI.UpdateAI h ai diff =
            some (⟨ai.spells, (ai.events.Update diff).ExecuteEvent.2⟩, [Call.DoCast id])) ∧
        (∀ info, h.GetAISpellInfo id = some info → info.cooldown ≠ 0 →
          CombatAI.UpdateAI h ai diff =
            some (⟨ai.spells, EventMap.ScheduleEvent (ai.events.Update diff).ExecuteEvent.2 id
                      ((info.cooldown + h.rand32 0 % info.cooldown) % UINT32_SIZE)⟩,
              [Call.DoCast id, Call.ScheduleEvent id
                ((info.cooldown + h.rand32 0 % info.cooldown) % UINT32_SIZE)]) ∧
          (info.cooldown ≤ 2147483648 →
            (info.cooldown + h.rand32 0 % info.cooldown) % UINT32_SIZE =
              info.cooldown + h.rand32 0 % info.cooldown))) ∧
    (h.UpdateVictim = true → h.casting = false →
      (ai.events.Update diff).ExecuteEvent.1 = 0 →
        CombatAI.UpdateAI h ai diff =
          some (⟨ai.spells, (ai.events.Update diff).ExecuteEvent.2⟩,
            [Call.DoMeleeAttackIfReady])) ∧
    (∀ res, CombatAI.UpdateAI h ai diff = some res →
      (res.2.filter Call.isDecision).length ≤ 1) := by
  refine ⟨?_, ?_, ?_, ?_, ?_⟩
  · intro hv
    simp [CombatAI.UpdateAI, hv]
  · intro hv hc
    simp [CombatAI.UpdateAI, hv, hc]
  · intro hv hc id hid hne
    subst hid
    refine ⟨?_, ?_⟩
    · intro hnone
      simp [CombatAI.UpdateAI, hv, hc, hne, hnone]
    · intro info hinfo hcd
      refine ⟨?_, fun hle => fuzzedCooldown_no_wrap _ _ hcd hle⟩
      simp [CombatAI.UpdateAI, hv, hc, hne, hinfo, fuzzedCooldown_of_ne_zero _ _ hcd]
  · intro hv hc hz
    simp [CombatAI.UpdateAI, hv, hc, hz]
  · intro res hres
    unfold CombatAI.UpdateAI at hres
    cases hv : h.UpdateVictim <;> simp [hv] at hres
    · subst hres; simp
    · cases hc : h.casting <;> simp [hc] at hres
      · by_cases hz : (ai.events.Update diff).ExecuteEvent.1 = 0
        · simp [hz] at hres
          subst hres; simp [Call.isDecision]
        · simp [hz] at hres
          cases hi : h.GetAISpellInfo (ai.events.Update diff).ExecuteEvent.1 with
          | none =>
            simp [hi] at hres
            subst hres; simp [Call.isDecision]
          | some info =>
            simp [hi] at hres
            cases hf : fuzzedCooldown info.cooldown (h.rand32 0) with
            | none => simp [hf] at hres
            | some d =>
              simp [hf] at hres
              subst hres; simp [Call.isDecision]
      · subst hres; simp

/-- Witness for C1: a tick of the example host on a scheduler whose ability 7
becomes ready casts it and reschedules it after 2000 + 4320 % 2000 = 2320. -/
theorem CombatAI_UpdateAI_one_decision_witness :
    CombatAI.UpdateAI exampleHost ⟨[7], [⟨7, 100⟩]⟩ 100 =
      some (⟨[7], [⟨7, 2320⟩]⟩, [Call.DoCast 7, Call.ScheduleEvent 7 2320]) :=
  ((CombatAI_UpdateAI_one_decision exampleHost ⟨[7], [⟨7, 100⟩]⟩ 100).2.2.1 rfl rfl 7
    (by decide) (by decide)).2 ⟨AICondition.AICOND_COMBAT, 2000, 1500, 20⟩ rfl (by decide) |>.1

theorem CombatAI_engageLoop_none (h : CreatureHost) (who i : Nat) (rest : List Nat) (k : Nat)
    (ev : EventMap) (hi : h.GetAISpellInfo i = none) :
    CombatAI.engageLoop h who (i :: rest) k ev = CombatAI.engageLoop h who rest k ev := by
  simp [CombatAI.engageLoop, hi]

theorem CombatAI_engageLoop_aggro (h : CreatureHost) (who i : Nat) (rest : List Nat) (k : Nat)
    (ev : EventMap) (info : AISpellInfoType) (hi : h.GetAISpellInfo i = some info)
    (hc : info.condition = AICondition.AICOND_AGGRO) :
    CombatAI.engageLoop h who (i :: rest) k ev =
      (CombatAI.engageLoop h who rest k ev).map
        (fun res => (res.1, Call.CastSpell who i false :: res.2)) := by
  simp [CombatAI.engageLoop, hi, hc]

theorem CombatAI_engageLoop_combat (h : CreatureHost) (who i : Nat) (rest : List Nat) (k : Nat)
    (ev : EventMap) (info : AISpellInfoType) (hi : h.GetAISpellInfo i = some info)
    (hc : info.condition = AICondition.AICOND_COMBAT) (hz : info.cooldown ≠ 0) :
    CombatAI.engageLoop h who (i :: rest) k ev =
      (CombatAI.engageLoop h who rest (k + 1)
        (ev.ScheduleEvent i ((info.cooldown + h.rand32 k % info.cooldown) % UINT32_SIZE))).map
        (fun res => (res.1, Call.ScheduleEvent i
          ((info.cooldown + h.rand32 k % info.cooldown) % UINT32_SIZE) :: res.2)) := by
  simp [CombatAI.engageLoop, hi, hc, fuzzedCooldown_of_ne_zero _ _ hz]

theorem CombatAI_engageLoop_combat_zero (h : CreatureHost) (who i : Nat) (rest : List Nat)
    (k : Nat) (ev : EventMap) (info : AISpellInfoType) (hi : h.GetAISpellInfo i = some info)
    (hc : info.condition = AICondition.AICOND_COMBAT) (hz : info.cooldown = 0) :
    CombatAI.engageLoop h who (i :: rest) k ev = none := by
  simp [CombatAI.engageLoop, hi, hc, fuzzedCooldown, hz]

theorem CombatAI_engageLoop_die (h : CreatureHost) (who i : Nat) (rest : List Nat) (k : Nat)
    (ev : EventMap) (info : AISpellInfoType) (hi : h.GetAISpellInfo i = some info)
    (hc : info.condition = AICondition.AICOND_DIE) :
    CombatAI.engageLoop h who (i :: rest) k ev = CombatAI.engageLoop h who rest k ev := by
  simp [CombatAI.engageLoop, hi, hc]

/-- The ways an owned ability can resolve. -/
theorem GetAISpellInfo_cases (h : CreatureHost) (i : Nat) :
    h.GetAISpellInfo i = none ∨
    (∃ info, h.GetAISpellInfo i = some info ∧ info.condition = AICondition.AICOND_AGGRO) ∨
    (∃ info, h.GetAISpellInfo i = some info ∧ info.condition = AICondition.AICOND_COMBAT) ∨
    (∃ info, h.GetAISpellInfo i = some info ∧ info.condition = AICondition.AICOND_DIE) := by
  cases hi : h.GetAISpellInfo i with
  | none => exact Or.inl rfl
  | some info =>
    cases hc : info.condition
    · exact Or.inr (Or.inl ⟨info, rfl, hc⟩)
    · exact Or.inr (Or.inr (Or.inl ⟨info, rfl, hc⟩))
    · exact Or.inr (Or.inr (Or.inr ⟨info, rfl, hc⟩))

/-- The engagement loop has a defined result when no owned cooldown-loop
ability has cooldown 0. -/
theorem CombatAI_engageLoop_defined (h : CreatureHost) (who : Nat) :
    ∀ (spells : List Nat) (k : Nat) (ev : EventMap),
      (∀ i ∈ spells, ∀ info, h.GetAISpellInfo i = some info →
        info.condition = AICondition.AICOND_COMBAT → info.cooldown ≠ 0) →
      ∃ res, CombatAI.engageLoop h who spells k ev = some res := by
  intro spells
  induction spells with
  | nil => intro k ev _; exact ⟨(ev, []), rfl⟩
  | cons i rest ih =>
    intro k ev hdef
    have hrest : ∀ j ∈ rest, ∀ info, h.GetAISpellInfo j = some info →
        info.condition = AICondition.AICOND_COMBAT → info.cooldown ≠ 0 :=
      fun j hj => hdef j (List.mem_cons_of_mem _ hj)
    rcases GetAISpellInfo_cases h i with hi | ⟨info, hi, hc⟩ | ⟨info, hi, hc⟩ | ⟨info, hi, hc⟩
    · rw [CombatAI_engageLoop_none h who i rest k ev hi]
      exact ih k ev hrest
    · rw [CombatAI_engageLoop_aggro h who i rest k ev info hi hc]
      obtain ⟨res, hres⟩ := ih k ev hrest
      exact ⟨_, by rw [hres]; rfl⟩
    · have hz := hdef i (List.mem_cons_self _ _) info hi hc
      rw [CombatAI_engageLoop_combat h who i rest k ev info hi hc hz]
      obtain ⟨res, hres⟩ := ih (k + 1) _ hrest
      exact ⟨_, by rw [hres]; rfl⟩
    · rw [CombatAI_engageLoop_die h who i rest k ev info hi hc]
      exact ih k ev hrest

/-- Every call of the engagement loop is the cast of an owned on-aggro
ability or the scheduling of an owned cooldown-loop ability with a fuzzed
delay. -/
theorem CombatAI_engageLoop_calls (h : CreatureHost) (who : Nat) :
    ∀ (spells : List Nat) (k : Nat) (ev : EventMap) (res : EventMap × List Call),
      CombatAI.engageLoop h who spells k ev = some res →
      ∀ c ∈ res.2,
        (∃ i ∈ spells, ∃ info, h.GetAISpellInfo i = some info ∧
          info.condition = AICondition.AICOND_AGGRO ∧ c = Call.CastSpell who i false) ∨
        (∃ i ∈ spells, ∃ info, h.GetAISpellInfo i = some info ∧
          info.condition = AICondition.AICOND_COMBAT ∧ info.cooldown ≠ 0 ∧
          ∃ j, c = Call.ScheduleEvent i
            ((info.cooldown + h.rand32 j % info.cooldown) % UINT32_SIZE)) := by
  intro spells
  induction spells with
  | nil =>
    intro k ev res hres c hc
    simp [CombatAI.engageLoop] at hres
    subst hres
    simp at hc
  | cons i rest ih =>
    intro k ev res hres c hc
    have lift : ((∃ i ∈ rest, ∃ info, h.GetAISpellInfo i = some info ∧
          info.condition = AICondition.AICOND_AGGRO ∧ c = Call.CastSpell who i false) ∨
        (∃ i ∈ rest, ∃ info, h.GetAISpellInfo i = some info ∧
          info.condition = AICondition.AICOND_COMBAT ∧ info.cooldown ≠ 0 ∧
          ∃ j, c = Call.ScheduleEvent i
            ((info.cooldown + h.rand32 j % info.cooldown) % UINT32_SIZE))) →
        ((∃ i0 ∈ i :: rest, ∃ info, h.GetAISpellInfo i0 = some info ∧
          info.condition = AICondition.AICOND_AGGRO ∧ c = Call.CastSpell who i0 false) ∨
        (∃ i0 ∈ i :: rest, ∃ info, h.GetAISpellInfo i0 = some info ∧
          info.condition = AICondition.AICOND_COMBAT ∧ info.cooldown ≠ 0 ∧
          ∃ j, c = Call.ScheduleEvent i0
            ((info.cooldown + h.rand32 j % info.cooldown) % UINT32_SIZE))) := by
      rintro (⟨j, hj, rest1⟩ | ⟨j, hj, rest1⟩)
      · exact Or.inl ⟨j, List.mem_cons_of_mem _ hj, rest1⟩
      · exact Or.inr ⟨j, List.mem_cons_of_mem _ hj, rest1⟩
    rcases GetAISpellInfo_cases h i with hi | ⟨info, hi, hcd⟩ | ⟨info, hi, hcd⟩ | ⟨info, hi, hcd⟩
    · rw [CombatAI_engageLoop_none h who i rest k ev hi] at hres
      exact lift (ih k ev res hres c hc)
    · rw [CombatAI_engageLoop_aggro h who i rest k ev info hi hcd] at hres
      cases hr : CombatAI.engageLoop h who rest k ev with
      | none => simp [hr] at hres
      | some r =>
        simp [hr] at hres
        subst hres
        rcases List.mem_cons.mp hc with hc | hc
        · exact Or.inl ⟨i, List.mem_cons_self _ _, info, hi, hcd, hc⟩
        · exact lift (ih k ev r hr c hc)
    · by_cases hz : info.cooldown = 0
      · rw [CombatAI_engageLoop_combat_zero h who i rest k ev info hi hcd hz] at hres
        simp at hres
      · rw [CombatAI_engageLoop_combat h who i rest k ev info hi hcd hz] at hres
        cases hr : CombatAI.engageLoop h who rest (k + 1)
            (ev.ScheduleEvent i ((info.cooldown + h.rand32 k % info.cooldown) % UINT32_SIZE)) with
        | none => simp [hr] at hres
        | some r =>
          simp [hr] at hres
          subst hres
          rcases List.mem_cons.mp hc with hc | hc
          · exact Or.inr ⟨i, List.mem_cons_self _ _, info, hi, hcd, hz, k, hc⟩
          · exact lift (ih _ _ r hr c hc)
    · rw [CombatAI_engageLoop_die h who i rest k ev info hi hcd] at hres
      exact lift (ih k ev res hres c hc)

theorem EventMap_mem_ScheduleEvent (ev : EventMap) (i d : Nat) (e : ScheduledEvent) :
    e ∈ ev.ScheduleEvent i d ↔ (e ∈ ev ∧ e.abilityId ≠ i) ∨ e = ⟨i, d⟩ := by
  simp [EventMap.ScheduleEvent, List.mem_filter]

/-- Every owned on-aggro ability is cast and every owned cooldown-loop ability
is scheduled by the engagement loop. -/
theorem CombatAI_engageLoop_complete (h : CreatureHost) (who : Nat) :
    ∀ (spells : List Nat) (k : Nat) (ev : EventMap) (res : EventMap × List Call),
      CombatAI.engageLoop h who spells k ev = some res →
      ∀ i ∈ spells, ∀ info, h.GetAISpellInfo i = some info →
        (info.condition = AICondition.AICOND_AGGRO → Call.CastSpell who i false ∈ res.2) ∧
        (info.condition = AICondition.AICOND_COMBAT →
          ∃ j, Call.ScheduleEvent i
            ((info.cooldown + h.rand32 j % info.cooldown) % UINT32_SIZE) ∈ res.2) := by
  intro spells
  induction spells with
  | nil => intro k ev res _ i hi; simp at hi
  | cons i0 rest ih =>
    intro k ev res hres i hmem info hinfo
    have lift : ∀ (r : EventMap × List Call) (c0 : Call),
        ((info.condition = AICondition.AICOND_AGGRO → Call.CastSpell who i false ∈ r.2) ∧
        (info.condition = AICondition.AICOND_COMBAT →
          ∃ j, Call.ScheduleEvent i
            ((info.cooldown + h.rand32 j % info.cooldown) % UINT32_SIZE) ∈ r.2)) →
        ((info.condition = AICondition.AICOND_AGGRO →
            Call.CastSpell who i false ∈ c0 :: r.2) ∧
        (info.condition = AICondition.AICOND_COMBAT →
          ∃ j, Call.ScheduleEvent i
            ((info.cooldown + h.rand32 j % info.cooldown) % UINT32_SIZE) ∈ c0 :: r.2)) := by
      intro r c0 ⟨h1, h2⟩
      refine ⟨fun ha => List.mem_cons_of_mem _ (h1 ha), fun hc => ?_⟩
      obtain ⟨j, hj⟩ := h2 hc
      exact ⟨j, List.mem_cons_of_mem _ hj⟩
    rcases GetAISpellInfo_cases h i0 with hi | ⟨info0, hi, hcd⟩ | ⟨info0, hi, hcd⟩ |
      ⟨info0, hi, hcd⟩
    · rw [CombatAI_engageLoop_none h who i0 rest k ev hi] at hres
      rcases List.mem_cons.mp hmem with heq | hin
      · subst heq; rw [hi] at hinfo; cases hinfo
      · exact ih k ev res hres i hin info hinfo
    · rw [CombatAI_engageLoop_aggro h who i0 rest k ev info0 hi hcd] at hres
      cases hr : CombatAI.engageLoop h who rest k ev with
      | none => simp [hr] at hres
      | some r =>
        simp [hr] at hres
        subst hres
        rcases List.mem_cons.mp hmem with heq | hin
        · subst heq
          rw [hi] at hinfo; cases hinfo
          exact ⟨fun _ => List.mem_cons_self _ _, fun hc => by rw [hcd] at hc; cases hc⟩
        · exact lift r _ (ih k ev r hr i hin info hinfo)
    · by_cases hz : info0.cooldown = 0
      · rw [CombatAI_engageLoop_combat_zero h who i0 rest k ev info0 hi hcd hz] at hres
        simp at hres
      · rw [CombatAI_engageLoop_combat h who i0 rest k ev info0 hi hcd hz] at hres
        cases hr : CombatAI.engageLoop h who rest (k + 1)
            (ev.ScheduleEvent i0
              ((info0.cooldown + h.rand32 k % info0.cooldown) % UINT32_SIZE)) with
        | none => simp [hr] at hres
        | some r =>
          simp [hr] at hres
          subst hres
          rcases List.mem_cons.mp hmem with heq | hin
          · subst heq
            rw [hi] at hinfo; cases hinfo
            exact ⟨fun ha => (by rw [hcd] at ha; cases ha),
              fun _ => ⟨k, List.mem_cons_self _ _⟩⟩
          · exact lift r _ (ih _ _ r hr i hin info hinfo)
    · rw [CombatAI_engageLoop_die h who i0 rest k ev info0 hi hcd] at hres
      rcases List.mem_cons.mp hmem with heq | hin
      · subst heq
        rw [hi] at hinfo; cases hinfo
        exact ⟨fun ha => (by rw [hcd] at ha; cases ha), fun hc => by rw [hcd] at hc; cases hc⟩
      · exact ih k ev res hres i hin info hinfo

/-- Where the entries of the scheduler come from after the engagement loop:
an entry is either an old one whose id the loop did not schedule, or the entry
of an owned cooldown-loop ability with a fuzzed delay. -/
theorem CombatAI_engageLoop_origin (h : CreatureHost) (who : Nat) :
    ∀ (spells : List Nat) (k : Nat) (ev : EventMap) (res : EventMap × List Call),
      CombatAI.engageLoop h who spells k ev = some res →
      ∀ e ∈ res.1,
        (e ∈ ev ∧ ¬ (e.abilityId ∈ spells ∧ ∃ info, h.GetAISpellInfo e.abilityId = some info ∧
          info.condition = AICondition.AICOND_COMBAT)) ∨
        (e.abilityId ∈ spells ∧ ∃ info, h.GetAISpellInfo e.abilityId = some info ∧
          info.condition = AICondition.AICOND_COMBAT ∧ info.cooldown ≠ 0 ∧
          ∃ j, e.remaining = (info.cooldown + h.rand32 j % info.cooldown) % UINT32_SIZE) := by
  intro spells
  induction spells with
  | nil =>
    intro k ev res hres e he
    simp [CombatAI.engageLoop] at hres
    subst hres
    exact Or.inl ⟨he, by simp⟩
  | cons i0 rest ih =>
    intro k ev res hres e he
    rcases GetAISpellInfo_cases h i0 with hi | ⟨info0, hi, hcd⟩ | ⟨info0, hi, hcd⟩ |
      ⟨info0, hi, hcd⟩
    · rw [CombatAI_engageLoop_none h who i0 rest k ev hi] at hres
      rcases ih k ev res hres e he with ⟨h1, h2⟩ | ⟨h1, h2⟩
      · refine Or.inl ⟨h1, ?_⟩
        rintro ⟨hm, info, hinfo, hc⟩
        rcases List.mem_cons.mp hm with heq | hin
        · rw [heq, hi] at hinfo; cases hinfo
        · exact h2 ⟨hin, info, hinfo, hc⟩
      · exact Or.inr ⟨List.mem_cons_of_mem _ h1, h2⟩
    · rw [CombatAI_engageLoop_aggro h who i0 rest k ev info0 hi hcd] at hres
      cases hr : CombatAI.engageLoop h who rest k ev with
      | none => simp [hr] at hres
      | some r =>
        simp [hr] at hres
        subst hres
        rcases ih k ev r hr e he with ⟨h1, h2⟩ | ⟨h1, h2⟩
        · refine Or.inl ⟨h1, ?_⟩
          rintro ⟨hm, info, hinfo, hc⟩
          rcases List.mem_cons.mp hm with heq | hin
          · rw [heq, hi] at hinfo; cases hinfo; rw [hcd] at hc; cases hc
          · exact h2 ⟨hin, info, hinfo, hc⟩
        · exact Or.inr ⟨List.mem_cons_of_mem _ h1, h2⟩
    · by_cases hz : info0.cooldown = 0
      · rw [CombatAI_engageLoop_combat_zero h who i0 rest k ev info0 hi hcd hz] at hres
        simp at hres
      · rw [CombatAI_engageLoop_combat h who i0 rest k ev info0 hi hcd hz] at hres
        cases hr : CombatAI.engageLoop h who rest (k + 1)
            (ev.ScheduleEvent i0
              ((info0.cooldown + h.rand32 k % info0.cooldown) % UINT32_SIZE)) with
        | none => simp [hr] at hres
        | some r =>
          simp [hr] at hres
          subst hres
          rcases ih _ _ r hr e he with ⟨h1, h2⟩ | ⟨h1, h2⟩
          · rcases (EventMap_mem_ScheduleEvent _ _ _ _).mp h1 with ⟨hin, hne⟩ | heq
            · refine Or.inl ⟨hin, ?_⟩
              rintro ⟨hm, info, hinfo, hc⟩
              rcases List.mem_cons.mp hm with heq | hin2
              · exact hne heq
              · exact h2 ⟨hin2, info, hinfo, hc⟩
            · subst heq
              exact Or.inr ⟨List.mem_cons_self _ _, info0, hi, hcd, hz, k, rfl⟩
          · exact Or.inr ⟨List.mem_cons_of_mem _ h1, h2⟩
    · rw [CombatAI_engageLoop_die h who i0 rest k ev info0 hi hcd] at hres
      rcases ih k ev res hres e he with ⟨h1, h2⟩ | ⟨h1, h2⟩
      · refine Or.inl ⟨h1, ?_⟩
        rintro ⟨hm, info, hinfo, hc⟩
        rcases List.mem_cons.mp hm with heq | hin
        · rw [heq, hi] at hinfo; cases hinfo; rw [hcd] at hc; cases hc
        · exact h2 ⟨hin, info, hinfo, hc⟩
      · exact Or.inr ⟨List.mem_cons_of_mem _ h1, h2⟩

/-- Every owned cooldown-loop ability has an entry in the scheduler after the
engagement loop. -/
theorem CombatAI_engageLoop_pending (h : CreatureHost) (who : Nat) :
    ∀ (spells : List Nat) (k : Nat) (ev : EventMap) (res : EventMap × List Call),
      CombatAI.engageLoop h who spells k ev = some res →
      (∀ e ∈ ev, e.abilityId ∉ spells → e ∈ res.1) ∧
      (∀ i ∈ spells, ∀ info, h.GetAISpellInfo i = some info →
        info.condition = AICondition.AICOND_COMBAT → ∃ e ∈ res.1, e.abilityId = i) := by
  intro spells
  induction spells with
  | nil =>
    intro k ev res hres
    simp [CombatAI.engageLoop] at hres
    subst hres
    exact ⟨fun e he _ => he, fun i hi => by simp at hi⟩
  | cons i0 rest ih =>
    intro k ev res hres
    have key : ∀ (ev1 : EventMap) (k1 : Nat) (r0 : EventMap × List Call),
        CombatAI.engageLoop h who rest k1 ev1 = some r0 →
        (∀ e ∈ ev, e.abilityId ≠ i0 → e ∈ ev1) →
        ((∃ info, h.GetAISpellInfo i0 = some info ∧
            info.condition = AICondition.AICOND_COMBAT) → ∃ e ∈ ev1, e.abilityId = i0) →
        (∀ e ∈ ev, e.abilityId ∉ i0 :: rest → e ∈ r0.1) ∧
        (∀ i ∈ i0 :: rest, ∀ info, h.GetAISpellInfo i = some info →
          info.condition = AICondition.AICOND_COMBAT → ∃ e ∈ r0.1, e.abilityId = i) := by
      intro ev1 k1 r0 hr hkeep hhead
      obtain ⟨ih1, ih2⟩ := ih k1 ev1 r0 hr
      refine ⟨?_, ?_⟩
      · intro e he hnot
        have hne : e.abilityId ≠ i0 := fun heq => hnot (heq ▸ List.mem_cons_self _ _)
        exact ih1 e (hkeep e he hne) (fun hin => hnot (List.mem_cons_of_mem _ hin))
      · intro i hmem info hinfo hc
        by_cases hin : i ∈ rest
        · exact ih2 i hin info hinfo hc
        · have heq : i = i0 := by
            rcases List.mem_cons.mp hmem with heq | hin2
            · exact heq
            · exact absurd hin2 hin
          subst heq
          obtain ⟨e, he, hid⟩ := hhead ⟨info, hinfo, hc⟩
          exact ⟨e, ih1 e he (by rw [hid]; exact hin), hid⟩
    rcases GetAISpellInfo_cases h i0 with hi | ⟨info0, hi, hcd⟩ | ⟨info0, hi, hcd⟩ |
      ⟨info0, hi, hcd⟩
    · rw [CombatAI_engageLoop_none h who i0 rest k ev hi] at hres
      exact key ev k res hres (fun e he _ => he)
        (fun ⟨info, hinfo, _⟩ => by rw [hi] at hinfo; cases hinfo)
    · rw [CombatAI_engageLoop_aggro h who i0 rest k ev info0 hi hcd] at hres
      cases hr : CombatAI.engageLoop h who rest k ev with
      | none => simp [hr] at hres
      | some r =>
        simp [hr] at hres
        subst hres
        exact key ev k r hr (fun e he _ => he)
          (fun ⟨info, hinfo, hc⟩ => by rw [hi] at hinfo; cases hinfo; rw [hcd] at hc; cases hc)
    · by_cases hz : info0.cooldown = 0
      · rw [CombatAI_engageLoop_combat_zero h who i0 rest k ev info0 hi hcd hz] at hres
        simp at hres
      · rw [CombatAI_engageLoop_combat h who i0 rest k ev info0 hi hcd hz] at hres
        cases hr : CombatAI.engageLoop h who rest (k + 1)
            (ev.ScheduleEvent i0
              ((info0.cooldown + h.rand32 k % info0.cooldown) % UINT32_SIZE)) with
        | none => simp [hr] at hres
        | some r =>
          simp [hr] at hres
          subst hres
          exact key _ (k + 1) r hr
            (fun e he hne => (EventMap_mem_ScheduleEvent _ _ _ _).mpr (Or.inl ⟨he, hne⟩))
            (fun _ => ⟨_, (EventMap_mem_ScheduleEvent _ _ _ _).mpr (Or.inr rfl), rfl⟩)
    · rw [CombatAI_engageLoop_die h who i0 rest k ev info0 hi hcd] at hres
      exact key ev k res hres (fun e he _ => he)
        (fun ⟨info, hinfo, hc⟩ => by rw [hi] at hinfo; cases hinfo; rw [hcd] at hc; cases hc)

/-- C2: `CombatAI::JustEngagedWith`, for every owned list whose cooldown-loop
abilities have a non-zero cooldown (the call is defined) and every sequence of
random draws: an owned on-aggro ability is cast at the new target and not
scheduled; an owned cooldown-loop ability with cooldown `c`, `0 < c < 2^31`,
is scheduled, not cast, each time with a delay `c + (r mod c)` for a drawn `r`,
in `[c, 2c)`, and that is its remaining time in the scheduler; an ability that
does not resolve or has another trigger is neither cast nor scheduled. With
three owned cooldown-loop abilities of distinct ids and cooldown 2000 the
calls are three `ScheduleEvent`s and the scheduler, when it was empty, holds
exactly the three entries, each with remaining time in `[2000, 4000)`. -/
theorem CombatAI_JustEngagedWith_schedule (h : CreatureHost) (ai : CombatAI) (who : Nat)
    (hdef : ∀ i ∈ ai.spells, ∀ info, h.GetAISpellInfo i = some info →
      info.condition = AICondition.AICOND_COMBAT → info.cooldown ≠ 0) :
    ∃ res, CombatAI.JustEngagedWith h ai who = some res ∧
      (∀ i ∈ ai.spells, ∀ info, h.GetAISpellInfo i = some info →
        info.condition = AICondition.AICOND_AGGRO →
          Call.CastSpell who i false ∈ res.2 ∧ ∀ d, Call.ScheduleEvent i d ∉ res.2) ∧
      (∀ i ∈ ai.spells, ∀ info, h.GetAISpellInfo i = some info →
        info.condition = AICondition.AICOND_COMBAT →
        0 < info.cooldown → info.cooldown < 2147483648 →
          (∃ j, Call.ScheduleEvent i (info.cooldown + h.rand32 j % info.cooldown) ∈ res.2) ∧
          (∀ d, Call.ScheduleEvent i d ∈ res.2 →
            (∃ j, d = info.cooldown + h.rand32 j % info.cooldown) ∧
              info.cooldown ≤ d ∧ d < 2 * info.cooldown) ∧
          (∀ t b, Call.CastSpell t i b ∉ res.2) ∧ Call.DoCast i ∉ res.2 ∧
          (∃ e ∈ res.1.events, e.abilityId = i) ∧
          (∀ e ∈ res.1.events, e.abilityId = i →
            (∃ j, e.remaining = info.cooldown + h.rand32 j % info.cooldown) ∧
              info.cooldown ≤ e.remaining ∧ e.remaining < 2 * info.cooldown)) ∧
      (∀ i, (h.GetAISpellInfo i = none ∨ ∃ info, h.GetAISpellInfo i = some info ∧
          info.condition = AICondition.AICOND_DIE) →
        (∀ t b, Call.CastSpell t i b ∉ res.2) ∧ Call.DoCast i ∉ res.2 ∧
          ∀ d, Call.ScheduleEvent i d ∉ res.2) ∧
      (∀ a b c, ai.spells = [a, b, c] → a ≠ b → a ≠ c → b ≠ c →
        (∀ i ∈ ai.spells, ∃ info, h.GetAISpellInfo i = some info ∧
          info.condition = AICondition.AICOND_COMBAT ∧ info.cooldown = 2000) →
        ∃ da db dc,
          res.2 = [Call.ScheduleEvent a da, Call.ScheduleEvent b db, Call.ScheduleEvent c dc] ∧
          res.1.events =
            EventMap.ScheduleEvent (EventMap.ScheduleEvent (EventMap.ScheduleEvent ai.events
              a da) b db) c dc ∧
          (ai.events = [] → res.1.events = [⟨a, da⟩, ⟨b, db⟩, ⟨c, dc⟩]) ∧
          (2000 ≤ da ∧ da < 4000) ∧ (2000 ≤ db ∧ db < 4000) ∧ (2000 ≤ dc ∧ dc < 4000)) := by
  obtain ⟨r, hr⟩ := CombatAI_engageLoop_defined h who ai.spells 0 ai.events hdef
  have hcalls := CombatAI_engageLoop_calls h who ai.spells 0 ai.events r hr
  have hcomplete := CombatAI_engageLoop_complete h who ai.spells 0 ai.events r hr
  have horigin := CombatAI_engageLoop_origin h who ai.spells 0 ai.events r hr
  have hpending := (CombatAI_engageLoop_pending h who ai.spells 0 ai.events r hr).2
  refine ⟨(⟨ai.spells, r.1⟩, r.2), by simp [CombatAI.JustEngagedWith, hr], ?_, ?_, ?_, ?_⟩
  · intro i hi info hinfo hc
    refine ⟨(hcomplete i hi info hinfo).1 hc, ?_⟩
    intro d hd
    rcases hcalls _ hd with ⟨i1, _, info1, _, _, heq⟩ | ⟨i1, _, info1, hinfo1, hc1, _, j, heq⟩
    · cases heq
    · injection heq with h1 h2
      subst h1
      rw [hinfo] at hinfo1; cases hinfo1
      rw [hc] at hc1; cases hc1
  · intro i hi info hinfo hc hpos hlt
    have hz : info.cooldown ≠ 0 := Nat.pos_iff_ne_zero.mp hpos
    have hnw : ∀ j, (info.cooldown + h.rand32 j % info.cooldown) % UINT32_SIZE =
        info.cooldown + h.rand32 j % info.cooldown :=
      fun j => fuzzedCooldown_no_wrap _ _ hz (Nat.le_of_lt hlt)
    have hrange : ∀ j, info.cooldown ≤ info.cooldown + h.rand32 j % info.cooldown ∧
        info.cooldown + h.rand32 j % info.cooldown < 2 * info.cooldown := by
      intro j
      have := Nat.mod_lt (h.rand32 j) hpos
      omega
    refine ⟨?_, ?_, ?_, ?_, ?_, ?_⟩
    · obtain ⟨j, hj⟩ := (hcomplete i hi info hinfo).2 hc
      exact ⟨j, by rw [← hnw j]; exact hj⟩
    · intro d hd
      rcases hcalls _ hd with ⟨i1, _, info1, _, _, heq⟩ | ⟨i1, _, info1, hinfo1, _, _, j, heq⟩
      · cases heq
      · injection heq with h1 h2
        subst h1
        rw [hinfo] at hinfo1; cases hinfo1
        rw [hnw j] at h2
        subst h2
        exact ⟨⟨j, rfl⟩, hrange j⟩
    · intro t b hmem
      rcases hcalls _ hmem with ⟨i1, _, info1, hinfo1, hc1, heq⟩ | ⟨i1, _, info1, _, _, _, j, heq⟩
      · injection heq with h1 h2 h3
        subst h2
        rw [hinfo] at hinfo1; cases hinfo1
        rw [hc] at hc1; cases hc1
      · cases heq
    · intro hmem
      rcases hcalls _ hmem with ⟨i1, _, info1, _, _, heq⟩ | ⟨i1, _, info1, _, _, _, j, heq⟩
      · cases heq
      · cases heq
    · exact hpending i hi info hinfo hc
    · intro e he hid
      rcases horigin e he with ⟨_, hnot⟩ | ⟨_, info1, hinfo1, _, _, j, hj⟩
      · exact absurd ⟨hid ▸ hi, info, hid ▸ hinfo, hc⟩ hnot
      · rw [hid, hinfo] at hinfo1; cases hinfo1
        rw [hnw j] at hj
        rw [hj]
        exact ⟨⟨j, rfl⟩, hrange j⟩
  · intro i hi
    refine ⟨?_, ?_, ?_⟩
    · intro t b hmem
      rcases hcalls _ hmem with ⟨i1, _, info1, hinfo1, hc1, heq⟩ | ⟨i1, _, info1, _, _, _, j, heq⟩
      · injection heq with h1 h2 h3
        subst h2
        rcases hi with hnone | ⟨info, hinfo, hc⟩
        · rw [hnone] at hinfo1; cases hinfo1
        · rw [hinfo] at hinfo1; cases hinfo1
          rw [hc] at hc1; cases hc1
      · cases heq
    · intro hmem
      rcases hcalls _ hmem with ⟨i1, _, info1, _, _, heq⟩ | ⟨i1, _, info1, _, _, _, j, heq⟩
      · cases heq
      · cases heq
    · intro d hmem
      rcases hcalls _ hmem with ⟨i1, _, info1, _, _, heq⟩ | ⟨i1, _, info1, hinfo1, hc1, _, j, heq⟩
      · cases heq
      · injection heq with h1 h2
        subst h1
        rcases hi with hnone | ⟨info, hinfo, hc⟩
        · rw [hnone] at hinfo1; cases hinfo1
        · rw [hinfo] at hinfo1; cases hinfo1
          rw [hc] at hc1; cases hc1
  · intro a b c hsp hab hac hbc hall
    obtain ⟨ia, hia, hca, hza⟩ := hall a (by simp [hsp])
    obtain ⟨ib, hib, hcb, hzb⟩ := hall b (by simp [hsp])
    obtain ⟨ic, hic, hcc, hzc⟩ := hall c (by simp [hsp])
    have hmod : ∀ j, (2000 + h.rand32 j % 2000) % UINT32_SIZE = 2000 + h.rand32 j % 2000 :=
      fun j => fuzzedCooldown_no_wrap 2000 _ (by decide) (by decide)
    rw [hsp, CombatAI_engageLoop_combat h who a _ _ _ ia hia hca (by rw [hza]; decide),
      CombatAI_engageLoop_combat h who b _ _ _ ib hib hcb (by rw [hzb]; decide),
      CombatAI_engageLoop_combat h who c _ _ _ ic hic hcc (by rw [hzc]; decide),
      hza, hzb, hzc, hmod, hmod, hmod] at hr
    simp [CombatAI.engageLoop] at hr
    subst hr
    refine ⟨2000 + h.rand32 0 % 2000, 2000 + h.rand32 1 % 2000, 2000 + h.rand32 2 % 2000,
      rfl, rfl, ?_, ?_, ?_, ?_⟩
    · intro hev
      simp only [hev]
      simp [EventMap.ScheduleEvent, hab, hac, hbc]
    · have := Nat.mod_lt (h.rand32 0) (show 0 < 2000 by decide)
      omega
    · have := Nat.mod_lt (h.rand32 1) (show 0 < 2000 by decide)
      omega
    · have := Nat.mod_lt (h.rand32 2) (show 0 < 2000 by decide)
      omega

/-- Witness for C2: the example host engaging with the three cooldown-loop
abilities 7, 8 and 11 (cooldown 2000 each) issues exactly three calls. -/
theorem CombatAI_JustEngagedWith_schedule_witness :
    (CombatAI.JustEngagedWith exampleHost ⟨[7, 8, 11], []⟩ 1).map (fun res => res.2.length) =
      some 3 := by
  obtain ⟨res, hres, -, -, -, h3⟩ :=
    CombatAI_JustEngagedWith_schedule exampleHost ⟨[7, 8, 11], []⟩ 1 (by
      intro i hi info hinfo _
      simp only [List.mem_cons, List.mem_singleton, List.not_mem_nil, or_false] at hi
      rcases hi with rfl | rfl | rfl <;>
        · simp [exampleHost] at hinfo
          subst hinfo
          decide)
  obtain ⟨da, db, dc, hcalls, -⟩ := h3 7 8 11 rfl (by decide) (by decide) (by decide) (by
    intro i hi
    simp only [List.mem_cons, List.mem_singleton, List.not_mem_nil, or_false] at hi
    rcases hi with rfl | rfl | rfl <;> exact ⟨_, rfl, rfl, rfl⟩)
  rw [hres]
  simp [hcalls]

theorem CasterAI_engageLoop_skip (h : CreatureHost) (who : Nat) (spells : List Nat)
    (spell i : Nat) (rest : List Nat) (count : Nat) (ev : EventMap)
    (hi : h.GetAISpellInfo i = none ∨
      ∃ info, h.GetAISpellInfo i = some info ∧ info.condition = AICondition.AICOND_DIE) :
    CasterAI.engageLoop h who spells spell (i :: rest) count ev =
      CasterAI.engageLoop h who spells spell rest (count + 1) ev := by
  rcases hi with hi | ⟨info, hi, hc⟩
  · simp [CasterAI.engageLoop, hi]
  · simp [CasterAI.engageLoop, hi, hc]

theorem CasterAI_engageLoop_aggro (h : CreatureHost) (who : Nat) (spells : List Nat)
    (spell i : Nat) (rest : List Nat) (count : Nat) (ev : EventMap) (info : AISpellInfoType)
    (hi : h.GetAISpellInfo i = some info) (hc : info.condition = AICondition.AICOND_AGGRO) :
    CasterAI.engageLoop h who spells spell (i :: rest) count ev =
      ((CasterAI.engageLoop h who spells spell rest (count + 1) ev).1,
        Call.CastSpell who i false ::
          (CasterAI.engageLoop h who spells spell rest (count + 1) ev).2) := by
  simp [CasterAI.engageLoop, hi, hc]

theorem CasterAI_engageLoop_chosen (h : CreatureHost) (who : Nat) (spells : List Nat)
    (i : Nat) (rest : List Nat) (count : Nat) (ev : EventMap) (info : AISpellInfoType)
    (hi : h.GetAISpellInfo i = some info) (hc : info.condition = AICondition.AICOND_COMBAT) :
    CasterAI.engageLoop h who spells count (i :: rest) count ev =
      ((CasterAI.engageLoop h who spells count rest (count + 1)
          (ev.ScheduleEvent i
            ((info.realCooldown + h.GetCurrentSpellCastTime i) % UINT32_SIZE))).1,
        Call.DoCast (spells.getD count 0) ::
          Call.ScheduleEvent i
            ((info.realCooldown + h.GetCurrentSpellCastTime i) % UINT32_SIZE) ::
          (CasterAI.engageLoop h who spells count rest (count + 1)
            (ev.ScheduleEvent i
              ((info.realCooldown + h.GetCurrentSpellCastTime i) % UINT32_SIZE))).2) := by
  simp [CasterAI.engageLoop, hi, hc]

theorem CasterAI_engageLoop_other (h : CreatureHost) (who : Nat) (spells : List Nat)
    (spell i : Nat) (rest : List Nat) (count : Nat) (ev : EventMap) (info : AISpellInfoType)
    (hi : h.GetAISpellInfo i = some info) (hc : info.condition = AICondition.AICOND_COMBAT)
    (hne : count ≠ spell) :
    CasterAI.engageLoop h who spells spell (i :: rest) count ev =
      ((CasterAI.engageLoop h who spells spell rest (count + 1)
          (ev.ScheduleEvent i info.realCooldown)).1,
        Call.ScheduleEvent i info.realCooldown ::
          (CasterAI.engageLoop h who spells spell rest (count + 1)
            (ev.ScheduleEvent i info.realCooldown)).2) := by
  simp [CasterAI.engageLoop, hi, hc, hne]

/-- Past the drawn index the loop of `CasterAI::JustEngagedWith` issues no
`DoCast`. -/
theorem CasterAI_engageLoop_no_DoCast (h : CreatureHost) (who : Nat) (spells : List Nat)
    (spell : Nat) :
    ∀ (rest : List Nat) (count : Nat) (ev : EventMap), spell < count →
      (CasterAI.engageLoop h who spells spell rest count ev).2.filter Call.isDoCast = [] := by
  intro rest
  induction rest with
  | nil => intro count ev _; simp [CasterAI.engageLoop]
  | cons i rest ih =>
    intro count ev hlt
    have hne : count ≠ spell := by omega
    have hlt1 : spell < count + 1 := by omega
    rcases GetAISpellInfo_cases h i with hi | ⟨info, hi, hc⟩ | ⟨info, hi, hc⟩ | ⟨info, hi, hc⟩
    · rw [CasterAI_engageLoop_skip h who spells spell i rest count ev (Or.inl hi)]
      exact ih _ _ hlt1
    · rw [CasterAI_engageLoop_aggro h who spells spell i rest count ev info hi hc]
      simp [Call.isDoCast, ih _ _ hlt1]
    · rw [CasterAI_engageLoop_other h who spells spell i rest count ev info hi hc hne]
      simp [Call.isDoCast, ih _ _ hlt1]
    · rw [CasterAI_engageLoop_skip h who spells spell i rest count ev (Or.inr ⟨info, hi, hc⟩)]
      exact ih _ _ hlt1

/-- The `DoCast` calls of the loop of `CasterAI::JustEngagedWith`: one, for
the ability at the drawn index, when that ability is a cooldown-loop ability;
none otherwise. -/
theorem CasterAI_engageLoop_DoCast (h : CreatureHost) (who : Nat) (spells : List Nat)
    (spell : Nat) :
    ∀ (rest : List Nat) (count : Nat) (ev : EventMap), count ≤ spell →
      (CasterAI.engageLoop h who spells spell rest count ev).2.filter Call.isDoCast =
        if (rest.get? (spell - count)).any h.isCooldownLoop
        then [Call.DoCast (spells.getD spell 0)] else [] := by
  intro rest
  induction rest with
  | nil => intro count ev _; simp [CasterAI.engageLoop]
  | cons i rest ih =>
    intro count ev hle
    by_cases heq : count = spell
    · subst heq
      have hlt1 : count < count + 1 := by omega
      have hnone := CasterAI_engageLoop_no_DoCast h who spells count rest (count + 1)
      rcases GetAISpellInfo_cases h i with hi | ⟨info, hi, hc⟩ | ⟨info, hi, hc⟩ | ⟨info, hi, hc⟩
      · rw [CasterAI_engageLoop_skip h who spells count i rest count ev (Or.inl hi)]
        simp [hnone _ hlt1, CreatureHost.isCooldownLoop, hi]
      · rw [CasterAI_engageLoop_aggro h who spells count i rest count ev info hi hc]
        simp [Call.isDoCast, hnone _ hlt1, CreatureHost.isCooldownLoop, hi, hc]
      · rw [CasterAI_engageLoop_chosen h who spells i rest count ev info hi hc]
        simp [Call.isDoCast, hnone _ hlt1, CreatureHost.isCooldownLoop, hi, hc]
      · rw [CasterAI_engageLoop_skip h who spells count i rest count ev
          (Or.inr ⟨info, hi, hc⟩)]
        simp [hnone _ hlt1, CreatureHost.isCooldownLoop, hi, hc]
    · have hle1 : count + 1 ≤ spell := by omega
      have hidx : spell - count = (spell - (count + 1)) + 1 := by omega
      have hget : (i :: rest).get? (spell - count) = rest.get? (spell - (count + 1)) := by
        rw [hidx]; rfl
      rw [hget]
      rcases GetAISpellInfo_cases h i with hi | ⟨info, hi, hc⟩ | ⟨info, hi, hc⟩ | ⟨info, hi, hc⟩
      · rw [CasterAI_engageLoop_skip h who spells spell i rest count ev (Or.inl hi)]
        exact ih _ _ hle1
      · rw [CasterAI_engageLoop_aggro h who spells spell i rest count ev info hi hc]
        simp [Call.isDoCast, ih _ _ hle1]
      · rw [CasterAI_engageLoop_other h who spells spell i rest count ev info hi hc heq]
        simp [Call.isDoCast, ih _ _ hle1]
      · rw [CasterAI_engageLoop_skip h who spells spell i rest count ev
          (Or.inr ⟨info, hi, hc⟩)]
        exact ih _ _ hle1

/-- The loop of `CasterAI::JustEngagedWith` issues a `ScheduleEvent` for every
cooldown-loop ability it visits, and a `CastSpell` only for on-aggro ones. -/
theorem CasterAI_engageLoop_calls (h : CreatureHost) (who : Nat) (spells : List Nat)
    (spell : Nat) :
    ∀ (rest : List Nat) (count : Nat) (ev : EventMap),
      (∀ i ∈ rest, h.isCooldownLoop i = true →
        ∃ d, Call.ScheduleEvent i d ∈ (CasterAI.engageLoop h who spells spell rest count ev).2) ∧
      (∀ t i b, Call.CastSpell t i b ∈ (CasterAI.engageLoop h who spells spell rest count ev).2 →
        h.isCooldownLoop i = false) := by
  intro rest
  induction rest with
  | nil => intro count ev; simp [CasterAI.engageLoop]
  | cons i0 rest ih =>
    intro count ev
    have step : ∀ (ev1 : EventMap) (pre : List Call),
        (h.isCooldownLoop i0 = true → ∃ d, Call.ScheduleEvent i0 d ∈ pre) →
        (∀ t i b, Call.CastSpell t i b ∈ pre → h.isCooldownLoop i = false) →
        (∀ i ∈ i0 :: rest, h.isCooldownLoop i = true →
          ∃ d, Call.ScheduleEvent i d ∈
            pre ++ (CasterAI.engageLoop h who spells spell rest (count + 1) ev1).2) ∧
        (∀ t i b, Call.CastSpell t i b ∈
            pre ++ (CasterAI.engageLoop h who spells spell rest (count + 1) ev1).2 →
          h.isCooldownLoop i = false) := by
      intro ev1 pre hhead hcast
      obtain ⟨ih1, ih2⟩ := ih (count + 1) ev1
      refine ⟨?_, ?_⟩
      · intro i hmem hel
        rcases List.mem_cons.mp hmem with heq | hin
        · subst heq
          obtain ⟨d, hd⟩ := hhead hel
          exact ⟨d, List.mem_append_left _ hd⟩
        · obtain ⟨d, hd⟩ := ih1 i hin hel
          exact ⟨d, List.mem_append_right _ hd⟩
      · intro t i b hmem
        rcases List.mem_append.mp hmem with hp | hr
        · exact hcast t i b hp
        · exact ih2 t i b hr
    rcases GetAISpellInfo_cases h i0 with hi | ⟨info, hi, hc⟩ | ⟨info, hi, hc⟩ | ⟨info, hi, hc⟩
    · rw [CasterAI_engageLoop_skip h who spells spell i0 rest count ev (Or.inl hi)]
      have := step ev [] (by simp [CreatureHost.isCooldownLoop, hi]) (by simp)
      simpa using this
    · rw [CasterAI_engageLoop_aggro h who spells spell i0 rest count ev info hi hc]
      have := step ev [Call.CastSpell who i0 false]
        (by simp [CreatureHost.isCooldownLoop, hi, hc])
        (by
          intro t i b hmem
          simp only [List.mem_singleton] at hmem
          injection hmem with h1 h2 h3
          subst h2
          simp [CreatureHost.isCooldownLoop, hi, hc])
      simpa using this
    · by_cases heq : count = spell
      · subst heq
        rw [CasterAI_engageLoop_chosen h who spells i0 rest count ev info hi hc]
        have := step
          (ev.ScheduleEvent i0 ((info.realCooldown + h.GetCurrentSpellCastTime i0) % UINT32_SIZE))
          [Call.DoCast (spells.getD count 0), Call.ScheduleEvent i0
            ((info.realCooldown + h.GetCurrentSpellCastTime i0) % UINT32_SIZE)]
          (fun _ => ⟨(info.realCooldown + h.GetCurrentSpellCastTime i0) % UINT32_SIZE,
            List.mem_cons_of_mem _ (List.mem_cons_self _ _)⟩) (by simp)
        simpa using this
      · rw [CasterAI_engageLoop_other h who spells spell i0 rest count ev info hi hc heq]
        have := step (ev.ScheduleEvent i0 info.realCooldown)
          [Call.ScheduleEvent i0 info.realCooldown]
          (fun _ => ⟨info.realCooldown, List.mem_cons_self _ _⟩) (by simp)
        simpa using this
    · rw [CasterAI_engageLoop_skip h who spells spell i0 rest count ev (Or.inr ⟨info, hi, hc⟩)]
      have := step ev [] (by simp [CreatureHost.isCooldownLoop, hi, hc]) (by simp)
      simpa using this

/-- After the loop of `CasterAI::JustEngagedWith` every cooldown-loop ability
it visited has an entry in the scheduler. -/
theorem CasterAI_engageLoop_pending (h : CreatureHost) (who : Nat) (spells : List Nat)
    (spell : Nat) :
    ∀ (rest : List Nat) (count : Nat) (ev : EventMap),
      (∀ e ∈ ev, e.abilityId ∉ rest →
        e ∈ (CasterAI.engageLoop h who spells spell rest count ev).1) ∧
      (∀ i ∈ rest, h.isCooldownLoop i = true →
        ∃ e ∈ (CasterAI.engageLoop h who spells spell rest count ev).1, e.abilityId = i) := by
  intro rest
  induction rest with
  | nil => intro count ev; simp [CasterAI.engageLoop]
  | cons i0 rest ih =>
    intro count ev
    have key : ∀ (ev1 : EventMap),
        (∀ e ∈ ev, e.abilityId ≠ i0 → e ∈ ev1) →
        (h.isCooldownLoop i0 = true → ∃ e ∈ ev1, e.abilityId = i0) →
        (∀ e ∈ ev, e.abilityId ∉ i0 :: rest →
          e ∈ (CasterAI.engageLoop h who spells spell rest (count + 1) ev1).1) ∧
        (∀ i ∈ i0 :: rest, h.isCooldownLoop i = true →
          ∃ e ∈ (CasterAI.engageLoop h who spells spell rest (count + 1) ev1).1,
            e.abilityId = i) := by
      intro ev1 hkeep hhead
      obtain ⟨ih1, ih2⟩ := ih (count + 1) ev1
      refine ⟨?_, ?_⟩
      · intro e he hnot
        have hne : e.abilityId ≠ i0 := fun heq => hnot (heq ▸ List.mem_cons_self _ _)
        exact ih1 e (hkeep e he hne) (fun hin => hnot (List.mem_cons_of_mem _ hin))
      · intro i hmem hel
        by_cases hin : i ∈ rest
        · exact ih2 i hin hel
        · have heq : i = i0 := by
            rcases List.mem_cons.mp hmem with heq | hin2
            · exact heq
            · exact absurd hin2 hin
          subst heq
          obtain ⟨e, he, hid⟩ := hhead hel
          exact ⟨e, ih1 e he (by rw [hid]; exact hin), hid⟩
    rcases GetAISpellInfo_cases h i0 with hi | ⟨info, hi, hc⟩ | ⟨info, hi, hc⟩ | ⟨info, hi, hc⟩
    · rw [CasterAI_engageLoop_skip h who spells spell i0 rest count ev (Or.inl hi)]
      exact key ev (fun e he _ => he) (by simp [CreatureHost.isCooldownLoop, hi])
    · rw [CasterAI_engageLoop_aggro h who spells spell i0 rest count ev info hi hc]
      exact key ev (fun e he _ => he) (by simp [CreatureHost.isCooldownLoop, hi, hc])
    · by_cases heq : count = spell
      · subst heq
        rw [CasterAI_engageLoop_chosen h who spells i0 rest count ev info hi hc]
        exact key _
          (fun e he hne => (EventMap_mem_ScheduleEvent _ _ _ _).mpr (Or.inl ⟨he, hne⟩))
          (fun _ => ⟨_, (EventMap_mem_ScheduleEvent _ _ _ _).mpr (Or.inr rfl), rfl⟩)
      · rw [CasterAI_engageLoop_other h who spells spell i0 rest count ev info hi hc heq]
        exact key _
          (fun e he hne => (EventMap_mem_ScheduleEvent _ _ _ _).mpr (Or.inl ⟨he, hne⟩))
          (fun _ => ⟨_, (EventMap_mem_ScheduleEvent _ _ _ _).mpr (Or.inr rfl), rfl⟩)
    · rw [CasterAI_engageLoop_skip h who spells spell i0 rest count ev (Or.inr ⟨info, hi, hc⟩)]
      exact key ev (fun e he _ => he) (by simp [CreatureHost.isCooldownLoop, hi, hc])

/-- C3 fails as stated: the example host owns the on-aggro ability 9 and the
cooldown-loop ability 7, so one owned ability is eligible; the draw 4320 picks
index 4320 % 2 = 0, the on-aggro ability, and the engagement issues no `DoCast`
at all: the eligible ability 7 is only scheduled. -/
theorem CasterAI_JustEngagedWith_no_eligible_cast :
    (([9, 7] : List Nat).filter exampleHost.isCooldownLoop).length = 1 ∧
    (CasterAI.JustEngagedWith exampleHost ⟨⟨[9, 7], []⟩, 30⟩ 1).2 =
      [Call.CastSpell 1 9 false, Call.ScheduleEvent 7 1500] ∧
    ((CasterAI.JustEngagedWith exampleHost ⟨⟨[9, 7], []⟩, 30⟩ 1).2.filter
      Call.isDoCast).length = 0 := by
  refine ⟨by decide, by decide, by decide⟩

/-- C3, amended: on one engagement call with a non-empty owned list the index
`rand32() % spells.size()` is drawn over the whole owned list. The `DoCast`
calls are exactly one, for the ability at that index, when that ability is
eligible (resolves with the cooldown-loop trigger), and none when it is not.
Every eligible owned ability is scheduled (a `ScheduleEvent` call, and an entry
in the scheduler afterwards) and none of them is cast through `CastSpell`. -/
theorem CasterAI_JustEngagedWith_one_cast (h : CreatureHost) (ai : CasterAI) (who : Nat)
    (hne : ai.spells ≠ []) :
    ((CasterAI.JustEngagedWith h ai who).2.filter Call.isDoCast =
      if h.isCooldownLoop (ai.spells.getD (h.rand32 0 % ai.spells.length) 0)
      then [Call.DoCast (ai.spells.getD (h.rand32 0 % ai.spells.length) 0)] else []) ∧
    (∀ i ∈ ai.spells, h.isCooldownLoop i = true →
      (∃ d, Call.ScheduleEvent i d ∈ (CasterAI.JustEngagedWith h ai who).2) ∧
      (∃ e ∈ (CasterAI.JustEngagedWith h ai who).1.events, e.abilityId = i) ∧
      (∀ t b, Call.CastSpell t i b ∉ (CasterAI.JustEngagedWith h ai who).2)) := by
  have hlen : 0 < ai.spells.length := List.length_pos.mpr hne
  have hlt : h.rand32 0 % ai.spells.length < ai.spells.length := Nat.mod_lt _ hlen
  have hrun : CasterAI.JustEngagedWith h ai who =
      ({ ai with events := (CasterAI.engageLoop h who ai.spells
          (h.rand32 0 % ai.spells.length) ai.spells 0 ai.events).1 },
        (CasterAI.engageLoop h who ai.spells
          (h.rand32 0 % ai.spells.length) ai.spells 0 ai.events).2) := by
    simp [CasterAI.JustEngagedWith, hne]
  rw [hrun]
  refine ⟨?_, ?_⟩
  · have := CasterAI_engageLoop_DoCast h who ai.spells (h.rand32 0 % ai.spells.length)
      ai.spells 0 ai.events (Nat.zero_le _)
    simp only [Nat.sub_zero] at this
    rw [this]
    simp [List.getElem?_eq_getElem hlt]
  · intro i hi hel
    obtain ⟨hsched, hcast⟩ := CasterAI_engageLoop_calls h who ai.spells
      (h.rand32 0 % ai.spells.length) ai.spells 0 ai.events
    obtain ⟨-, hpend⟩ := CasterAI_engageLoop_pending h who ai.spells
      (h.rand32 0 % ai.spells.length) ai.spells 0 ai.events
    refine ⟨hsched i hi hel, hpend i hi hel, ?_⟩
    intro t b hmem
    have := hcast t i b hmem
    rw [hel] at this
    cases this

/-- Witness for C3 (amended): with the draw 4321 the example host picks index
4321 % 2 = 1 of the owned list [9, 7], the eligible ability 7, and casts it. -/
theorem CasterAI_JustEngagedWith_one_cast_witness :
    (CasterAI.JustEngagedWith { exampleHost with draws := fun _ => 4321 }
        ⟨⟨[9, 7], []⟩, 30⟩ 1).2.filter Call.isDoCast = [Call.DoCast 7] :=
  (CasterAI_JustEngagedWith_one_cast { exampleHost with draws := fun _ => 4321 }
    ⟨⟨[9, 7], []⟩, 30⟩ 1 (by decide)).1

/-- The tick of `CasterAI::UpdateAI` on the path that takes a ready ability:
valid victim without a damage-breakable crowd-control aura, not casting, and
`ExecuteEvent` returns the non-zero id `id`. -/
theorem CasterAI_UpdateAI_ready (h : CreatureHost) (ai : CasterAI) (diff : Nat) (id : Nat)
    (hv : h.UpdateVictim = true)
    (hcc : h.GetVictim.any (fun v => v.HasBreakableByDamageCrowdControlAura) = false)
    (hc : h.casting = false)
    (hid : (ai.events.Update diff).ExecuteEvent.1 = id) (hne : id ≠ 0) :
    CasterAI.UpdateAI h ai diff =
      match h.GetAISpellInfo id with
      | some info =>
        (⟨⟨ai.spells, EventMap.ScheduleEvent (ai.events.Update diff).ExecuteEvent.2 id
            (CasterAI.recastDelay (h.GetCurrentSpellCastTime id) info.realCooldown)⟩,
          ai.m_attackDist⟩,
          [Call.DoCast id, Call.ScheduleEvent id
            (CasterAI.recastDelay (h.GetCurrentSpellCastTime id) info.realCooldown)])
      | none =>
        (⟨⟨ai.spells, (ai.events.Update diff).ExecuteEvent.2⟩, ai.m_attackDist⟩,
          [Call.DoCast id]) := by
  subst hid
  unfold CasterAI.UpdateAI
  simp only [hv, hcc, hc, hne]
  cases hi : h.GetAISpellInfo (ai.events.Update diff).ExecuteEvent.1 <;> simp [hne]

/-- C4 fails as stated: with an observed cast time of 100 ms and a real
cooldown of 1500 ms the example host's caster reschedules ability 7 after
100 + 1500 = 1600 ms, where `max(observedCastTime, 500) + realCooldown` is
2000 ms. -/
theorem CasterAI_UpdateAI_delay_not_max :
    (CasterAI.UpdateAI exampleHost ⟨⟨[7], [⟨7, 5⟩]⟩, 30⟩ 5).2 =
      [Call.DoCast 7, Call.ScheduleEvent 7 1600] ∧
    (CasterAI.UpdateAI exampleHost ⟨⟨[7], [⟨7, 5⟩]⟩, 30⟩ 5).1.events = [⟨7, 1600⟩] ∧
    exampleHost.GetCurrentSpellCastTime 7 = 100 ∧
    spec_recastDelay 100 1500 = 2000 ∧
    CasterAI.recastDelay 100 1500 ≠ spec_recastDelay 100 1500 := by
  refine ⟨by decide, by decide, rfl, by decide, by decide⟩

/-- C4, amended: after taking a ready ability from the scheduler and casting
it, `CasterAI::UpdateAI` reschedules that ability (when its descriptor
resolves) with delay `(observedCastTime if it is non-zero, else 500) +
realCooldown` in `uint32` arithmetic, for every observed cast time and every
real cooldown. That is `max(observedCastTime, 500) + realCooldown` exactly
when the observed cast time is 0 or at least 500. -/
theorem CasterAI_UpdateAI_reschedule (h : CreatureHost) (ai : CasterAI) (diff : Nat) (id : Nat)
    (info : AISpellInfoType)
    (hv : h.UpdateVictim = true)
    (hcc : h.GetVictim.any (fun v => v.HasBreakableByDamageCrowdControlAura) = false)
    (hc : h.casting = false)
    (hid : (ai.events.Update diff).ExecuteEvent.1 = id) (hne : id ≠ 0)
    (hinfo : h.GetAISpellInfo id = some info) :
    CasterAI.UpdateAI h ai diff =
      (⟨⟨ai.spells, EventMap.ScheduleEvent (ai.events.Update diff).ExecuteEvent.2 id
          (((if h.GetCurrentSpellCastTime id ≠ 0 then h.GetCurrentSpellCastTime id else 500)
            + info.realCooldown) % UINT32_SIZE)⟩, ai.m_attackDist⟩,
        [Call.DoCast id, Call.ScheduleEvent id
          (((if h.GetCurrentSpellCastTime id ≠ 0 then h.GetCurrentSpellCastTime id else 500)
            + info.realCooldown) % UINT32_SIZE)]) ∧
    ((h.GetCurrentSpellCastTime id = 0 ∨ 500 ≤ h.GetCurrentSpellCastTime id) →
      CasterAI.recastDelay (h.GetCurrentSpellCastTime id) info.realCooldown =
        spec_recastDelay (h.GetCurrentSpellCastTime id) info.realCooldown) := by
  refine ⟨?_, ?_⟩
  · rw [CasterAI_UpdateAI_ready h ai diff id hv hcc hc hid hne, hinfo]
    rfl
  · rintro (h0 | h5)
    · simp [CasterAI.recastDelay, spec_recastDelay, h0]
    · have hnz : h.GetCurrentSpellCastTime id ≠ 0 := by omega
      simp [CasterAI.recastDelay, spec_recastDelay, hnz, h5]

/-- Witness for C4 (amended): the example host's caster, observed cast time
100 ms and real cooldown 1500 ms, reschedules ability 7 after 1600 ms. -/
theorem CasterAI_UpdateAI_reschedule_witness :
    CasterAI.UpdateAI exampleHost ⟨⟨[7], [⟨7, 5⟩]⟩, 30⟩ 5 =
      (⟨⟨[7], [⟨7, 1600⟩]⟩, 30⟩, [Call.DoCast 7, Call.ScheduleEvent 7 1600]) :=
  (CasterAI_UpdateAI_reschedule exampleHost ⟨⟨[7], [⟨7, 5⟩]⟩, 30⟩ 5 7
    ⟨AICondition.AICOND_COMBAT, 2000, 1500, 20⟩ rfl rfl rfl (by decide) (by decide) rfl).1

/-- C5 fails as stated: the example host has a valid victim without a
damage-breakable crowd-control aura and is not casting, and after 5 ms the
only scheduled ability (100 ms remaining) is not ready, yet the tick of
`CasterAI::UpdateAI` issues no call at all, where `CombatAI::UpdateAI` issues
the melee attempt. -/
theorem CasterAI_UpdateAI_no_melee_example :
    exampleHost.UpdateVictim = true ∧
    exampleHost.GetVictim = some ⟨false⟩ ∧
    exampleHost.casting = false ∧
    (EventMap.Update [⟨7, 100⟩] 5).ExecuteEvent.1 = 0 ∧
    (CasterAI.UpdateAI exampleHost ⟨⟨[7], [⟨7, 100⟩]⟩, 30⟩ 5).2 = [] ∧
    Call.DoMeleeAttackIfReady ∉ (CasterAI.UpdateAI exampleHost ⟨⟨[7], [⟨7, 100⟩]⟩, 30⟩ 5).2 ∧
    CombatAI.UpdateAI exampleHost ⟨[7], [⟨7, 100⟩]⟩ 5 =
      some (⟨[7], [⟨7, 95⟩]⟩, [Call.DoMeleeAttackIfReady]) := by
  refine ⟨rfl, rfl, rfl, by decide, by decide, by decide, by decide⟩

/-- C5, amended: `CasterAI::UpdateAI` has no melee fallback. For every state
with a valid victim that has no damage-breakable crowd-control aura and the
creature not casting: when the scheduler yields a ready ability both
controllers cast exactly that ability with `DoCast`; when no scheduled ability
is ready `CasterAI::UpdateAI` issues no call at all (it only advances the
scheduler), whereas `CombatAI::UpdateAI` issues the melee attempt. -/
theorem CasterAI_UpdateAI_no_melee (h : CreatureHost) (ai : CasterAI) (diff : Nat)
    (hv : h.UpdateVictim = true)
    (hcc : h.GetVictim.any (fun v => v.HasBreakableByDamageCrowdControlAura) = false)
    (hc : h.casting = false) :
    ((ai.events.Update diff).ExecuteEvent.1 = 0 →
      CasterAI.UpdateAI h ai diff =
        (⟨⟨ai.spells, (ai.events.Update diff).ExecuteEvent.2⟩, ai.m_attackDist⟩, []) ∧
      CombatAI.UpdateAI h ai.toCombatAI diff =
        some (⟨ai.spells, (ai.events.Update diff).ExecuteEvent.2⟩,
          [Call.DoMeleeAttackIfReady])) ∧
    ((ai.events.Update diff).ExecuteEvent.1 ≠ 0 →
      (CasterAI.UpdateAI h ai diff).2.filter Call.isDecision =
        [Call.DoCast (ai.events.Update diff).ExecuteEvent.1] ∧
      ∀ res, CombatAI.UpdateAI h ai.toCombatAI diff = some res →
        res.2.filter Call.isDecision =
          [Call.DoCast (ai.events.Update diff).ExecuteEvent.1]) ∧
    Call.DoMeleeAttackIfReady ∉ (CasterAI.UpdateAI h ai diff).2 := by
  refine ⟨?_, ?_, ?_⟩
  · intro hz
    refine ⟨?_, ?_⟩
    · simp [CasterAI.UpdateAI, hv, hcc, hc, hz]
    · simp [CombatAI.UpdateAI, hv, hc, hz]
  · intro hnz
    refine ⟨?_, ?_⟩
    · rw [CasterAI_UpdateAI_ready h ai diff _ hv hcc hc rfl hnz]
      cases hi : h.GetAISpellInfo (ai.events.Update diff).ExecuteEvent.1 <;>
        simp [Call.isDecision]
    · intro res hres
      cases hi : h.GetAISpellInfo (ai.events.Update diff).ExecuteEvent.1 with
      | none =>
        simp [CombatAI.UpdateAI, hv, hc, hnz, hi] at hres
        subst hres
        simp [Call.isDecision]
      | some info =>
        cases hf : fuzzedCooldown info.cooldown (h.rand32 0) with
        | none => simp [CombatAI.UpdateAI, hv, hc, hnz, hi, hf] at hres
        | some d =>
          simp [CombatAI.UpdateAI, hv, hc, hnz, hi, hf] at hres
          subst hres
          simp [Call.isDecision]
  · by_cases hz : (ai.events.Update diff).ExecuteEvent.1 = 0
    · simp [CasterAI.UpdateAI, hv, hcc, hc, hz]
    · rw [CasterAI_UpdateAI_ready h ai diff _ hv hcc hc rfl hz]
      cases hi : h.GetAISpellInfo (ai.events.Update diff).ExecuteEvent.1 <;> simp

/-- Witness for C5 (amended): the example host with nothing ready after 5 ms;
the caster's tick issues no call. -/
theorem CasterAI_UpdateAI_no_melee_witness :
    CasterAI.UpdateAI exampleHost ⟨⟨[7], [⟨7, 100⟩]⟩, 30⟩ 5 =
      (⟨⟨[7], [⟨7, 95⟩]⟩, 30⟩, []) :=
  ((CasterAI_UpdateAI_no_melee exampleHost ⟨⟨[7], [⟨7, 100⟩]⟩, 30⟩ 5 rfl rfl rfl).1
    (by decide)).1

/-- The seat loop returns on the first seat, in seat order, whose passenger
resolves to a player failing the conditions. -/
theorem VehicleAI_seatLoop_eq (h : VehicleHost) :
    ∀ seats : List VehicleSeat,
      VehicleAI.seatLoop h seats = (seats.find? h.violates).map (fun s => s.passengerGuid) := by
  intro seats
  induction seats with
  | nil => rfl
  | cons s rest ih =>
    unfold VehicleAI.seatLoop
    cases hu : h.GetUnit s.passengerGuid with
    | none => simp [List.find?_cons, VehicleHost.violates, hu, ih]
    | some isPlayer =>
      cases isPlayer with
      | false => simp [List.find?_cons, VehicleHost.violates, hu, ih]
      | true =>
        cases hm : h.IsObjectMeetingNotGroupedConditions s.passengerGuid with
        | false => simp [List.find?_cons, VehicleHost.violates, hu, hm]
        | true => simp [List.find?_cons, VehicleHost.violates, hu, hm, ih]

/-- A due recheck of `VehicleAI::CheckConditions`: the calls and the members
afterwards. -/
theorem VehicleAI_CheckConditions_due (CHECK : Nat) (h : VehicleHost) (ai : VehicleAI)
    (diff : Nat) (hcond : ai.m_HasConditions = true) (hdue : ai.m_ConditionsTimer ≤ diff) :
    VehicleAI.CheckConditions CHECK h ai diff =
      match h.GetVehicleKit with
      | some seats =>
        match seats.find? h.violates with
        | some s => (ai, [Call.ExitVehicle s.passengerGuid])
        | none => ({ ai with m_ConditionsTimer := CHECK }, [])
      | none => ({ ai with m_ConditionsTimer := CHECK }, []) := by
  unfold VehicleAI.CheckConditions
  simp only [hcond, hdue]
  cases hk : h.GetVehicleKit with
  | none => simp
  | some seats =>
    simp only [VehicleAI_seatLoop_eq]
    cases hf : seats.find? h.violates <;> simp

/-- C7: one due recheck of `VehicleAI::CheckConditions` (conditions
configured, `m_ConditionsTimer <= diff`) force-exits at most one passenger, for
every seat map: exactly the first seat in seat order whose passenger resolves
to a player failing the conditions; nobody when there is no such seat; seats
whose passenger does not resolve or is not a player are skipped. With three
seated players of which one is non-compliant exactly one eviction occurs. -/
theorem VehicleAI_CheckConditions_one_eviction (CHECK : Nat) (h : VehicleHost)
    (ai : VehicleAI) (diff : Nat) (hcond : ai.m_HasConditions = true)
    (hdue : ai.m_ConditionsTimer ≤ diff) :
    (VehicleAI.CheckConditions CHECK h ai diff).2.length ≤ 1 ∧
    (∀ c ∈ (VehicleAI.CheckConditions CHECK h ai diff).2, c.isExitVehicle = true) ∧
    (h.GetVehicleKit = none → (VehicleAI.CheckConditions CHECK h ai diff).2 = []) ∧
    (∀ seats, h.GetVehicleKit = some seats →
      (∀ pre s post, seats = pre ++ s :: post →
        (∀ p ∈ pre, h.GetUnit p.passengerGuid = none ∨ h.GetUnit p.passengerGuid = some false ∨
          h.IsObjectMeetingNotGroupedConditions p.passengerGuid = true) →
        h.GetUnit s.passengerGuid = some true →
        h.IsObjectMeetingNotGroupedConditions s.passengerGuid = false →
          (VehicleAI.CheckConditions CHECK h ai diff).2 = [Call.ExitVehicle s.passengerGuid]) ∧
      ((∀ p ∈ seats, h.GetUnit p.passengerGuid = none ∨ h.GetUnit p.passengerGuid = some false ∨
          h.IsObjectMeetingNotGroupedConditions p.passengerGuid = true) →
        (VehicleAI.CheckConditions CHECK h ai diff).2 = []) ∧
      (seats.length = 3 → (∀ p ∈ seats, h.GetUnit p.passengerGuid = some true) →
        (seats.filter
          (fun p => !h.IsObjectMeetingNotGroupedConditions p.passengerGuid)).length = 1 →
        ∃ s ∈ seats, h.IsObjectMeetingNotGroupedConditions s.passengerGuid = false ∧
          (VehicleAI.CheckConditions CHECK h ai diff).2 =
            [Call.ExitVehicle s.passengerGuid])) := by
  have hrun := VehicleAI_CheckConditions_due CHECK h ai diff hcond hdue
  have hskip : ∀ p : VehicleSeat,
      (h.GetUnit p.passengerGuid = none ∨ h.GetUnit p.passengerGuid = some false ∨
        h.IsObjectMeetingNotGroupedConditions p.passengerGuid = true) →
      h.violates p = false := by
    intro p hp
    rcases hp with hp | hp | hp
    · simp [VehicleHost.violates, hp]
    · simp [VehicleHost.violates, hp]
    · unfold VehicleHost.violates
      cases hu : h.GetUnit p.passengerGuid with
      | none => rfl
      | some b => cases b <;> simp [hp]
  refine ⟨?_, ?_, ?_, ?_⟩
  · rw [hrun]
    cases hk : h.GetVehicleKit with
    | none => simp
    | some seats => cases hf : seats.find? h.violates <;> simp [hf]
  · rw [hrun]
    cases hk : h.GetVehicleKit with
    | none => simp
    | some seats => cases hf : seats.find? h.violates <;> simp [hf, Call.isExitVehicle]
  · intro hk
    rw [hrun, hk]
  · intro seats hk
    rw [hrun, hk]
    refine ⟨?_, ?_, ?_⟩
    · intro pre s post hseats hpre hplayer hfail
      have hpref : pre.find? h.violates = none :=
        List.find?_eq_none.mpr (fun p hp => by simp [hskip p (hpre p hp)])
      have hv : h.violates s = true := by simp [VehicleHost.violates, hplayer, hfail]
      have hfind : seats.find? h.violates = some s := by
        rw [hseats, List.find?_append, hpref, List.find?_cons, hv]
        rfl
      simp [hfind]
    · intro hall
      have hnil : seats.find? h.violates = none :=
        List.find?_eq_none.mpr (fun p hp => by simp [hskip p (hall p hp)])
      simp [hnil]
    · intro _ hplayers hone
      have hsame : seats.filter h.violates =
          seats.filter (fun p => !h.IsObjectMeetingNotGroupedConditions p.passengerGuid) := by
        apply List.filter_congr
        intro p hp
        simp [VehicleHost.violates, hplayers p hp]
      have hhead : seats.find? h.violates = (seats.filter h.violates).head? := by
        simp
      obtain ⟨s, hf⟩ := List.length_eq_one.mp hone
      have hmem : s ∈ seats.filter
          (fun p => !h.IsObjectMeetingNotGroupedConditions p.passengerGuid) := by
        rw [hf]; exact List.mem_singleton.mpr rfl
      obtain ⟨hin, hbad⟩ := List.mem_filter.mp hmem
      have hfind : seats.find? h.violates = some s := by
        rw [hhead, hsame, hf]
        rfl
      exact ⟨s, hin, by simpa using hbad, by simp [hfind]⟩

/-- Witness for C7: the example vehicle, three seated players of which only
player 2 is non-compliant; a due recheck evicts player 2 and nobody else. -/
theorem VehicleAI_CheckConditions_one_eviction_witness :
    (VehicleAI.CheckConditions 1000 exampleVehicle (VehicleAI.ctor 1000 5000 true) 1000).2 =
      [Call.ExitVehicle 2] :=
  ((VehicleAI_CheckConditions_one_eviction 1000 exampleVehicle (VehicleAI.ctor 1000 5000 true)
    1000 rfl (by decide)).2.2.2 [⟨0, 1⟩, ⟨1, 2⟩, ⟨2, 3⟩] rfl).1 [⟨0, 1⟩] ⟨1, 2⟩ [⟨2, 3⟩] rfl
    (by decide) rfl rfl

/-- What `VehicleAI::CheckConditions` leaves alone: the dismissal members and
the conditions flag; it never despawns; it issues at most one call, a forced
exit, and then leaves the recheck timer as it was. -/
theorem VehicleAI_CheckConditions_frame (CHECK : Nat) (h : VehicleHost) (ai : VehicleAI)
    (diff : Nat) :
    (VehicleAI.CheckConditions CHECK h ai diff).1.m_DoDismiss = ai.m_DoDismiss ∧
    (VehicleAI.CheckConditions CHECK h ai diff).1.m_DismissTimer = ai.m_DismissTimer ∧
    (VehicleAI.CheckConditions CHECK h ai diff).1.m_HasConditions = ai.m_HasConditions ∧
    ((VehicleAI.CheckConditions CHECK h ai diff).2 = [] ∨
      ∃ guid, (VehicleAI.CheckConditions CHECK h ai diff).2 = [Call.ExitVehicle guid] ∧
        (VehicleAI.CheckConditions CHECK h ai diff).1 = ai ∧
        ai.m_HasConditions = true ∧ ai.m_ConditionsTimer ≤ diff) := by
  unfold VehicleAI.CheckConditions
  cases hcond : ai.m_HasConditions with
  | false => simp [hcond]
  | true =>
    by_cases hdue : ai.m_ConditionsTimer ≤ diff
    · cases hk : h.GetVehicleKit with
      | none => simp [hdue, hcond]
      | some seats =>
        cases hl : VehicleAI.seatLoop h seats with
        | none => simp [hdue, hl, hcond]
        | some guid => simp [hdue, hl, hcond]
    · simp [hdue, hcond]

/-- The dismissal part of `VehicleAI::UpdateAI`: the tick despawns exactly
when the dismissal is pending and the dismiss timer is below `diff`; the
dismissal stays pending otherwise, with the timer reduced by `diff`. -/
theorem VehicleAI_UpdateAI_dismiss (CHECK : Nat) (h : VehicleHost) (ai : VehicleAI)
    (diff : Nat) :
    (ai.m_DoDismiss = false →
      (VehicleAI.UpdateAI CHECK h ai diff).1.m_DoDismiss = false ∧
      (VehicleAI.UpdateAI CHECK h ai diff).1.m_DismissTimer = ai.m_DismissTimer ∧
      (VehicleAI.UpdateAI CHECK h ai diff).2.count Call.DespawnOrUnsummon = 0) ∧
    (ai.m_DoDismiss = true → ai.m_DismissTimer < diff →
      (VehicleAI.UpdateAI CHECK h ai diff).1.m_DoDismiss = false ∧
      (VehicleAI.UpdateAI CHECK h ai diff).2.count Call.DespawnOrUnsummon = 1) ∧
    (ai.m_DoDismiss = true → diff ≤ ai.m_DismissTimer →
      (VehicleAI.UpdateAI CHECK h ai diff).1.m_DoDismiss = true ∧
      (VehicleAI.UpdateAI CHECK h ai diff).1.m_DismissTimer = ai.m_DismissTimer - diff ∧
      (VehicleAI.UpdateAI CHECK h ai diff).2.count Call.DespawnOrUnsummon = 0) ∧
    (VehicleAI.UpdateAI CHECK h ai diff).1.m_HasConditions = ai.m_HasConditions := by
  obtain ⟨f1, f2, f3, f4⟩ := VehicleAI_CheckConditions_frame CHECK h ai diff
  have hcount : (VehicleAI.CheckConditions CHECK h ai diff).2.count Call.DespawnOrUnsummon
      = 0 := by
    rcases f4 with h0 | ⟨guid, h1, _⟩
    · rw [h0]; rfl
    · rw [h1]; rfl
  unfold VehicleAI.UpdateAI
  refine ⟨?_, ?_, ?_, ?_⟩
  · intro hd
    simp [f1, f2, hd, hcount]
  · intro hd hlt
    simp [f1, f2, hd, hlt, List.count_append, hcount]
  · intro hd hle
    have hnlt : ¬ ai.m_DismissTimer < diff := not_lt.mpr hle
    simp [f1, f2, hd, hnlt, hcount]
  · cases hd : ai.m_DoDismiss with
    | false => simp [f1, f3, hd]
    | true =>
      by_cases hlt : ai.m_DismissTimer < diff
      · simp [f1, f2, f3, hd, hlt]
      · simp [f1, f2, f3, hd, hlt]

/-- A tick of `VehicleAI::UpdateAI` force-exits at most one passenger; when it
does, the recheck timer keeps its value, which was due (`<= diff`). -/
theorem VehicleAI_UpdateAI_evictions (CHECK : Nat) (h : VehicleHost) (ai : VehicleAI)
    (diff : Nat) :
    ((VehicleAI.UpdateAI CHECK h ai diff).2.filter Call.isExitVehicle).length ≤ 1 ∧
    ((VehicleAI.UpdateAI CHECK h ai diff).2.any Call.isExitVehicle = true →
      (VehicleAI.UpdateAI CHECK h ai diff).1.m_ConditionsTimer = ai.m_ConditionsTimer ∧
      ai.m_ConditionsTimer ≤ diff ∧ ai.m_HasConditions = true) := by
  obtain ⟨f1, f2, f3, f4⟩ := VehicleAI_CheckConditions_frame CHECK h ai diff
  unfold VehicleAI.UpdateAI
  rcases f4 with h0 | ⟨guid, h1, hsame, hc, hdue⟩
  · cases hd : ai.m_DoDismiss with
    | false => simp [f1, hd, h0]
    | true =>
      by_cases hlt : ai.m_DismissTimer < diff
      · simp [f1, f2, hd, hlt, h0, Call.isExitVehicle]
      · simp [f1, f2, hd, hlt, h0]
  · cases hd : ai.m_DoDismiss with
    | false => simp [f1, hd, h1, hsame, Call.isExitVehicle, hc, hdue]
    | true =>
      by_cases hlt : ai.m_DismissTimer < diff
      · simp [f1, f2, hd, hlt, h1, hsame, Call.isExitVehicle, hc, hdue]
      · simp [f1, f2, hd, hlt, h1, hsame, Call.isExitVehicle, hc, hdue]

/-- The calls of `VehicleAI::CheckConditions` are among the calls of the tick. -/
theorem VehicleAI_UpdateAI_calls_of_check (CHECK : Nat) (h : VehicleHost) (ai : VehicleAI)
    (diff : Nat) (c : Call) (hc : c ∈ (VehicleAI.CheckConditions CHECK h ai diff).2) :
    c ∈ (VehicleAI.UpdateAI CHECK h ai diff).2 := by
  unfold VehicleAI.UpdateAI
  simp only
  split
  · split
    · exact List.mem_append_left _ hc
    · exact hc
  · exact hc

/-- The number of evicting ticks of a run is at most the number of ticks. -/
theorem VehicleAI_evictionTimes_length (CHECK : Nat) :
    ∀ (ticks : List (VehicleHost × Nat)) (ai : VehicleAI) (now : Nat),
      (VehicleAI.evictionTimes CHECK ai now ticks).length ≤ ticks.length := by
  intro ticks
  induction ticks with
  | nil => intro ai now; simp [VehicleAI.evictionTimes]
  | cons t rest ih =>
    intro ai now
    obtain ⟨h, diff⟩ := t
    unfold VehicleAI.evictionTimes
    simp only
    have := ih (VehicleAI.UpdateAI CHECK h ai diff).1 (now + diff)
    split
    · simp only [List.length_cons]; omega
    · simp only [List.length_cons]; omega

/-- C8 fails as stated: a vehicle with conditions and period 1000, constructed
and ticked with `diff` 999, 1 and 1 while players 1 and 2 of its three seated
players fail the conditions (the seat of player 1 is empty at the third tick).
The first tick brings the recheck timer to 1; the second tick evicts player 1
and leaves the timer at 1; the third tick evicts player 2. The two evictions
are 1 ms apart, not a period (1000 ms). -/
theorem VehicleAI_evictions_on_consecutive_ticks :
    (crowdedVehicle.ExitVehicle 1).GetVehicleKit = some [⟨0, 0⟩, ⟨1, 2⟩, ⟨2, 3⟩] ∧
    VehicleAI.runTicks 1000 (VehicleAI.ctor 1000 5000 true)
        [(crowdedVehicle, 999), (crowdedVehicle, 1), (crowdedVehicle.ExitVehicle 1, 1)] =
      (⟨true, 1, false, 5000⟩, [[], [Call.ExitVehicle 1], [Call.ExitVehicle 2]]) ∧
    VehicleAI.evictionTimes 1000 (VehicleAI.ctor 1000 5000 true) 0
        [(crowdedVehicle, 999), (crowdedVehicle, 1), (crowdedVehicle.ExitVehicle 1, 1)] =
      [1000, 1001] ∧
    ¬ List.Pairwise (fun t1 t2 => t1 + 1000 ≤ t2)
      (VehicleAI.evictionTimes 1000 (VehicleAI.ctor 1000 5000 true) 0
        [(crowdedVehicle, 999), (crowdedVehicle, 1), (crowdedVehicle.ExitVehicle 1, 1)]) := by
  have ht : VehicleAI.evictionTimes 1000 (VehicleAI.ctor 1000 5000 true) 0
        [(crowdedVehicle, 999), (crowdedVehicle, 1), (crowdedVehicle.ExitVehicle 1, 1)] =
      [1000, 1001] := by decide
  refine ⟨by decide, by decide, ht, ?_⟩
  rw [ht]
  simp

/-- C8, amended: when a condition recheck of `VehicleAI` evicts a passenger it
returns before resetting `m_ConditionsTimer`, so the timer keeps its (due)
value and the remaining seats are rechecked at the next `UpdateAI` tick whose
`diff` reaches that value, not a period later: such a tick evicts the first
remaining seated player failing the conditions. Every `UpdateAI` tick evicts at
most one passenger, so over every sequence of ticks and seat maps the number of
evicting ticks is at most the number of ticks. -/
theorem VehicleAI_one_eviction_per_tick (CHECK : Nat) (h : VehicleHost) (ai : VehicleAI)
    (diff : Nat) :
    ((VehicleAI.UpdateAI CHECK h ai diff).2.filter Call.isExitVehicle).length ≤ 1 ∧
    ((VehicleAI.UpdateAI CHECK h ai diff).2.any Call.isExitVehicle = true →
      (VehicleAI.UpdateAI CHECK h ai diff).1.m_ConditionsTimer = ai.m_ConditionsTimer ∧
      ai.m_ConditionsTimer ≤ diff ∧
      ∀ (h2 : VehicleHost) (diff2 : Nat) (seats : List VehicleSeat) (s : VehicleSeat),
        ai.m_ConditionsTimer ≤ diff2 → h2.GetVehicleKit = some seats →
        seats.find? h2.violates = some s →
          Call.ExitVehicle s.passengerGuid ∈
            (VehicleAI.UpdateAI CHECK h2 (VehicleAI.UpdateAI CHECK h ai diff).1 diff2).2) ∧
    (∀ (ticks : List (VehicleHost × Nat)) (now : Nat),
      (VehicleAI.evictionTimes CHECK ai now ticks).length ≤ ticks.length) := by
  obtain ⟨e1, e2⟩ := VehicleAI_UpdateAI_evictions CHECK h ai diff
  refine ⟨e1, ?_, fun ticks now => VehicleAI_evictionTimes_length CHECK ticks ai now⟩
  intro hev
  obtain ⟨ht, hdue, hcond⟩ := e2 hev
  refine ⟨ht, hdue, ?_⟩
  intro h2 diff2 seats s hdue2 hk hfind
  apply VehicleAI_UpdateAI_calls_of_check
  have hcond2 : (VehicleAI.UpdateAI CHECK h ai diff).1.m_HasConditions = true := by
    rw [(VehicleAI_UpdateAI_dismiss CHECK h ai diff).2.2.2]; exact hcond
  rw [VehicleAI_CheckConditions_due CHECK h2 _ diff2 hcond2 (by rw [ht]; exact hdue2), hk]
  simp [hfind]

/-- Witness for C8 (amended): after the tick that evicts player 1 the recheck
timer of the crowded vehicle is still 1, and the next tick, with `diff` 1,
evicts player 2. -/
theorem VehicleAI_one_eviction_per_tick_witness :
    Call.ExitVehicle 2 ∈
      (VehicleAI.UpdateAI 1000 (crowdedVehicle.ExitVehicle 1)
        (VehicleAI.UpdateAI 1000 crowdedVehicle ⟨true, 1, false, 5000⟩ 1).1 1).2 :=
  ((VehicleAI_one_eviction_per_tick 1000 crowdedVehicle ⟨true, 1, false, 5000⟩ 1).2.1
    (by decide)).2.2 (crowdedVehicle.ExitVehicle 1) 1 [⟨0, 0⟩, ⟨1, 2⟩, ⟨2, 3⟩] ⟨1, 2⟩
    (by decide) (by decide) (by decide)

theorem elapsed_nil : elapsed [] = 0 := rfl

theorem elapsed_cons (h : VehicleHost) (diff : Nat) (rest : List (VehicleHost × Nat)) :
    elapsed ((h, diff) :: rest) = diff + elapsed rest := by
  simp [elapsed]

theorem VehicleAI_runTicks_cons (CHECK : Nat) (ai : VehicleAI) (h : VehicleHost) (diff : Nat)
    (rest : List (VehicleHost × Nat)) :
    VehicleAI.runTicks CHECK ai ((h, diff) :: rest) =
      ((VehicleAI.runTicks CHECK (VehicleAI.UpdateAI CHECK h ai diff).1 rest).1,
        (VehicleAI.UpdateAI CHECK h ai diff).2 ::
          (VehicleAI.runTicks CHECK (VehicleAI.UpdateAI CHECK h ai diff).1 rest).2) := rfl

/-- While no dismissal is pending no tick of a run despawns the creature, and
none becomes pending. -/
theorem VehicleAI_runTicks_idle (CHECK : Nat) :
    ∀ (ticks : List (VehicleHost × Nat)) (ai : VehicleAI), ai.m_DoDismiss = false →
      (VehicleAI.runTicks CHECK ai ticks).1.m_DoDismiss = false ∧
      (VehicleAI.runTicks CHECK ai ticks).1.m_DismissTimer = ai.m_DismissTimer ∧
      (∀ calls ∈ (VehicleAI.runTicks CHECK ai ticks).2,
        calls.count Call.DespawnOrUnsummon = 0) ∧
      ((VehicleAI.runTicks CHECK ai ticks).2.map
        (fun calls => calls.count Call.DespawnOrUnsummon)).sum = 0 := by
  intro ticks
  induction ticks with
  | nil => intro ai hd; simp [VehicleAI.runTicks, hd]
  | cons t rest ih =>
    intro ai hd
    obtain ⟨h, diff⟩ := t
    obtain ⟨s1, s2, s3⟩ := (VehicleAI_UpdateAI_dismiss CHECK h ai diff).1 hd
    obtain ⟨i1, i2, i3, i4⟩ := ih (VehicleAI.UpdateAI CHECK h ai diff).1 s1
    rw [VehicleAI_runTicks_cons]
    refine ⟨i1, by rw [i2, s2], ?_, ?_⟩
    · intro calls hmem
      rcases List.mem_cons.mp hmem with heq | hin
      · rw [heq]; exact s3
      · exact i3 calls hin
    · simp only [List.map_cons, List.sum_cons, s3, i4]

/-- A run that starts with the dismissal pending: the tick with index `k`
despawns exactly when the elapsed time before it is at most the dismiss timer
and the elapsed time after it exceeds the timer; the dismissal is still
pending at the end exactly when the whole elapsed time is at most the timer;
the run despawns once when the elapsed time exceeds the timer and never
otherwise. -/
theorem VehicleAI_runTicks_pending (CHECK : Nat) :
    ∀ (ticks : List (VehicleHost × Nat)) (ai : VehicleAI), ai.m_DoDismiss = true →
      (∀ (k : Nat) (calls : List Call),
        (VehicleAI.runTicks CHECK ai ticks).2[k]? = some calls →
          calls.count Call.DespawnOrUnsummon =
            if elapsed (ticks.take k) ≤ ai.m_DismissTimer ∧
              ai.m_DismissTimer < elapsed (ticks.take (k + 1)) then 1 else 0) ∧
      ((VehicleAI.runTicks CHECK ai ticks).1.m_DoDismiss = true ↔
        elapsed ticks ≤ ai.m_DismissTimer) ∧
      (((VehicleAI.runTicks CHECK ai ticks).2.map
        (fun calls => calls.count Call.DespawnOrUnsummon)).sum =
          if ai.m_DismissTimer < elapsed ticks then 1 else 0) := by
  intro ticks
  induction ticks with
  | nil =>
    intro ai hd
    simp [VehicleAI.runTicks, hd, elapsed_nil]
  | cons t rest ih =>
    intro ai hd
    obtain ⟨h, diff⟩ := t
    rw [VehicleAI_runTicks_cons]
    by_cases hlt : ai.m_DismissTimer < diff
    · obtain ⟨s1, s2⟩ := (VehicleAI_UpdateAI_dismiss CHECK h ai diff).2.1 hd hlt
      obtain ⟨i1, _, i3, i4⟩ := VehicleAI_runTicks_idle CHECK rest _ s1
      refine ⟨?_, ?_, ?_⟩
      · intro k calls hk
        cases k with
        | zero =>
          simp only [List.getElem?_cons_zero, Option.some.injEq] at hk
          subst hk
          rw [s2]
          simp [elapsed_nil, elapsed_cons, hlt]
        | succ k =>
          simp only [List.getElem?_cons_succ] at hk
          have hmem : calls ∈ (VehicleAI.runTicks CHECK
              (VehicleAI.UpdateAI CHECK h ai diff).1 rest).2 := List.getElem?_mem hk
          rw [i3 calls hmem]
          have : ¬ (elapsed (List.take (k + 1) ((h, diff) :: rest)) ≤ ai.m_DismissTimer ∧
              ai.m_DismissTimer < elapsed (List.take (k + 1 + 1) ((h, diff) :: rest))) := by
            rw [List.take_succ_cons, elapsed_cons]
            rintro ⟨a, _⟩
            omega
          rw [if_neg this]
      · simp only [i1, elapsed_cons]
        constructor
        · intro hf; cases hf
        · intro hle; omega
      · simp only [List.map_cons, List.sum_cons, s2, i4, elapsed_cons]
        have : ai.m_DismissTimer < diff + elapsed rest := by omega
        simp [this]
    · have hle : diff ≤ ai.m_DismissTimer := not_lt.mp hlt
      obtain ⟨s1, s2, s3⟩ := (VehicleAI_UpdateAI_dismiss CHECK h ai diff).2.2.1 hd hle
      obtain ⟨i1, i2, i3⟩ := ih _ s1
      rw [s2] at i1 i2 i3
      refine ⟨?_, ?_, ?_⟩
      · intro k calls hk
        cases k with
        | zero =>
          simp only [List.getElem?_cons_zero, Option.some.injEq] at hk
          subst hk
          rw [s3]
          simp [elapsed_nil, elapsed_cons, hlt]
        | succ k =>
          simp only [List.getElem?_cons_succ] at hk
          rw [i1 k calls hk]
          simp only [List.take_succ_cons, elapsed_cons]
          by_cases hc : elapsed (List.take k rest) ≤ ai.m_DismissTimer - diff ∧
              ai.m_DismissTimer - diff < elapsed (List.take (k + 1) rest)
          · have hc2 : diff + elapsed (List.take k rest) ≤ ai.m_DismissTimer ∧
                ai.m_DismissTimer < diff + elapsed (List.take (k + 1) rest) := by
              obtain ⟨a, b⟩ := hc
              constructor <;> omega
            rw [if_pos hc, if_pos hc2]
          · have hc2 : ¬ (diff + elapsed (List.take k rest) ≤ ai.m_DismissTimer ∧
                ai.m_DismissTimer < diff + elapsed (List.take (k + 1) rest)) := by
              rintro ⟨a, b⟩
              exact hc ⟨by omega, by omega⟩
            rw [if_neg hc, if_neg hc2]
      · rw [i2, elapsed_cons]
        constructor <;> intro hx <;> omega
      · simp only [List.map_cons, List.sum_cons, s3, i3, elapsed_cons, Nat.zero_add]
        by_cases hc : ai.m_DismissTimer - diff < elapsed rest
        · have hc2 : ai.m_DismissTimer < diff + elapsed rest := by omega
          rw [if_pos hc, if_pos hc2]
        · have hc2 : ¬ ai.m_DismissTimer < diff + elapsed rest := by omega
          rw [if_neg hc, if_neg hc2]

/-- Prefix sums of the elapsed time are monotone. -/
theorem elapsed_take_mono :
    ∀ (ticks : List (VehicleHost × Nat)) (a b : Nat), a ≤ b →
      elapsed (ticks.take a) ≤ elapsed (ticks.take b) := by
  intro ticks
  induction ticks with
  | nil => intro a b _; simp
  | cons t rest ih =>
    intro a b hab
    obtain ⟨h, diff⟩ := t
    cases a with
    | zero => simp [elapsed_nil]
    | succ a =>
      cases b with
      | zero => omega
      | succ b =>
        rw [List.take_succ_cons, List.take_succ_cons, elapsed_cons, elapsed_cons]
        have := ih a b (by omega)
        omega

theorem elapsed_take_le (ticks : List (VehicleHost × Nat)) (a : Nat) :
    elapsed (ticks.take a) ≤ elapsed ticks := by
  by_cases hle : a ≤ ticks.length
  · have := elapsed_take_mono ticks a ticks.length hle
    rwa [List.take_length] at this
  · rw [List.take_of_length_le (by omega)]

theorem VehicleAI_OnCharmed_arm (DISMISS : Nat) (ai : VehicleAI)
    (hcond : ai.m_HasConditions = true) :
    (VehicleAI.OnCharmed DISMISS false false ai).m_DoDismiss = true ∧
    (VehicleAI.OnCharmed DISMISS false false ai).m_DismissTimer = DISMISS := by
  simp [VehicleAI.OnCharmed, hcond]

theorem VehicleAI_OnCharmed_cancel (DISMISS : Nat) (inUse : Bool) (ai : VehicleAI) :
    (VehicleAI.OnCharmed DISMISS true inUse ai).m_DoDismiss = false ∧
    (VehicleAI.OnCharmed DISMISS true inUse ai).m_DismissTimer = DISMISS := by
  simp [VehicleAI.OnCharmed]

/-- C9: for every state with conditions configured, `OnCharmed` observed with
the creature uncharmed and the vehicle not in use sets the dismissal pending
with the timer at `VEHICLE_DISMISS_TIME`; over any `UpdateAI` ticks whose
summed elapsed time does not exceed `VEHICLE_DISMISS_TIME` no tick despawns the
creature; `OnCharmed` observed then with the creature charmed clears the
pending dismissal and resets the timer, and no later `UpdateAI` tick despawns
the creature or makes the dismissal pending again. -/
theorem VehicleAI_dismiss_cancelled (CHECK DISMISS : Nat) (ai : VehicleAI)
    (hcond : ai.m_HasConditions = true)
    (ticks : List (VehicleHost × Nat)) (hsum : elapsed ticks ≤ DISMISS)
    (inUse : Bool) (later : List (VehicleHost × Nat)) :
    (VehicleAI.OnCharmed DISMISS false false ai).m_DoDismiss = true ∧
    (VehicleAI.OnCharmed DISMISS false false ai).m_DismissTimer = DISMISS ∧
    (∀ calls ∈ (VehicleAI.runTicks CHECK (VehicleAI.OnCharmed DISMISS false false ai) ticks).2,
      Call.DespawnOrUnsummon ∉ calls) ∧
    (VehicleAI.runTicks CHECK (VehicleAI.OnCharmed DISMISS false false ai) ticks).1.m_DoDismiss
      = true ∧
    (VehicleAI.OnCharmed DISMISS true inUse
      (VehicleAI.runTicks CHECK (VehicleAI.OnCharmed DISMISS false false ai) ticks).1).m_DoDismiss
      = false ∧
    (VehicleAI.OnCharmed DISMISS true inUse
      (VehicleAI.runTicks CHECK (VehicleAI.OnCharmed DISMISS false false ai)
        ticks).1).m_DismissTimer = DISMISS ∧
    (∀ calls ∈ (VehicleAI.runTicks CHECK (VehicleAI.OnCharmed DISMISS true inUse
        (VehicleAI.runTicks CHECK (VehicleAI.OnCharmed DISMISS false false ai) ticks).1)
        later).2,
      Call.DespawnOrUnsummon ∉ calls) ∧
    (VehicleAI.runTicks CHECK (VehicleAI.OnCharmed DISMISS true inUse
        (VehicleAI.runTicks CHECK (VehicleAI.OnCharmed DISMISS false false ai) ticks).1)
        later).1.m_DoDismiss = false := by
  obtain ⟨a1, a2⟩ := VehicleAI_OnCharmed_arm DISMISS ai hcond
  obtain ⟨p1, p2, _⟩ := VehicleAI_runTicks_pending CHECK ticks _ a1
  rw [a2] at p1 p2
  obtain ⟨c1, c2⟩ := VehicleAI_OnCharmed_cancel DISMISS inUse
    (VehicleAI.runTicks CHECK (VehicleAI.OnCharmed DISMISS false false ai) ticks).1
  obtain ⟨i1, _, i3, _⟩ := VehicleAI_runTicks_idle CHECK later _ c1
  refine ⟨a1, a2, ?_, p2.mpr hsum, c1, c2, ?_, i1⟩
  · intro calls hmem
    obtain ⟨k, hk⟩ := List.mem_iff_getElem?.mp hmem
    have hcount := p1 k calls hk
    have hle := elapsed_take_le ticks (k + 1)
    have hnot : ¬ (elapsed (List.take k ticks) ≤ DISMISS ∧
        DISMISS < elapsed (List.take (k + 1) ticks)) := by
      rintro ⟨_, hgt⟩
      omega
    rw [if_neg hnot] at hcount
    exact List.count_eq_zero.mp hcount
  · intro calls hmem
    exact List.count_eq_zero.mp (i3 calls hmem)

/-- Witness for C9: a vehicle with conditions is armed, ticked for 2000 and
3000 ms (5000 ms in all, the dismiss time), charmed again, and ticked for
6000 ms: no dismissal is pending at the end. -/
theorem VehicleAI_dismiss_cancelled_witness :
    (VehicleAI.runTicks 1000 (VehicleAI.OnCharmed 5000 true true
        (VehicleAI.runTicks 1000 (VehicleAI.OnCharmed 5000 false false
          (VehicleAI.ctor 1000 5000 true))
          [(exampleVehicle, 2000), (exampleVehicle, 3000)]).1)
        [(exampleVehicle, 6000)]).1.m_DoDismiss = false :=
  (VehicleAI_dismiss_cancelled 1000 5000 (VehicleAI.ctor 1000 5000 true) rfl
    [(exampleVehicle, 2000), (exampleVehicle, 3000)] (by decide) true
    [(exampleVehicle, 6000)]).2.2.2.2.2.2.2

/-- C10: once the dismissal is armed by `OnCharmed` (conditions configured,
creature uncharmed, vehicle not in use) and no further charm event occurs, in
every sequence of `UpdateAI` ticks the tick with index `k` despawns the
creature exactly when the summed elapsed time before it is at most
`VEHICLE_DISMISS_TIME` and the summed elapsed time including it strictly
exceeds `VEHICLE_DISMISS_TIME`, and then it despawns it once. So at most one
tick despawns, it is the first tick at which the elapsed time exceeds the
dismiss time, there is one as soon as the elapsed time of the sequence exceeds
it, and once it has run the dismissal is no longer pending. -/
theorem VehicleAI_dismiss_expiry (CHECK DISMISS : Nat) (ai : VehicleAI)
    (hcond : ai.m_HasConditions = true) (ticks : List (VehicleHost × Nat)) :
    (∀ (k : Nat) (calls : List Call),
      (VehicleAI.runTicks CHECK (VehicleAI.OnCharmed DISMISS false false ai) ticks).2[k]? =
        some calls →
      (Call.DespawnOrUnsummon ∈ calls ↔
        elapsed (ticks.take k) ≤ DISMISS ∧ DISMISS < elapsed (ticks.take (k + 1))) ∧
      calls.count Call.DespawnOrUnsummon ≤ 1) ∧
    (∀ (k1 k2 : Nat) (c1 c2 : List Call),
      (VehicleAI.runTicks CHECK (VehicleAI.OnCharmed DISMISS false false ai) ticks).2[k1]? =
        some c1 →
      (VehicleAI.runTicks CHECK (VehicleAI.OnCharmed DISMISS false false ai) ticks).2[k2]? =
        some c2 →
      Call.DespawnOrUnsummon ∈ c1 → Call.DespawnOrUnsummon ∈ c2 → k1 = k2) ∧
    (((VehicleAI.runTicks CHECK (VehicleAI.OnCharmed DISMISS false false ai) ticks).2.map
        (fun calls => calls.count Call.DespawnOrUnsummon)).sum =
      if DISMISS < elapsed ticks then 1 else 0) ∧
    ((VehicleAI.runTicks CHECK (VehicleAI.OnCharmed DISMISS false false ai) ticks).1.m_DoDismiss
      = true ↔ elapsed ticks ≤ DISMISS) ∧
    (∀ k, DISMISS < elapsed (ticks.take (k + 1)) →
      (VehicleAI.runTicks CHECK (VehicleAI.OnCharmed DISMISS false false ai)
        (ticks.take (k + 1))).1.m_DoDismiss = false) := by
  obtain ⟨a1, a2⟩ := VehicleAI_OnCharmed_arm DISMISS ai hcond
  obtain ⟨p1, p2, p3⟩ := VehicleAI_runTicks_pending CHECK ticks _ a1
  rw [a2] at p1 p2 p3
  have hiff : ∀ (k : Nat) (calls : List Call),
      (VehicleAI.runTicks CHECK (VehicleAI.OnCharmed DISMISS false false ai) ticks).2[k]? =
        some calls →
      (Call.DespawnOrUnsummon ∈ calls ↔
        elapsed (ticks.take k) ≤ DISMISS ∧ DISMISS < elapsed (ticks.take (k + 1))) := by
    intro k calls hk
    have hcount := p1 k calls hk
    by_cases hc : elapsed (List.take k ticks) ≤ DISMISS ∧
        DISMISS < elapsed (List.take (k + 1) ticks)
    · rw [if_pos hc] at hcount
      exact ⟨fun _ => hc, fun _ => List.count_pos_iff.mp (by omega)⟩
    · rw [if_neg hc] at hcount
      exact ⟨fun hm => absurd hm (List.count_eq_zero.mp hcount), fun hx => absurd hx hc⟩
  refine ⟨?_, ?_, p3, p2, ?_⟩
  · intro k calls hk
    refine ⟨hiff k calls hk, ?_⟩
    rw [p1 k calls hk]
    split <;> omega
  · intro k1 k2 c1 c2 h1 h2 m1 m2
    obtain ⟨b1, e1⟩ := (hiff k1 c1 h1).mp m1
    obtain ⟨b2, e2⟩ := (hiff k2 c2 h2).mp m2
    by_contra hne
    rcases Nat.lt_or_gt_of_ne hne with hlt | hgt
    · have := elapsed_take_mono ticks (k1 + 1) k2 (by omega)
      omega
    · have := elapsed_take_mono ticks (k2 + 1) k1 (by omega)
      omega
  · intro k hk
    obtain ⟨_, q2, _⟩ := VehicleAI_runTicks_pending CHECK (ticks.take (k + 1)) _ a1
    rw [a2] at q2
    cases hd : (VehicleAI.runTicks CHECK (VehicleAI.OnCharmed DISMISS false false ai)
        (ticks.take (k + 1))).1.m_DoDismiss with
    | false => rfl
    | true =>
      have := q2.mp hd
      omega

/-- Witness for C10: armed with a dismiss time of 5000 ms and ticked for 2000,
3000, 1 and 9000 ms, the vehicle is despawned once over the whole run. -/
theorem VehicleAI_dismiss_expiry_witness :
    ((VehicleAI.runTicks 1000 (VehicleAI.OnCharmed 5000 false false
        (VehicleAI.ctor 1000 5000 true))
        [(exampleVehicle, 2000), (exampleVehicle, 3000), (exampleVehicle, 1),
          (exampleVehicle, 9000)]).2.map
      (fun calls => calls.count Call.DespawnOrUnsummon)).sum = 1 :=
  (VehicleAI_dismiss_expiry 1000 5000 (VehicleAI.ctor 1000 5000 true) rfl
    [(exampleVehicle, 2000), (exampleVehicle, 3000), (exampleVehicle, 1),
      (exampleVehicle, 9000)]).2.2.1

/-- C11: `TurretAI::CanAIAttack` returns true exactly when the target is within
the max range `m_CombatDistance` and either no min range is configured
(`m_minRange = 0`) or the target is not within `m_minRange`. With an inclusive
range test (within `r` iff distance `≤ r`), for a turret constructed from an
ability with min range `minRange > 0` and max range `maxRange > minRange`, a
target at distance exactly `minRange` is not attackable and a target at
distance exactly `maxRange` is attackable. -/
theorem TurretAI_CanAIAttack_range (h : StanceHost) (ai : TurretAI) :
    (TurretAI.CanAIAttack h ai = true ↔
      h.IsWithinCombatRange ai.m_CombatDistance = true ∧
        (ai.m_minRange = 0 ∨ h.IsWithinCombatRange ai.m_minRange = false)) ∧
    (∀ (dist minRange maxRange : ℚ) (m_spells0 : Nat) (GetSpellInfo : Nat → Option SpellRange),
      (∀ r, h.IsWithinCombatRange r = decide (dist ≤ r)) →
      GetSpellInfo m_spells0 = some ⟨minRange, maxRange⟩ →
      0 < minRange → minRange < maxRange →
        (TurretAI.ctor m_spells0 GetSpellInfo).1.m_minRange = minRange ∧
        (TurretAI.ctor m_spells0 GetSpellInfo).1.m_CombatDistance = maxRange ∧
        (dist = minRange →
          TurretAI.CanAIAttack h (TurretAI.ctor m_spells0 GetSpellInfo).1 = false) ∧
        (dist = maxRange →
          TurretAI.CanAIAttack h (TurretAI.ctor m_spells0 GetSpellInfo).1 = true)) := by
  refine ⟨?_, ?_⟩
  · unfold TurretAI.CanAIAttack
    by_cases hz : ai.m_minRange = 0
    · cases h.IsWithinCombatRange ai.m_CombatDistance <;> simp [hz]
    · cases h.IsWithinCombatRange ai.m_CombatDistance <;>
        cases h.IsWithinCombatRange ai.m_minRange <;> simp [hz]
  · intro dist minRange maxRange m_spells0 GetSpellInfo hin hinfo hpos hlt
    have hmin : (TurretAI.ctor m_spells0 GetSpellInfo).1.m_minRange = minRange := by
      simp [TurretAI.ctor, hinfo]
    have hmax : (TurretAI.ctor m_spells0 GetSpellInfo).1.m_CombatDistance = maxRange := by
      simp [TurretAI.ctor, hinfo]
    have hne : minRange ≠ 0 := ne_of_gt hpos
    refine ⟨hmin, hmax, ?_, ?_⟩
    · intro hd
      unfold TurretAI.CanAIAttack
      rw [hmin, hmax, hin, hin, hd]
      simp [hne, le_of_lt hlt]
    · intro hd
      unfold TurretAI.CanAIAttack
      rw [hmin, hmax, hin, hin, hd]
      simp [hne, not_le.mpr hlt]

/-- Witness for C11: a turret built from an ability of min range 10 and max
range 30 cannot attack a target at distance exactly 10. -/
theorem TurretAI_CanAIAttack_range_witness :
    TurretAI.CanAIAttack (stanceHostAt 10 true false)
      (TurretAI.ctor 7 (fun _ => some ⟨10, 30⟩)).1 = false :=
  ((TurretAI_CanAIAttack_range (stanceHostAt 10 true false)
    (TurretAI.ctor 7 (fun _ => some ⟨10, 30⟩)).1).2 10 10 30 7 (fun _ => some ⟨10, 30⟩)
    (fun _ => rfl) rfl (by norm_num) (by norm_num)).2.2.1 rfl

/-- The calls of `ArcherAI::AttackStart` for a non-null target, by the four
observations of the host. -/
theorem ArcherAI_AttackStart_calls (h : StanceHost) (ai : ArcherAI) (w : Nat) :
    ArcherAI.AttackStart h ai (some w) =
      (if h.IsWithinCombatRange ai.m_minRange = true then
        StanceCall.Attack w true ::
          (if h.Attack true = true ∧ h.IsFlying = false then [StanceCall.MoveChase w none]
            else [])
      else
        StanceCall.Attack w false ::
          (if h.Attack false = true ∧ h.IsFlying = false then
            [StanceCall.MoveChase w (some ai.m_CombatDistance)] else []))
      ++ (if h.IsFlying = true then [StanceCall.MoveIdle] else []) := by
  unfold ArcherAI.AttackStart
  cases h.IsWithinCombatRange ai.m_minRange <;> cases h.Attack true <;>
    cases h.Attack false <;> cases h.IsFlying <;> simp

/-- C12: `ArcherAI::AttackStart`, for every non-null target, issues exactly one
`Attack` call: `Attack(who, true)` (melee mode) exactly when the target is
within `m_minRange`, `Attack(who, false)` (ranged mode) otherwise, never both.
In melee mode a chase, if any, is at the default distance, in ranged mode at
`m_CombatDistance`. With an inclusive range test a target at distance exactly
`m_minRange` gets melee mode. A null target causes no call. -/
theorem ArcherAI_AttackStart_mode (h : StanceHost) (ai : ArcherAI) (w : Nat) :
    (StanceCall.Attack w true ∈ ArcherAI.AttackStart h ai (some w) ↔
      h.IsWithinCombatRange ai.m_minRange = true) ∧
    (StanceCall.Attack w false ∈ ArcherAI.AttackStart h ai (some w) ↔
      h.IsWithinCombatRange ai.m_minRange = false) ∧
    (ArcherAI.AttackStart h ai (some w)).filter StanceCall.isAttack =
      [StanceCall.Attack w (h.IsWithinCombatRange ai.m_minRange)] ∧
    (∀ who d, StanceCall.MoveChase who d ∈ ArcherAI.AttackStart h ai (some w) →
      who = w ∧
      d = if h.IsWithinCombatRange ai.m_minRange = true then none
        else some ai.m_CombatDistance) ∧
    ArcherAI.AttackStart h ai none = [] ∧
    (∀ dist : ℚ, (∀ r, h.IsWithinCombatRange r = decide (dist ≤ r)) → dist = ai.m_minRange →
      StanceCall.Attack w true ∈ ArcherAI.AttackStart h ai (some w) ∧
      StanceCall.Attack w false ∉ ArcherAI.AttackStart h ai (some w)) := by
  have hcalls := ArcherAI_AttackStart_calls h ai w
  have key : (StanceCall.Attack w true ∈ ArcherAI.AttackStart h ai (some w) ↔
      h.IsWithinCombatRange ai.m_minRange = true) ∧
    (StanceCall.Attack w false ∈ ArcherAI.AttackStart h ai (some w) ↔
      h.IsWithinCombatRange ai.m_minRange = false) := by
    rw [hcalls]
    cases h.IsWithinCombatRange ai.m_minRange <;> cases h.Attack true <;>
      cases h.Attack false <;> cases h.IsFlying <;> simp
  refine ⟨key.1, key.2, ?_, ?_, rfl, ?_⟩
  · rw [hcalls]
    cases h.IsWithinCombatRange ai.m_minRange <;> cases h.Attack true <;>
      cases h.Attack false <;> cases h.IsFlying <;> simp [StanceCall.isAttack]
  · intro who d
    rw [hcalls]
    cases h.IsWithinCombatRange ai.m_minRange <;> cases h.Attack true <;>
      cases h.Attack false <;> cases h.IsFlying <;> simp
  · intro dist hin hd
    have hw : h.IsWithinCombatRange ai.m_minRange = true := by
      rw [hin, hd]; simp
    exact ⟨key.1.mpr hw, fun hf => by rw [key.2.mp hf] at hw; cases hw⟩

/-- Witness for C12: an archer with min range 5 and a target at distance
exactly 5 engages in melee mode. -/
theorem ArcherAI_AttackStart_mode_witness :
    StanceCall.Attack 1 true ∈
      ArcherAI.AttackStart (stanceHostAt 5 true false) ⟨7, 5, 30, 30⟩ (some 1) :=
  ((ArcherAI_AttackStart_mode (stanceHostAt 5 true false) ⟨7, 5, 30, 30⟩ 1).2.2.2.2.2 5
    (fun _ => rfl) rfl).1

/-- C18: `ArcherAI::AttackStart` holds position against airborne targets. For
every non-null target that is flying, in melee and in ranged mode and whatever
the `Attack` call returns, no `MoveChase` is issued and `MoveIdle` is issued;
for a target that is not flying `MoveIdle` is not issued and a `MoveChase` is
issued exactly when the `Attack` call of the mode succeeded. -/
theorem ArcherAI_AttackStart_airborne (h : StanceHost) (ai : ArcherAI) (w : Nat) :
    (h.IsFlying = true →
      (ArcherAI.AttackStart h ai (some w)).filter StanceCall.isMoveChase = [] ∧
      (∀ who d, StanceCall.MoveChase who d ∉ ArcherAI.AttackStart h ai (some w)) ∧
      StanceCall.MoveIdle ∈ ArcherAI.AttackStart h ai (some w)) ∧
    (h.IsFlying = false →
      StanceCall.MoveIdle ∉ ArcherAI.AttackStart h ai (some w) ∧
      ((∃ who d, StanceCall.MoveChase who d ∈ ArcherAI.AttackStart h ai (some w)) ↔
        h.Attack (h.IsWithinCombatRange ai.m_minRange) = true) ∧
      ((ArcherAI.AttackStart h ai (some w)).filter StanceCall.isMoveChase).length =
        if h.Attack (h.IsWithinCombatRange ai.m_minRange) = true then 1 else 0) := by
  have hcalls := ArcherAI_AttackStart_calls h ai w
  refine ⟨?_, ?_⟩
  · intro hf
    rw [hcalls]
    cases h.IsWithinCombatRange ai.m_minRange <;> cases h.Attack true <;>
      cases h.Attack false <;> simp [hf, StanceCall.isMoveChase]
  · intro hf
    rw [hcalls]
    cases h.IsWithinCombatRange ai.m_minRange <;> cases h.Attack true <;>
      cases h.Attack false <;> simp [hf, StanceCall.isMoveChase]

/-- Witness for C18: a flying target out of the min range, with a successful
`Attack` call: the archer holds position. -/
theorem ArcherAI_AttackStart_airborne_witness :
    StanceCall.MoveIdle ∈
      ArcherAI.AttackStart (stanceHostAt 6 true true) ⟨7, 5, 30, 30⟩ (some 1) :=
  ((ArcherAI_AttackStart_airborne (stanceHostAt 6 true true) ⟨7, 5, 30, 30⟩ 1).1 rfl).2.2

/-- An archer whose victim is valid issues an attack action on every tick,
whatever its members are. -/
theorem ArcherAI_UpdateAI_attacks (h : StanceHost) (ai : ArcherAI)
    (hv : h.UpdateVictim = true) :
    ArcherAI.UpdateAI h ai =
      if h.IsWithinCombatRange ai.m_minRange = true then [StanceCall.DoMeleeAttackIfReady]
      else [StanceCall.DoSpellAttackIfReady ai.m_spells0] := by
  unfold ArcherAI.UpdateAI
  cases h.IsWithinCombatRange ai.m_minRange <;> simp [hv]

/-- C13, the code at the failing input: an archer constructed from a template
with no ability in slot 0 (melee range 5). Construction logs the error and
gives min range 5 and combat distance 0; a tick with the victim at distance 3
issues a melee attack, a tick with the victim at distance 10 issues a spell
attack with ability 0. -/
theorem ArcherAI_empty_slot_still_attacks :
    ArcherAI.ctor 5 0 (fun _ => none) = (⟨0, 5, 0, 0⟩, [StanceCall.TC_LOG_ERROR]) ∧
    ArcherAI.UpdateAI (stanceHostAt 3 true false) (ArcherAI.ctor 5 0 (fun _ => none)).1 =
      [StanceCall.DoMeleeAttackIfReady] ∧
    ArcherAI.UpdateAI (stanceHostAt 10 true false) (ArcherAI.ctor 5 0 (fun _ => none)).1 =
      [StanceCall.DoSpellAttackIfReady 0] ∧
    ((ArcherAI.UpdateAI (stanceHostAt 3 true false)
      (ArcherAI.ctor 5 0 (fun _ => none)).1).filter StanceCall.isAttackAction).length = 1 := by
  refine ⟨by decide, by decide, by decide, by decide⟩

/-- C14: `CasterAI::UpdateAI` under crowd control. For every state with a
valid victim that carries a damage-breakable crowd-control aura, whether or
not the creature is casting and whether or not an ability is ready, the tick
advances the scheduler by `diff` and does nothing to it besides (no ability is
taken out, nothing is rescheduled), and its only call is
`InterruptNonMeleeSpells(false)`: no cast, no melee attack. -/
theorem CasterAI_UpdateAI_crowd_control (h : CreatureHost) (ai : CasterAI) (diff : Nat)
    (v : VictimInfo) (hv : h.UpdateVictim = true) (hvictim : h.GetVictim = some v)
    (hcc : v.HasBreakableByDamageCrowdControlAura = true) :
    CasterAI.UpdateAI h ai diff =
      (⟨⟨ai.spells, ai.events.Update diff⟩, ai.m_attackDist⟩,
        [Call.InterruptNonMeleeSpells false]) ∧
    (CasterAI.UpdateAI h ai diff).2.filter Call.isDecision = [] ∧
    (∀ id d, Call.ScheduleEvent id d ∉ (CasterAI.UpdateAI h ai diff).2) ∧
    (CasterAI.UpdateAI h ai diff).1.events.length = ai.events.length := by
  have hrun : CasterAI.UpdateAI h ai diff =
      (⟨⟨ai.spells, ai.events.Update diff⟩, ai.m_attackDist⟩,
        [Call.InterruptNonMeleeSpells false]) := by
    simp [CasterAI.UpdateAI, hv, hvictim, hcc]
  refine ⟨hrun, ?_, ?_, ?_⟩
  · rw [hrun]; simp [Call.isDecision]
  · intro id d; rw [hrun]; simp
  · rw [hrun]; simp [EventMap.Update]

/-- Witness for C14: the example host, casting, with a crowd-controlled
victim and ability 7 ready after the tick: the ability stays in the scheduler
and the only call is the interrupt. -/
theorem CasterAI_UpdateAI_crowd_control_witness :
    CasterAI.UpdateAI { exampleHost with casting := true, GetVictim := some ⟨true⟩ }
        ⟨⟨[7], [⟨7, 5⟩]⟩, 30⟩ 5 =
      (⟨⟨[7], [⟨7, 0⟩]⟩, 30⟩, [Call.InterruptNonMeleeSpells false]) :=
  (CasterAI_UpdateAI_crowd_control
    { exampleHost with casting := true, GetVictim := some ⟨true⟩ }
    ⟨⟨[7], [⟨7, 5⟩]⟩, 30⟩ 5 ⟨true⟩ rfl rfl rfl).1

/-- C16: scheduler readiness. For every ability id and duration `d ≥ 1`, on an
otherwise empty scheduler, `Schedule(id, d)` followed by `Advance(d)` and
`TakeReady()` yields `id` (and leaves the scheduler empty), whereas
`Schedule(id, d)` followed by `Advance(d - 1)` and `TakeReady()` yields none
(and leaves the entry, with 1 remaining). For a non-zero id the `uint32`
result of `ExecuteEvent` is `id` in the first case and 0 in the second. -/
theorem EventMap_ready_after_duration (id d : Nat) (hd : 1 ≤ d) :
    EventMap.TakeReady (EventMap.Update (EventMap.ScheduleEvent [] id d) d) = (some id, []) ∧
    EventMap.TakeReady (EventMap.Update (EventMap.ScheduleEvent [] id d) (d - 1)) =
      (none, [⟨id, 1⟩]) ∧
    (id ≠ 0 →
      (EventMap.ExecuteEvent (EventMap.Update (EventMap.ScheduleEvent [] id d) d)).1 = id) ∧
    (EventMap.ExecuteEvent (EventMap.Update (EventMap.ScheduleEvent [] id d) (d - 1))).1 = 0 := by
  have h1 : d - (d - 1) = 1 := by omega
  refine ⟨?_, ?_, ?_, ?_⟩
  · simp [EventMap.ScheduleEvent, EventMap.Update, EventMap.TakeReady]
  · simp [EventMap.ScheduleEvent, EventMap.Update, EventMap.TakeReady, h1]
  · intro _
    simp [EventMap.ExecuteEvent, EventMap.ScheduleEvent, EventMap.Update, EventMap.TakeReady]
  · simp [EventMap.ExecuteEvent, EventMap.ScheduleEvent, EventMap.Update, EventMap.TakeReady, h1]

/-- Witness for C16: ability 7 scheduled for 2000 ms is ready after 2000 ms. -/
theorem EventMap_ready_after_duration_witness :
    EventMap.TakeReady (EventMap.Update (EventMap.ScheduleEvent [] 7 2000) 2000) =
      (some 7, []) :=
  (EventMap_ready_after_duration 7 2000 (by decide)).1

/-- C17: `AggressorAI::Permissible` returns `PERMIT_BASE_REACTIVE` when the
creature is neither civilian nor neutral to all and `PERMIT_BASE_NO` in every
other case; the two enumerators being different values, it returns
`PERMIT_BASE_REACTIVE` if and only if the creature is neither civilian nor
neutral to all. -/
theorem AggressorAI_Permissible_reactive (PERMIT_BASE_REACTIVE PERMIT_BASE_NO : Int)
    (isCivilian isNeutralToAll : Bool) (hne : PERMIT_BASE_REACTIVE ≠ PERMIT_BASE_NO) :
    (AggressorAI.Permissible PERMIT_BASE_REACTIVE PERMIT_BASE_NO isCivilian isNeutralToAll =
        PERMIT_BASE_REACTIVE ↔ isCivilian = false ∧ isNeutralToAll = false) ∧
    (¬ (isCivilian = false ∧ isNeutralToAll = false) →
      AggressorAI.Permissible PERMIT_BASE_REACTIVE PERMIT_BASE_NO isCivilian isNeutralToAll =
        PERMIT_BASE_NO) := by
  unfold AggressorAI.Permissible
  cases isCivilian <;> cases isNeutralToAll <;> simp [hne, Ne.symm hne]

/-- Witness for C17: with the values 100 and -1 for the two enumerators, a
creature that is neither civilian nor neutral to all gets 100. -/
theorem AggressorAI_Permissible_reactive_witness :
    AggressorAI.Permissible 100 (-1) false false = 100 :=
  ((AggressorAI_Permissible_reactive 100 (-1) false false (by decide)).1).mpr ⟨rfl, rfl⟩

/-- Without conditions and with no dismissal pending, handling an event
changes neither the conditions flag, nor the pending flag, nor the recheck
timer, and makes no call. -/
theorem VehicleAI_handle_inert (CHECK DISMISS : Nat) (ai : VehicleAI) (e : VehicleEvent)
    (hcond : ai.m_HasConditions = false) (hd : ai.m_DoDismiss = false) :
    (VehicleAI.handle CHECK DISMISS ai e).1.m_HasConditions = false ∧
    (VehicleAI.handle CHECK DISMISS ai e).1.m_DoDismiss = false ∧
    (VehicleAI.handle CHECK DISMISS ai e).1.m_ConditionsTimer = ai.m_ConditionsTimer ∧
    (VehicleAI.handle CHECK DISMISS ai e).2 = [] := by
  cases e with
  | UpdateAI h diff =>
    simp [VehicleAI.handle, VehicleAI.UpdateAI, VehicleAI.CheckConditions, hcond, hd]
  | OnCharmed charmed inUse =>
    cases charmed <;> cases inUse <;> simp [VehicleAI.handle, VehicleAI.OnCharmed, hcond, hd]

/-- C19: a `VehicleAI` whose template declares no eligibility conditions is
inert. Over every sequence of `UpdateAI` ticks and `OnCharmed` events from the
constructed state, after every event the dismissal is not pending and the
recheck timer has its initial value `VEHICLE_CONDITION_CHECK_TIME`, and no
event makes any call: the creature is never despawned and no passenger is
ever evicted. -/
theorem VehicleAI_no_conditions_inert (CHECK DISMISS : Nat) (events : List VehicleEvent) :
    ∀ x ∈ VehicleAI.trace CHECK DISMISS (VehicleAI.ctor CHECK DISMISS false) events,
      x.1.m_HasConditions = false ∧ x.1.m_DoDismiss = false ∧
      x.1.m_ConditionsTimer = CHECK ∧ x.2 = [] ∧
      Call.DespawnOrUnsummon ∉ x.2 ∧ (∀ guid, Call.ExitVehicle guid ∉ x.2) := by
  have gen : ∀ (evs : List VehicleEvent) (ai : VehicleAI),
      ai.m_HasConditions = false → ai.m_DoDismiss = false →
      ∀ x ∈ VehicleAI.trace CHECK DISMISS ai evs,
        x.1.m_HasConditions = false ∧ x.1.m_DoDismiss = false ∧
        x.1.m_ConditionsTimer = ai.m_ConditionsTimer ∧ x.2 = [] := by
    intro evs
    induction evs with
    | nil => intro ai _ _ x hx; simp [VehicleAI.trace] at hx
    | cons e rest ih =>
      intro ai hcond hd x hx
      obtain ⟨s1, s2, s3, s4⟩ := VehicleAI_handle_inert CHECK DISMISS ai e hcond hd
      simp only [VehicleAI.trace, List.mem_cons] at hx
      rcases hx with heq | hin
      · subst heq
        exact ⟨s1, s2, s3, s4⟩
      · obtain ⟨i1, i2, i3, i4⟩ := ih _ s1 s2 x hin
        exact ⟨i1, i2, by rw [i3, s3], i4⟩
  intro x hx
  obtain ⟨g1, g2, g3, g4⟩ := gen events (VehicleAI.ctor CHECK DISMISS false) rfl rfl x hx
  refine ⟨g1, g2, g3, g4, ?_, ?_⟩
  · rw [g4]; simp
  · intro guid; rw [g4]; simp

/-- Witness for C19: a vehicle without conditions (periods 1000 and 5000 ms),
un-charmed while not in use and then ticked for 6000 ms with a non-compliant
passenger seated: no call is made by the tick. -/
theorem VehicleAI_no_conditions_inert_witness :
    (VehicleAI.handle 1000 5000
      (VehicleAI.handle 1000 5000 (VehicleAI.ctor 1000 5000 false)
        (VehicleEvent.OnCharmed false false)).1
      (VehicleEvent.UpdateAI exampleVehicle 6000)).2 = [] :=
  (VehicleAI_no_conditions_inert 1000 5000
    [VehicleEvent.OnCharmed false false, VehicleEvent.UpdateAI exampleVehicle 6000]
    _ (List.mem_cons_of_mem _ (List.mem_cons_self _ _))).2.2.2.1

/-- The `uint32` difference is the exact difference when it does not wrap. -/
theorem uint32_sub_exact (a b : Nat) (hba : b ≤ a) (ha : a < UINT32_SIZE) :
    uint32_sub a b = a - b ∧ uint32_sub a b + b = a := by
  have hb : b % UINT32_SIZE = b := Nat.mod_eq_of_lt (by omega)
  have h1 : a + (UINT32_SIZE - b) = (a - b) + UINT32_SIZE := by omega
  have h2 : uint32_sub a b = a - b := by
    unfold uint32_sub
    rw [hb, h1, Nat.add_mod_right]
    exact Nat.mod_eq_of_lt (by omega)
  exact ⟨h2, by rw [h2]; omega⟩

/-- The two timers after a tick of `VehicleAI::UpdateAI`. The recheck timer
is reduced by `diff` exactly when conditions are configured and `diff` is below
it, and is otherwise kept or reset to the period; the dismiss timer is reduced
by `diff` exactly when the dismissal is pending and `diff` is at most the
timer, and is otherwise kept. -/
theorem VehicleAI_UpdateAI_timers (CHECK : Nat) (h : VehicleHost) (ai : VehicleAI)
    (diff : Nat) :
    (ai.m_HasConditions = true → diff < ai.m_ConditionsTimer →
      (VehicleAI.UpdateAI CHECK h ai diff).1.m_ConditionsTimer = ai.m_ConditionsTimer - diff) ∧
    (¬ (ai.m_HasConditions = true ∧ diff < ai.m_ConditionsTimer) →
      (VehicleAI.UpdateAI CHECK h ai diff).1.m_ConditionsTimer = ai.m_ConditionsTimer ∨
      (VehicleAI.UpdateAI CHECK h ai diff).1.m_ConditionsTimer = CHECK) ∧
    (ai.m_DoDismiss = true → diff ≤ ai.m_DismissTimer →
      (VehicleAI.UpdateAI CHECK h ai diff).1.m_DismissTimer = ai.m_DismissTimer - diff) ∧
    (¬ (ai.m_DoDismiss = true ∧ diff ≤ ai.m_DismissTimer) →
      (VehicleAI.UpdateAI CHECK h ai diff).1.m_DismissTimer = ai.m_DismissTimer) := by
  obtain ⟨f1, f2, _, _⟩ := VehicleAI_CheckConditions_frame CHECK h ai diff
  have hsame : (VehicleAI.UpdateAI CHECK h ai diff).1.m_ConditionsTimer =
      (VehicleAI.CheckConditions CHECK h ai diff).1.m_ConditionsTimer := by
    unfold VehicleAI.UpdateAI
    simp only
    split
    · split <;> rfl
    · rfl
  have hcheck1 : ai.m_HasConditions = true → diff < ai.m_ConditionsTimer →
      (VehicleAI.CheckConditions CHECK h ai diff).1.m_ConditionsTimer =
        ai.m_ConditionsTimer - diff := by
    intro hc hlt
    have hnle : ¬ ai.m_ConditionsTimer ≤ diff := by omega
    simp [VehicleAI.CheckConditions, hc, hnle]
  have hcheck2 : ¬ (ai.m_HasConditions = true ∧ diff < ai.m_ConditionsTimer) →
      (VehicleAI.CheckConditions CHECK h ai diff).1.m_ConditionsTimer = ai.m_ConditionsTimer ∨
      (VehicleAI.CheckConditions CHECK h ai diff).1.m_ConditionsTimer = CHECK := by
    intro hnot
    unfold VehicleAI.CheckConditions
    cases hc : ai.m_HasConditions with
    | false => simp
    | true =>
      have hle : ai.m_ConditionsTimer ≤ diff := by
        by_contra hx
        exact hnot ⟨hc, by omega⟩
      cases hk : h.GetVehicleKit with
      | none => simp [hle]
      | some seats =>
        cases hl : VehicleAI.seatLoop h seats with
        | none => simp [hle, hl]
        | some guid => simp [hle, hl]
  refine ⟨?_, ?_, ?_, ?_⟩
  · intro hc hlt; rw [hsame]; exact hcheck1 hc hlt
  · intro hnot; rw [hsame]; exact hcheck2 hnot
  · intro hd hle
    exact ((VehicleAI_UpdateAI_dismiss CHECK h ai diff).2.2.1 hd hle).2.1
  · intro hnot
    cases hd : ai.m_DoDismiss with
    | false => exact ((VehicleAI_UpdateAI_dismiss CHECK h ai diff).1 hd).2.1
    | true =>
      have hlt : ai.m_DismissTimer < diff := by
        by_contra hx
        exact hnot ⟨hd, by omega⟩
      unfold VehicleAI.UpdateAI
      simp [f1, f2, hd, hlt]

/-- Handling an event keeps the timers within their bounds. -/
theorem VehicleAI_handle_timersInBounds (CHECK DISMISS : Nat) (hpos : 0 < CHECK)
    (ai : VehicleAI) (e : VehicleEvent) (hinv : VehicleAI.timersInBounds CHECK DISMISS ai) :
    VehicleAI.timersInBounds CHECK DISMISS (VehicleAI.handle CHECK DISMISS ai e).1 := by
  obtain ⟨i1, i2, _, i4⟩ := hinv
  cases e with
  | UpdateAI h diff =>
    obtain ⟨t1, t2, t3, t4⟩ := VehicleAI_UpdateAI_timers CHECK h ai diff
    simp only [VehicleAI.handle]
    unfold VehicleAI.timersInBounds
    have hc : 0 < (VehicleAI.UpdateAI CHECK h ai diff).1.m_ConditionsTimer ∧
        (VehicleAI.UpdateAI CHECK h ai diff).1.m_ConditionsTimer ≤ CHECK := by
      by_cases hsub : ai.m_HasConditions = true ∧ diff < ai.m_ConditionsTimer
      · rw [t1 hsub.1 hsub.2]
        have := hsub.2
        omega
      · rcases t2 hsub with heq | heq <;> rw [heq] <;> omega
    have hd : (VehicleAI.UpdateAI CHECK h ai diff).1.m_DismissTimer ≤ DISMISS := by
      by_cases hsub : ai.m_DoDismiss = true ∧ diff ≤ ai.m_DismissTimer
      · rw [t3 hsub.1 hsub.2]; omega
      · rw [t4 hsub]; exact i4
    exact ⟨hc.1, hc.2, Nat.zero_le _, hd⟩
  | OnCharmed charmed inUse =>
    simp only [VehicleAI.handle, VehicleAI.OnCharmed, VehicleAI.timersInBounds]
    exact ⟨i1, i2, Nat.zero_le _, Nat.le_refl _⟩

/-- C20: `VehicleAI` timer bounds, with a positive recheck period and period
constants that are `uint32` values. From the constructed state, over every
sequence of `UpdateAI` ticks and `OnCharmed` events, after every event
`0 < m_ConditionsTimer ≤ VEHICLE_CONDITION_CHECK_TIME` and
`0 ≤ m_DismissTimer ≤ VEHICLE_DISMISS_TIME`. In a state within these bounds a
tick with any `uint32` `diff` subtracts `diff` from the recheck timer only when
`diff` is below it and from the dismiss timer only when `diff` is at most it,
so the `uint32` difference is the exact difference (it does not wrap); in the
other cases the timers are kept or reset. -/
theorem VehicleAI_timers_in_bounds (CHECK DISMISS : Nat) (hpos : 0 < CHECK)
    (hc32 : CHECK < UINT32_SIZE) (hd32 : DISMISS < UINT32_SIZE) (hasConditions : Bool)
    (events : List VehicleEvent) :
    VehicleAI.timersInBounds CHECK DISMISS (VehicleAI.ctor CHECK DISMISS hasConditions) ∧
    (∀ x ∈ VehicleAI.trace CHECK DISMISS (VehicleAI.ctor CHECK DISMISS hasConditions) events,
      VehicleAI.timersInBounds CHECK DISMISS x.1) ∧
    (∀ (ai : VehicleAI) (h : VehicleHost) (diff : Nat),
      VehicleAI.timersInBounds CHECK DISMISS ai → diff < UINT32_SIZE →
      (ai.m_HasConditions = true → diff < ai.m_ConditionsTimer →
        (VehicleAI.UpdateAI CHECK h ai diff).1.m_ConditionsTimer =
          uint32_sub ai.m_ConditionsTimer diff ∧
        (VehicleAI.UpdateAI CHECK h ai diff).1.m_ConditionsTimer + diff =
          ai.m_ConditionsTimer) ∧
      (¬ (ai.m_HasConditions = true ∧ diff < ai.m_ConditionsTimer) →
        (VehicleAI.UpdateAI CHECK h ai diff).1.m_ConditionsTimer = ai.m_ConditionsTimer ∨
        (VehicleAI.UpdateAI CHECK h ai diff).1.m_ConditionsTimer = CHECK) ∧
      (ai.m_DoDismiss = true → diff ≤ ai.m_DismissTimer →
        (VehicleAI.UpdateAI CHECK h ai diff).1.m_DismissTimer =
          uint32_sub ai.m_DismissTimer diff ∧
        (VehicleAI.UpdateAI CHECK h ai diff).1.m_DismissTimer + diff = ai.m_DismissTimer) ∧
      (¬ (ai.m_DoDismiss = true ∧ diff ≤ ai.m_DismissTimer) →
        (VehicleAI.UpdateAI CHECK h ai diff).1.m_DismissTimer = ai.m_DismissTimer)) := by
  have hinit : VehicleAI.timersInBounds CHECK DISMISS
      (VehicleAI.ctor CHECK DISMISS hasConditions) :=
    ⟨hpos, Nat.le_refl _, Nat.zero_le _, Nat.le_refl _⟩
  have gen : ∀ (evs : List VehicleEvent) (ai : VehicleAI),
      VehicleAI.timersInBounds CHECK DISMISS ai →
      ∀ x ∈ VehicleAI.trace CHECK DISMISS ai evs, VehicleAI.timersInBounds CHECK DISMISS x.1 := by
    intro evs
    induction evs with
    | nil => intro ai _ x hx; simp [VehicleAI.trace] at hx
    | cons e rest ih =>
      intro ai hinv x hx
      have hstep := VehicleAI_handle_timersInBounds CHECK DISMISS hpos ai e hinv
      simp only [VehicleAI.trace, List.mem_cons] at hx
      rcases hx with heq | hin
      · subst heq; exact hstep
      · exact ih _ hstep x hin
  refine ⟨hinit, gen events _ hinit, ?_⟩
  intro ai h diff hinv _
  obtain ⟨_, i2, _, i4⟩ := hinv
  obtain ⟨t1, t2, t3, t4⟩ := VehicleAI_UpdateAI_timers CHECK h ai diff
  refine ⟨?_, t2, ?_, t4⟩
  · intro hc hlt
    obtain ⟨u1, u2⟩ := uint32_sub_exact ai.m_ConditionsTimer diff (Nat.le_of_lt hlt) (by omega)
    rw [t1 hc hlt, u1]
    exact ⟨rfl, by omega⟩
  · intro hd hle
    obtain ⟨u1, u2⟩ := uint32_sub_exact ai.m_DismissTimer diff hle (by omega)
    rw [t3 hd hle, u1]
    exact ⟨rfl, by omega⟩

/-- Witness for C20: with periods 1000 and 5000 ms, a vehicle with conditions
that is ticked for 400 ms, un-charmed while not in use and ticked for 700 ms
has its timers within bounds after the last event. -/
theorem VehicleAI_timers_in_bounds_witness :
    VehicleAI.timersInBounds 1000 5000
      (VehicleAI.handle 1000 5000
        (VehicleAI.handle 1000 5000
          (VehicleAI.handle 1000 5000 (VehicleAI.ctor 1000 5000 true)
            (VehicleEvent.UpdateAI exampleVehicle 400)).1
          (VehicleEvent.OnCharmed false false)).1
        (VehicleEvent.UpdateAI exampleVehicle 700)).1 :=
  (VehicleAI_timers_in_bounds 1000 5000 (by decide) (by decide) (by decide) true
    [VehicleEvent.UpdateAI exampleVehicle 400, VehicleEvent.OnCharmed false false,
      VehicleEvent.UpdateAI exampleVehicle 700]).2.1 _
    (List.mem_cons_of_mem _ (List.mem_cons_of_mem _ (List.mem_cons_self _ _)))

/-- One step of the loop of `CasterAI::JustEngagedWith` on a cooldown-loop
ability, whether or not it sits at the drawn index: it is scheduled with
`engageDuration`, after a `DoCast` at the drawn index. -/
theorem CasterAI_engageLoop_combat (h : CreatureHost) (who : Nat) (spells : List Nat)
    (spell i : Nat) (rest : List Nat) (count : Nat) (ev : EventMap) (info : AISpellInfoType)
    (hi : h.GetAISpellInfo i = some info) (hc : info.condition = AICondition.AICOND_COMBAT) :
    CasterAI.engageLoop h who spells spell (i :: rest) count ev =
      ((CasterAI.engageLoop h who spells spell rest (count + 1)
          (ev.ScheduleEvent i (CasterAI.engageDuration h spell count i info))).1,
        (if count = spell then [Call.DoCast (spells.getD spell 0)] else []) ++
          Call.ScheduleEvent i (CasterAI.engageDuration h spell count i info) ::
          (CasterAI.engageLoop h who spells spell rest (count + 1)
            (ev.ScheduleEvent i (CasterAI.engageDuration h spell count i info))).2) := by
  by_cases heq : count = spell
  · subst heq
    rw [CasterAI_engageLoop_chosen h who spells i rest count ev info hi hc]
    simp [CasterAI.engageDuration]
  · rw [CasterAI_engageLoop_other h who spells spell i rest count ev info hi hc heq]
    simp [CasterAI.engageDuration, heq]

/-- Every `ScheduleEvent` of the loop of `CasterAI::JustEngagedWith` is for a
cooldown-loop ability of the list, with the duration of its index. -/
theorem CasterAI_engageLoop_schedule_sound (h : CreatureHost) (who : Nat) (spells : List Nat)
    (spell : Nat) :
    ∀ (rest : List Nat) (count : Nat) (ev : EventMap) (i d : Nat),
      Call.ScheduleEvent i d ∈ (CasterAI.engageLoop h who spells spell rest count ev).2 →
      ∃ k info, rest[k]? = some i ∧ h.GetAISpellInfo i = some info ∧
        info.condition = AICondition.AICOND_COMBAT ∧
        d = CasterAI.engageDuration h spell (count + k) i info := by
  intro rest
  induction rest with
  | nil => intro count ev i d hmem; simp [CasterAI.engageLoop] at hmem
  | cons i0 rest ih =>
    intro count ev i d hmem
    have lift : ∀ ev1, Call.ScheduleEvent i d ∈
          (CasterAI.engageLoop h who spells spell rest (count + 1) ev1).2 →
        ∃ k info, (i0 :: rest)[k]? = some i ∧ h.GetAISpellInfo i = some info ∧
          info.condition = AICondition.AICOND_COMBAT ∧
          d = CasterAI.engageDuration h spell (count + k) i info := by
      intro ev1 hm
      obtain ⟨k, info, hk, hinfo, hc, hd⟩ := ih (count + 1) ev1 i d hm
      have hidx : count + (k + 1) = count + 1 + k := by omega
      exact ⟨k + 1, info, by simpa using hk, hinfo, hc, by rw [hidx]; exact hd⟩
    rcases GetAISpellInfo_cases h i0 with hi | ⟨info, hi, hc⟩ | ⟨info, hi, hc⟩ | ⟨info, hi, hc⟩
    · rw [CasterAI_engageLoop_skip h who spells spell i0 rest count ev (Or.inl hi)] at hmem
      exact lift _ hmem
    · rw [CasterAI_engageLoop_aggro h who spells spell i0 rest count ev info hi hc] at hmem
      rcases List.mem_cons.mp hmem with heq | hin
      · cases heq
      · exact lift _ hin
    · rw [CasterAI_engageLoop_combat h who spells spell i0 rest count ev info hi hc] at hmem
      rcases List.mem_append.mp hmem with hp | hr
      · split at hp
        · simp at hp
        · simp at hp
      · rcases List.mem_cons.mp hr with heq | hin
        · injection heq with h1 h2
          subst h1
          exact ⟨0, info, by simp, hi, hc, by simpa using h2⟩
        · exact lift _ hin
    · rw [CasterAI_engageLoop_skip h who spells spell i0 rest count ev
        (Or.inr ⟨info, hi, hc⟩)] at hmem
      exact lift _ hmem

/-- Every cooldown-loop ability of the list gets a `ScheduleEvent` with the
duration of its index, and the one at the drawn index is cast with `DoCast`. -/
theorem CasterAI_engageLoop_schedule_complete (h : CreatureHost) (who : Nat)
    (spells : List Nat) (spell : Nat) :
    ∀ (rest : List Nat) (count : Nat) (ev : EventMap) (k i : Nat) (info : AISpellInfoType),
      rest[k]? = some i → h.GetAISpellInfo i = some info →
      info.condition = AICondition.AICOND_COMBAT →
      Call.ScheduleEvent i (CasterAI.engageDuration h spell (count + k) i info) ∈
        (CasterAI.engageLoop h who spells spell rest count ev).2 ∧
      (count + k = spell → Call.DoCast (spells.getD spell 0) ∈
        (CasterAI.engageLoop h who spells spell rest count ev).2) := by
  intro rest
  induction rest with
  | nil => intro count ev k i info hk; simp at hk
  | cons i0 rest ih =>
    intro count ev k i info hk hinfo hc
    cases k with
    | zero =>
      simp only [List.getElem?_cons_zero, Option.some.injEq] at hk
      subst hk
      rw [CasterAI_engageLoop_combat h who spells spell i0 rest count ev info hinfo hc]
      simp only [Nat.add_zero]
      refine ⟨?_, ?_⟩
      · exact List.mem_append_right _ (List.mem_cons_self _ _)
      · intro heq
        simp [heq]
    | succ k =>
      simp only [List.getElem?_cons_succ] at hk
      have hidx : count + (k + 1) = count + 1 + k := by omega
      rw [hidx]
      have lift : ∀ (ev1 : EventMap) (pre : List Call) (res : EventMap × List Call),
          res = ((CasterAI.engageLoop h who spells spell rest (count + 1) ev1).1,
            pre ++ (CasterAI.engageLoop h who spells spell rest (count + 1) ev1).2) →
          Call.ScheduleEvent i (CasterAI.engageDuration h spell (count + 1 + k) i info) ∈ res.2 ∧
          (count + 1 + k = spell → Call.DoCast (spells.getD spell 0) ∈ res.2) := by
        intro ev1 pre res hres
        obtain ⟨a, b⟩ := ih (count + 1) ev1 k i info hk hinfo hc
        subst hres
        exact ⟨List.mem_append_right _ a, fun hx => List.mem_append_right _ (b hx)⟩
      rcases GetAISpellInfo_cases h i0 with hi | ⟨info0, hi, hc0⟩ | ⟨info0, hi, hc0⟩ |
        ⟨info0, hi, hc0⟩
      · rw [CasterAI_engageLoop_skip h who spells spell i0 rest count ev (Or.inl hi)]
        exact lift ev [] _ (by simp)
      · rw [CasterAI_engageLoop_aggro h who spells spell i0 rest count ev info0 hi hc0]
        exact lift ev [Call.CastSpell who i0 false] _ (by simp)
      · rw [CasterAI_engageLoop_combat h who spells spell i0 rest count ev info0 hi hc0]
        exact lift (ev.ScheduleEvent i0 (CasterAI.engageDuration h spell count i0 info0))
          ((if count = spell then [Call.DoCast (spells.getD spell 0)] else []) ++
          [Call.ScheduleEvent i0 (CasterAI.engageDuration h spell count i0 info0)]) _ (by simp)
      · rw [CasterAI_engageLoop_skip h who spells spell i0 rest count ev
          (Or.inr ⟨info0, hi, hc0⟩)]
        exact lift ev [] _ (by simp)

/-- The `CastSpell` calls of the loop of `CasterAI::JustEngagedWith`: one at
the new target, not triggered, for every on-aggro ability of the list, and no
other. -/
theorem CasterAI_engageLoop_aggro_casts (h : CreatureHost) (who : Nat) (spells : List Nat)
    (spell : Nat) :
    ∀ (rest : List Nat) (count : Nat) (ev : EventMap),
      (∀ i ∈ rest, ∀ info, h.GetAISpellInfo i = some info →
        info.condition = AICondition.AICOND_AGGRO →
        Call.CastSpell who i false ∈ (CasterAI.engageLoop h who spells spell rest count ev).2) ∧
      (∀ t i b, Call.CastSpell t i b ∈ (CasterAI.engageLoop h who spells spell rest count ev).2 →
        t = who ∧ b = false ∧ i ∈ rest ∧ ∃ info, h.GetAISpellInfo i = some info ∧
          info.condition = AICondition.AICOND_AGGRO) := by
  intro rest
  induction rest with
  | nil => intro count ev; simp [CasterAI.engageLoop]
  | cons i0 rest ih =>
    intro count ev
    have step : ∀ (ev1 : EventMap) (pre : List Call),
        ((∃ info, h.GetAISpellInfo i0 = some info ∧
            info.condition = AICondition.AICOND_AGGRO) → Call.CastSpell who i0 false ∈ pre) →
        (∀ t i b, Call.CastSpell t i b ∈ pre → t = who ∧ b = false ∧ i = i0 ∧
          ∃ info, h.GetAISpellInfo i = some info ∧
            info.condition = AICondition.AICOND_AGGRO) →
        (∀ i ∈ i0 :: rest, ∀ info, h.GetAISpellInfo i = some info →
          info.condition = AICondition.AICOND_AGGRO →
          Call.CastSpell who i false ∈
            pre ++ (CasterAI.engageLoop h who spells spell rest (count + 1) ev1).2) ∧
        (∀ t i b, Call.CastSpell t i b ∈
            pre ++ (CasterAI.engageLoop h who spells spell rest (count + 1) ev1).2 →
          t = who ∧ b = false ∧ i ∈ i0 :: rest ∧ ∃ info, h.GetAISpellInfo i = some info ∧
            info.condition = AICondition.AICOND_AGGRO) := by
      intro ev1 pre hhead hpre
      obtain ⟨ih1, ih2⟩ := ih (count + 1) ev1
      refine ⟨?_, ?_⟩
      · intro i hmem info hinfo hc
        rcases List.mem_cons.mp hmem with heq | hin
        · subst heq
          exact List.mem_append_left _ (hhead ⟨info, hinfo, hc⟩)
        · exact List.mem_append_right _ (ih1 i hin info hinfo hc)
      · intro t i b hmem
        rcases List.mem_append.mp hmem with hp | hr
        · obtain ⟨a, b1, c, d⟩ := hpre t i b hp
          exact ⟨a, b1, by rw [c]; exact List.mem_cons_self _ _, d⟩
        · obtain ⟨a, b1, c, d⟩ := ih2 t i b hr
          exact ⟨a, b1, List.mem_cons_of_mem _ c, d⟩
    rcases GetAISpellInfo_cases h i0 with hi | ⟨info, hi, hc⟩ | ⟨info, hi, hc⟩ | ⟨info, hi, hc⟩
    · rw [CasterAI_engageLoop_skip h who spells spell i0 rest count ev (Or.inl hi)]
      have := step ev []
        (fun ⟨info, hinfo, _⟩ => by rw [hi] at hinfo; cases hinfo) (by simp)
      simpa using this
    · rw [CasterAI_engageLoop_aggro h who spells spell i0 rest count ev info hi hc]
      have := step ev [Call.CastSpell who i0 false] (fun _ => List.mem_cons_self _ _)
        (by
          intro t i b hmem
          simp only [List.mem_singleton] at hmem
          injection hmem with h1 h2 h3
          exact ⟨h1, h3, h2, info, by rw [h2]; exact hi, hc⟩)
      simpa using this
    · rw [CasterAI_engageLoop_combat h who spells spell i0 rest count ev info hi hc]
      have := step (ev.ScheduleEvent i0 (CasterAI.engageDuration h spell count i0 info))
        ((if count = spell then [Call.DoCast (spells.getD spell 0)] else []) ++
          [Call.ScheduleEvent i0 (CasterAI.engageDuration h spell count i0 info)])
        (fun ⟨info1, hinfo1, hc1⟩ => by
          rw [hi] at hinfo1; cases hinfo1; rw [hc] at hc1; cases hc1)
        (by
          intro t i b hmem
          split at hmem <;> simp at hmem)
      simpa using this
    · rw [CasterAI_engageLoop_skip h who spells spell i0 rest count ev (Or.inr ⟨info, hi, hc⟩)]
      have := step ev []
        (fun ⟨info1, hinfo1, hc1⟩ => by
          rw [hi] at hinfo1; cases hinfo1; rw [hc] at hc1; cases hc1) (by simp)
      simpa using this

/-- Where the entries of the scheduler come from after the loop of
`CasterAI::JustEngagedWith`: an old entry whose id the loop did not schedule,
or the entry of a cooldown-loop ability of the list with the duration of one
of its indices. -/
theorem CasterAI_engageLoop_origin (h : CreatureHost) (who : Nat) (spells : List Nat)
    (spell : Nat) :
    ∀ (rest : List Nat) (count : Nat) (ev : EventMap),
      ∀ e ∈ (CasterAI.engageLoop h who spells spell rest count ev).1,
        (e ∈ ev ∧ ¬ (e.abilityId ∈ rest ∧ h.isCooldownLoop e.abilityId = true)) ∨
        (∃ k info, rest[k]? = some e.abilityId ∧ h.GetAISpellInfo e.abilityId = some info ∧
          info.condition = AICondition.AICOND_COMBAT ∧
          e.remaining = CasterAI.engageDuration h spell (count + k) e.abilityId info) := by
  intro rest
  induction rest with
  | nil =>
    intro count ev e he
    simp only [CasterAI.engageLoop] at he
    exact Or.inl ⟨he, by simp⟩
  | cons i0 rest ih =>
    intro count ev e he
    have shift : (∃ k info, rest[k]? = some e.abilityId ∧
          h.GetAISpellInfo e.abilityId = some info ∧
          info.condition = AICondition.AICOND_COMBAT ∧
          e.remaining = CasterAI.engageDuration h spell (count + 1 + k) e.abilityId info) →
        ∃ k info, (i0 :: rest)[k]? = some e.abilityId ∧
          h.GetAISpellInfo e.abilityId = some info ∧
          info.condition = AICondition.AICOND_COMBAT ∧
          e.remaining = CasterAI.engageDuration h spell (count + k) e.abilityId info := by
      rintro ⟨k, info, hk, hinfo, hc, hd⟩
      have hidx : count + (k + 1) = count + 1 + k := by omega
      exact ⟨k + 1, info, by simpa using hk, hinfo, hc, by rw [hidx]; exact hd⟩
    have keep : ∀ (ev1 : EventMap),
        e ∈ (CasterAI.engageLoop h who spells spell rest (count + 1) ev1).1 →
        (ev1 = ev) → h.isCooldownLoop i0 = false →
        (e ∈ ev ∧ ¬ (e.abilityId ∈ i0 :: rest ∧ h.isCooldownLoop e.abilityId = true)) ∨
        (∃ k info, (i0 :: rest)[k]? = some e.abilityId ∧
          h.GetAISpellInfo e.abilityId = some info ∧
          info.condition = AICondition.AICOND_COMBAT ∧
          e.remaining = CasterAI.engageDuration h spell (count + k) e.abilityId info) := by
      intro ev1 he1 hev hnot
      subst hev
      rcases ih (count + 1) ev1 e he1 with ⟨h1, h2⟩ | h3
      · refine Or.inl ⟨h1, ?_⟩
        rintro ⟨hm, hel⟩
        rcases List.mem_cons.mp hm with heq | hin
        · rw [heq, hnot] at hel; cases hel
        · exact h2 ⟨hin, hel⟩
      · exact Or.inr (shift h3)
    rcases GetAISpellInfo_cases h i0 with hi | ⟨info, hi, hc⟩ | ⟨info, hi, hc⟩ | ⟨info, hi, hc⟩
    · rw [CasterAI_engageLoop_skip h who spells spell i0 rest count ev (Or.inl hi)] at he
      exact keep ev he rfl (by simp [CreatureHost.isCooldownLoop, hi])
    · rw [CasterAI_engageLoop_aggro h who spells spell i0 rest count ev info hi hc] at he
      exact keep ev he rfl (by simp [CreatureHost.isCooldownLoop, hi, hc])
    · rw [CasterAI_engageLoop_combat h who spells spell i0 rest count ev info hi hc] at he
      rcases ih (count + 1) _ e he with ⟨h1, h2⟩ | h3
      · rcases (EventMap_mem_ScheduleEvent _ _ _ _).mp h1 with ⟨hin, hne⟩ | heq
        · refine Or.inl ⟨hin, ?_⟩
          rintro ⟨hm, hel⟩
          rcases List.mem_cons.mp hm with heq | hin2
          · exact hne heq
          · exact h2 ⟨hin2, hel⟩
        · subst heq
          exact Or.inr ⟨0, info, by simp, hi, hc, by simp⟩
      · exact Or.inr (shift h3)
    · rw [CasterAI_engageLoop_skip h who spells spell i0 rest count ev
        (Or.inr ⟨info, hi, hc⟩)] at he
      exact keep ev he rfl (by simp [CreatureHost.isCooldownLoop, hi, hc])

/-- C15: the durations `CasterAI::JustEngagedWith` schedules, the index
`rand32() % spells.size()` being the one drawn. An owned ability that resolves
with the cooldown-loop trigger is scheduled with exactly its `realCooldown`,
except at the drawn index, where it is cast with `DoCast` and scheduled with
`realCooldown` plus its current cast time (a `uint32` sum, the plain sum when
it is below 2^32); these are the only `ScheduleEvent` calls, and every entry of
such an ability in the scheduler afterwards carries one of these durations.
On-aggro abilities are cast at the target with `CastSpell`, not triggered, and
not scheduled. With an empty owned list nothing is cast or scheduled. -/
theorem CasterAI_JustEngagedWith_durations (h : CreatureHost) (ai : CasterAI) (who : Nat) :
    (ai.spells = [] → CasterAI.JustEngagedWith h ai who = (ai, [])) ∧
    (∀ k i info, ai.spells[k]? = some i → h.GetAISpellInfo i = some info →
      info.condition = AICondition.AICOND_COMBAT →
      (k ≠ h.rand32 0 % ai.spells.length →
        Call.ScheduleEvent i info.realCooldown ∈ (CasterAI.JustEngagedWith h ai who).2) ∧
      (k = h.rand32 0 % ai.spells.length →
        Call.DoCast i ∈ (CasterAI.JustEngagedWith h ai who).2 ∧
        Call.ScheduleEvent i
          ((info.realCooldown + h.GetCurrentSpellCastTime i) % UINT32_SIZE) ∈
            (CasterAI.JustEngagedWith h ai who).2 ∧
        (info.realCooldown + h.GetCurrentSpellCastTime i < UINT32_SIZE →
          (info.realCooldown + h.GetCurrentSpellCastTime i) % UINT32_SIZE =
            info.realCooldown + h.GetCurrentSpellCastTime i))) ∧
    (∀ i d, Call.ScheduleEvent i d ∈ (CasterAI.JustEngagedWith h ai who).2 →
      ∃ k info, ai.spells[k]? = some i ∧ h.GetAISpellInfo i = some info ∧
        info.condition = AICondition.AICOND_COMBAT ∧
        d = if k = h.rand32 0 % ai.spells.length
          then (info.realCooldown + h.GetCurrentSpellCastTime i) % UINT32_SIZE
          else info.realCooldown) ∧
    (∀ e ∈ (CasterAI.JustEngagedWith h ai who).1.events,
      e.abilityId ∈ ai.spells → h.isCooldownLoop e.abilityId = true →
      ∃ k info, ai.spells[k]? = some e.abilityId ∧
        h.GetAISpellInfo e.abilityId = some info ∧
        e.remaining = if k = h.rand32 0 % ai.spells.length
          then (info.realCooldown + h.GetCurrentSpellCastTime e.abilityId) % UINT32_SIZE
          else info.realCooldown) ∧
    (∀ i ∈ ai.spells, h.isCooldownLoop i = true →
      ∃ e ∈ (CasterAI.JustEngagedWith h ai who).1.events, e.abilityId = i) ∧
    (∀ i ∈ ai.spells, ∀ info, h.GetAISpellInfo i = some info →
      info.condition = AICondition.AICOND_AGGRO →
      Call.CastSpell who i false ∈ (CasterAI.JustEngagedWith h ai who).2 ∧
      ∀ d, Call.ScheduleEvent i d ∉ (CasterAI.JustEngagedWith h ai who).2) ∧
    (∀ t i b, Call.CastSpell t i b ∈ (CasterAI.JustEngagedWith h ai who).2 →
      t = who ∧ b = false ∧ ∃ info, h.GetAISpellInfo i = some info ∧
        info.condition = AICondition.AICOND_AGGRO) := by
  by_cases hne : ai.spells = []
  · have hrun : CasterAI.JustEngagedWith h ai who = (ai, []) := by
      simp [CasterAI.JustEngagedWith, hne]
    rw [hrun]
    refine ⟨fun _ => rfl, ?_, ?_, ?_, ?_, ?_, ?_⟩
    · intro k i info hk
      simp [hne] at hk
    · intro i d hmem
      simp at hmem
    · intro e _ hmem
      simp [hne] at hmem
    · intro i hmem
      simp [hne] at hmem
    · intro i hmem
      simp [hne] at hmem
    · intro t i b hmem
      simp at hmem
  · have hlen : 0 < ai.spells.length := List.length_pos.mpr hne
    have hlt : h.rand32 0 % ai.spells.length < ai.spells.length := Nat.mod_lt _ hlen
    have hrun : CasterAI.JustEngagedWith h ai who =
        ({ ai with events := (CasterAI.engageLoop h who ai.spells
            (h.rand32 0 % ai.spells.length) ai.spells 0 ai.events).1 },
          (CasterAI.engageLoop h who ai.spells
            (h.rand32 0 % ai.spells.length) ai.spells 0 ai.events).2) := by
      simp [CasterAI.JustEngagedWith, hne]
    rw [hrun]
    have hsound := CasterAI_engageLoop_schedule_sound h who ai.spells
      (h.rand32 0 % ai.spells.length) ai.spells 0 ai.events
    have hcomplete := CasterAI_engageLoop_schedule_complete h who ai.spells
      (h.rand32 0 % ai.spells.length) ai.spells 0 ai.events
    have haggro := CasterAI_engageLoop_aggro_casts h who ai.spells
      (h.rand32 0 % ai.spells.length) ai.spells 0 ai.events
    have horigin := CasterAI_engageLoop_origin h who ai.spells
      (h.rand32 0 % ai.spells.length) ai.spells 0 ai.events
    have hpending := (CasterAI_engageLoop_pending h who ai.spells
      (h.rand32 0 % ai.spells.length) ai.spells 0 ai.events).2
    refine ⟨fun hx => absurd hx hne, ?_, ?_, ?_, ?_, ?_, ?_⟩
    · intro k i info hk hinfo hc
      obtain ⟨c1, c2⟩ := hcomplete k i info hk hinfo hc
      simp only [Nat.zero_add] at c1 c2
      refine ⟨?_, ?_⟩
      · intro hk2
        simpa [CasterAI.engageDuration, hk2] using c1
      · intro hk2
        have hgetD : ai.spells.getD (h.rand32 0 % ai.spells.length) 0 = i := by
          rw [← hk2]
          simp [List.getD, hk]
        refine ⟨?_, ?_, fun hsum => Nat.mod_eq_of_lt hsum⟩
        · have := c2 hk2
          rwa [hgetD] at this
        · simpa [CasterAI.engageDuration, hk2] using c1
    · intro i d hmem
      obtain ⟨k, info, hk, hinfo, hc, hd⟩ := hsound i d hmem
      simp only [Nat.zero_add] at hd
      exact ⟨k, info, hk, hinfo, hc, by rw [hd]; rfl⟩
    · intro e he hmem hel
      rcases horigin e he with ⟨_, hnot⟩ | ⟨k, info, hk, hinfo, _, hd⟩
      · exact absurd ⟨hmem, hel⟩ hnot
      · simp only [Nat.zero_add] at hd
        exact ⟨k, info, hk, hinfo, by rw [hd]; rfl⟩
    · intro i hi hel
      exact hpending i hi hel
    · intro i hi info hinfo hc
      refine ⟨haggro.1 i hi info hinfo hc, ?_⟩
      intro d hmem
      obtain ⟨k, info1, _, hinfo1, hc1, _⟩ := hsound i d hmem
      rw [hinfo] at hinfo1; cases hinfo1
      rw [hc] at hc1; cases hc1
    · intro t i b hmem
      obtain ⟨a, b1, _, d⟩ := haggro.2 t i b hmem
      exact ⟨a, b1, d⟩

/-- Witness for C15: the example host with owned list [9, 7] and the draw
4321, which picks index 1, the cooldown-loop ability 7: it is scheduled with
its real cooldown 1500 plus its cast time 100. -/
theorem CasterAI_JustEngagedWith_durations_witness :
    Call.ScheduleEvent 7 1600 ∈
      (CasterAI.JustEngagedWith { exampleHost with draws := fun _ => 4321 }
        ⟨⟨[9, 7], []⟩, 30⟩ 1).2 :=
  (((CasterAI_JustEngagedWith_durations { exampleHost with draws := fun _ => 4321 }
    ⟨⟨[9, 7], []⟩, 30⟩ 1).2.1 1 7 ⟨AICondition.AICOND_COMBAT, 2000, 1500, 20⟩
    rfl rfl rfl).2 (by decide)).2.1
